import Mathlib

/-!
# LittleGameEngine: frame orchestration, rotation advance and mesh loading

A shallow embedding of

* `src/first_app.cpp` (namespace `lge2d` below): the 2D application with its
  swap-chain recreation protocol and per-frame acquire / record / submit
  sequence;
* `src/src/simple_render_system.cpp` and `src/src/lge_model.cpp`
  (namespace `lge` below): the 3D render system's rotation advance and the
  vertex de-duplication and vertex colours of `LgeModel::Builder::loadModel`.

Conventions of the embedding.

* Calls into Vulkan, GLFW and the engine classes whose sources are not part
  of the repository snapshot are external: every result the code inspects is
  supplied by an explicit environment record, and every call is appended to
  an event log carried in the state.
* `float` is idealised: numeric fields range over a type `α` (a linearly
  ordered field with a floor function where `glm::mod` is involved), so
  rounding and signed zero are outside the model. NaN matters in one place,
  the key comparison of the map in `loadModel`: there `α` is arbitrary and
  the comparison of vertices, `operator==` of `Vertex`, is a parameter that
  need not be reflexive.
* A C++ `throw` is the outcome `threw`, a failed `assert` is `aborted`, and a
  wait loop that has not left within the observed window events is `blocked`.
  Undefined behaviour is the outcome `undefined` for a null `lgeSwapChain` or
  `lgePipeline` that is dereferenced and, in `loadModel`, for a read outside
  an attribute array and for overflow of `int` arithmetic.
* A command buffer is named by its index in `commandBuffers` and a model by
  the pointer stored in the game object; that an acquired image index
  addresses a command buffer is the subject of the invariant on the number
  of command buffers, not of the outcome.
-/

/-! ## Shared basics -/

/-- Result of running a piece of the program on a state of type `σ`. -/
inductive Outcome (σ : Type) where
  | returned (s : σ)
  | threw (what : String) (s : σ)
  | aborted (what : String) (s : σ)
  | blocked (s : σ)
  | undefined

namespace Outcome

/-- Sequencing: continue with `f` only after a normal return. -/
def bind {σ : Type} (o : Outcome σ) (f : σ → Outcome σ) : Outcome σ :=
  match o with
  | returned s => f s
  | threw w s => threw w s
  | aborted w s => aborted w s
  | blocked s => blocked s
  | undefined => undefined

/-- The state an outcome carries, if any. -/
def state? {σ : Type} : Outcome σ → Option σ
  | returned s => some s
  | threw _ s => some s
  | aborted _ s => some s
  | blocked s => some s
  | undefined => none

/-- The outcome carries a state, and `P` holds of it. -/
def Carries {σ : Type} (o : Outcome σ) (P : σ → Prop) : Prop :=
  match o.state? with
  | some s => P s
  | none => False

/-- Run `f` for `k` consecutive calls, stopping at the first call that does not return. -/
def iter {σ : Type} (f : σ → Outcome σ) : Nat → σ → Outcome σ
  | 0, s => returned s
  | k + 1, s => (f s).bind (iter f k)

end Outcome

/-- The type `VkResult`: the numeric result code of a Vulkan call. -/
abbrev VkResult := Int

abbrev VK_SUCCESS : VkResult := 0
abbrev VK_SUBOPTIMAL_KHR : VkResult := 1000001003
abbrev VK_ERROR_OUT_OF_DATE_KHR : VkResult := -1000001004

structure VkExtent2D where
  width : Nat
  height : Nat
deriving DecidableEq, Repr

/-- The vector type `glm::vec2`. -/
structure Vec2 (α : Type) where
  x : α
  y : α
deriving DecidableEq, Repr

/-- The vector type `glm::vec3`. -/
structure Vec3 (α : Type) where
  x : α
  y : α
  z : α
deriving DecidableEq, Repr

/-- The function `glm::mod(x, y)`, defined by GLM as `x - y * floor(x / y)`. -/
def glmMod {α : Type} [LinearOrderedField α] [FloorRing α] (x y : α) : α :=
  x - y * ((⌊x / y⌋ : Int) : α)

/-- The conversion `static_cast<uint32_t>` of a size. -/
def toUint32 (n : Nat) : Nat := n % 2 ^ 32

/-- The call `std::vector::resize(n)`: truncate, or pad with value-initialised elements. -/
def vectorResize {β : Type} (xs : List β) (n : Nat) (fill : β) : List β :=
  xs.take n ++ List.replicate (n - xs.length) fill

/-! ## `src/first_app.cpp` -/

namespace lge2d

abbrev VkCommandBuffer := Nat
abbrev VkPipelineLayout := Nat
abbrev VkRenderPass := Nat

/-- The struct `LgeModel::Vertex` as `first_app.cpp` initialises it: 2D position and colour. -/
structure Vertex (α : Type) where
  position : Vec2 α
  color : Vec3 α
deriving DecidableEq, Repr

/-- An `LgeModel` built from a vertex list. -/
structure LgeModel (α : Type) where
  vertices : List (Vertex α)
deriving DecidableEq, Repr

structure Transform2dComponent (α : Type) where
  translation : Vec2 α
  scale : Vec2 α
  rotation : α
deriving DecidableEq, Repr

/-- The fields of `LgeGameObject` that `first_app.cpp` reads or writes.
`model` is a `std::shared_ptr`, null when `none`. -/
structure LgeGameObject (α : Type) where
  model : Option (LgeModel α)
  color : Vec3 α
  transform2d : Transform2dComponent α
deriving DecidableEq, Repr

/-- The struct `SimplePushConstantData` of `first_app.cpp` (`transform` is a `glm::mat2`,
kept as its two columns). -/
structure SimplePushConstantData (α : Type) where
  transform : Vec2 α × Vec2 α
  offset : Vec2 α
  color : Vec3 α
deriving DecidableEq, Repr

/-- What `first_app.cpp` uses from GLM, `<cmath>` and `lge_game_object.hpp`, none of which
is part of the sources: taken as parameters. -/
structure Externals (α : Type) where
  two_pi : α
  sin : α → α
  cos : α → α
  createGameObject : LgeGameObject α
  mat2 : Transform2dComponent α → Vec2 α × Vec2 α

/-- The swap chain as far as the application observes it: the window extent it was
constructed with, and what it reports afterwards. -/
structure LgeSwapChain where
  windowExtent : VkExtent2D
  imageCount : Nat
  swapChainExtent : VkExtent2D
  renderPass : VkRenderPass
deriving DecidableEq, Repr

structure LgePipeline where
  pipelineLayout : VkPipelineLayout
  renderPass : VkRenderPass
deriving DecidableEq, Repr

/-- The window: only its was-resized flag is state of the model, the extent it reports
comes from the environment. -/
structure LgeWindow where
  framebufferResized : Bool
deriving DecidableEq, Repr

def LgeWindow.wasWindowResized (w : LgeWindow) : Bool := w.framebufferResized

def LgeWindow.resetWindowResizedFlag (w : LgeWindow) : LgeWindow :=
  { w with framebufferResized := false }

/-- External calls made by the application, in program order. A command recorded into
`commandBuffers[imageIndex]` names that buffer by its index. -/
inductive Event (α : Type) where
  | glfwPollEvents
  | glfwWaitEvents
  | getExtent (extent : VkExtent2D)
  | vkDeviceWaitIdle
  | vkCreatePipelineLayout
  | newSwapChain (windowExtent : VkExtent2D) (previous : Option LgeSwapChain)
  | newPipeline (pipelineLayout : VkPipelineLayout) (renderPass : VkRenderPass)
  | vkAllocateCommandBuffers (commandBufferCount : Nat)
  | vkFreeCommandBuffers (commandBufferCount : Nat)
  | resetWindowResizedFlag
  | acquireNextImage
  | vkBeginCommandBuffer (imageIndex : Nat)
  | vkCmdBeginRenderPass (imageIndex : Nat) (renderPass : VkRenderPass) (extent : VkExtent2D)
  | vkCmdSetViewport (imageIndex : Nat) (width height : Nat)
  | vkCmdSetScissor (imageIndex : Nat) (extent : VkExtent2D)
  | pipelineBind (imageIndex : Nat)
  | vkCmdPushConstants (imageIndex : Nat) (push : SimplePushConstantData α)
  | modelBind (imageIndex : Nat) (model : Option (LgeModel α))
  | modelDraw (imageIndex : Nat) (model : Option (LgeModel α))
  | vkCmdEndRenderPass (imageIndex : Nat)
  | vkEndCommandBuffer (imageIndex : Nat)
  | submitCommandBuffers (imageIndex : Nat)

namespace Event

def isSubmit {α : Type} : Event α → Bool
  | submitCommandBuffers _ => true
  | _ => false

def isBegin {α : Type} : Event α → Bool
  | vkBeginCommandBuffer _ => true
  | _ => false

def isDraw {α : Type} : Event α → Bool
  | modelDraw _ _ => true
  | _ => false

def isNewSwapChain {α : Type} : Event α → Bool
  | newSwapChain _ _ => true
  | _ => false

def isWaitIdle {α : Type} : Event α → Bool
  | vkDeviceWaitIdle => true
  | _ => false

end Event

/-- The members of `FirstApp`, with the log of external calls made so far. -/
structure FirstApp (α : Type) where
  lgeWindow : LgeWindow
  pipelineLayout : Option VkPipelineLayout
  lgeSwapChain : Option LgeSwapChain
  lgePipeline : Option LgePipeline
  commandBuffers : List VkCommandBuffer
  gameObjects : List (LgeGameObject α)
  log : List (Event α)

/-- What the environment answers during one `recreateSwapChain`. -/
structure RecreateEnv where
  /-- The extents successive `lgeWindow.getExtent()` calls report. -/
  extents : List VkExtent2D
  /-- What the newly constructed chain reports. -/
  imageCount : Nat
  swapChainExtent : VkExtent2D
  renderPass : VkRenderPass
  /-- Result of `vkAllocateCommandBuffers`, and the handles it writes. -/
  allocResult : VkResult
  handles : Nat → VkCommandBuffer

/-- What the environment answers during one `drawFrame`. -/
structure FrameEnv where
  acquireResult : VkResult
  imageIndex : Nat
  beginResult : VkResult
  endResult : VkResult
  submitResult : VkResult
  recreate : RecreateEnv

/-- What the environment answers during the constructor. -/
structure CtorEnv where
  layoutResult : VkResult
  pipelineLayout : VkPipelineLayout
  recreate : RecreateEnv
  allocResult : VkResult
  handles : Nat → VkCommandBuffer

/-- One iteration of the run loop: whether a resize callback ran inside
`glfwPollEvents`, and the answers for the `drawFrame` that follows. -/
structure TickEnv where
  resized : Bool
  frame : FrameEnv

namespace FirstApp

variable {α : Type}

def emit (s : FirstApp α) (es : List (Event α)) : FirstApp α :=
  { s with log := s.log ++ es }

/-- The vertex list `loadGameObjects` builds its one model from. -/
def triangleModel [Field α] : LgeModel α :=
  ⟨[ ⟨⟨0, -(1 / 2)⟩, ⟨1, 0, 0⟩⟩,
     ⟨⟨1 / 2, 1 / 2⟩, ⟨0, 1, 0⟩⟩,
     ⟨⟨-(1 / 2), 1 / 2⟩, ⟨0, 0, 1⟩⟩ ]⟩

/-- The loop body of `FirstApp::loadGameObjects`: the object pushed in iteration `i`. -/
def loadGameObject [Field α] (ext : Externals α) (lgeModel : LgeModel α) (i : Nat) :
    LgeGameObject α :=
  let triangle := ext.createGameObject
  let triangle := { triangle with model := some lgeModel }
  let triangle := { triangle with
    color := ⟨1 * ext.sin (i : α), 1 * ext.cos (i : α), 1 * ext.sin ((i : α) * (1 / 2))⟩ }
  let triangle := { triangle with
    transform2d := { triangle.transform2d with
      translation := { triangle.transform2d.translation with x := 2 / 10 } } }
  let triangle := { triangle with
    transform2d := { triangle.transform2d with
      scale := ⟨1 / 2 + (i : α) * (5 / 100), 1 / 2 + (i : α) * (5 / 100)⟩ } }
  { triangle with
    transform2d := { triangle.transform2d with
      rotation := ext.two_pi * (25 / 100) * (i : α) / 5 } }

/-- The function `FirstApp::loadGameObjects`. -/
def loadGameObjects [Field α] (ext : Externals α) (s : FirstApp α) : FirstApp α :=
  let lgeModel : LgeModel α := triangleModel
  { s with
    gameObjects := (List.range 20).foldl
      (fun gameObjects i => gameObjects ++ [loadGameObject ext lgeModel i]) s.gameObjects }

/-- The function `FirstApp::createPipelineLayout`. -/
def createPipelineLayout (layoutResult : VkResult) (layout : VkPipelineLayout)
    (s : FirstApp α) : Outcome (FirstApp α) :=
  let s := s.emit [.vkCreatePipelineLayout]
  if layoutResult ≠ VK_SUCCESS then
    .threw "failed to create pipeline layout!" s
  else
    .returned { s with pipelineLayout := some layout }

/-- The function `FirstApp::createPipeline`. -/
def createPipeline (s : FirstApp α) : Outcome (FirstApp α) :=
  match s.lgeSwapChain with
  | none => .aborted "Cannot create pipeline before swap chain" s
  | some sc =>
    match s.pipelineLayout with
    | none => .aborted "Cannot create pipeline before pipeline layout" s
    | some layout =>
      let s := s.emit [.newPipeline layout sc.renderPass]
      .returned { s with lgePipeline := some ⟨layout, sc.renderPass⟩ }

/-- The function `FirstApp::createCommandBuffers`. -/
def createCommandBuffers (allocResult : VkResult) (handles : Nat → VkCommandBuffer)
    (s : FirstApp α) : Outcome (FirstApp α) :=
  match s.lgeSwapChain with
  | none => .undefined
  | some sc =>
    let s := { s with commandBuffers := vectorResize s.commandBuffers sc.imageCount 0 }
    let commandBufferCount := toUint32 s.commandBuffers.length
    let s := s.emit [.vkAllocateCommandBuffers commandBufferCount]
    if allocResult ≠ VK_SUCCESS then
      .threw "failed to allocate command buffers!" s
    else
      .returned { s with
        commandBuffers :=
          (List.range commandBufferCount).map handles ++ s.commandBuffers.drop commandBufferCount }

/-- The function `FirstApp::freeCommandBuffers`. -/
def freeCommandBuffers (s : FirstApp α) : FirstApp α :=
  let s := s.emit [.vkFreeCommandBuffers (toUint32 s.commandBuffers.length)]
  { s with commandBuffers := [] }

/-- The wait loop of `recreateSwapChain`, entered with the extent read last and the
extents still to be observed: the extent it leaves with (`none` while it has not left)
and the calls it made. -/
def waitForExtent (extent : VkExtent2D) :
    List VkExtent2D → Option VkExtent2D × List (Event α)
  | [] => if extent.width = 0 ∨ extent.height = 0 then (none, []) else (some extent, [])
  | e :: rest =>
    if extent.width = 0 ∨ extent.height = 0 then
      ((waitForExtent e rest).1, .getExtent e :: .glfwWaitEvents :: (waitForExtent e rest).2)
    else (some extent, [])

/-- The part of `FirstApp::recreateSwapChain` after its wait loop, entered with the extent
the loop left with: wait for the device, construct the chain, reallocate the command
buffers if the image count differs, rebuild the pipeline. -/
def rebuild (env : RecreateEnv) (extent : VkExtent2D) (s : FirstApp α) :
    Outcome (FirstApp α) :=
  let s := s.emit [.vkDeviceWaitIdle]
  let chain : LgeSwapChain := ⟨extent, env.imageCount, env.swapChainExtent, env.renderPass⟩
  match s.lgeSwapChain with
  | none =>
    let s := s.emit [.newSwapChain extent none]
    createPipeline { s with lgeSwapChain := some chain }
  | some old =>
    let s := s.emit [.newSwapChain extent (some old)]
    let s := { s with lgeSwapChain := some chain }
    if chain.imageCount ≠ s.commandBuffers.length then
      (createCommandBuffers env.allocResult env.handles (freeCommandBuffers s)).bind
        createPipeline
    else
      createPipeline s

/-- The function `FirstApp::recreateSwapChain`. -/
def recreateSwapChain (env : RecreateEnv) (s : FirstApp α) : Outcome (FirstApp α) :=
  match env.extents with
  | [] => .blocked s
  | e0 :: rest =>
    let s := s.emit (.getExtent e0 :: (waitForExtent e0 rest).2)
    match (waitForExtent (α := α) e0 rest).1 with
    | none => .blocked s
    | some extent => rebuild env extent s

/-- The loop body of `FirstApp::renderGameObjects` for one object: the advanced object. -/
def advanceObject [LinearOrderedField α] [FloorRing α] (ext : Externals α)
    (obj : LgeGameObject α) : LgeGameObject α :=
  { obj with
    transform2d := { obj.transform2d with
      rotation := glmMod (obj.transform2d.rotation + 1 / 100) ext.two_pi } }

/-- The loop body of `FirstApp::renderGameObjects` for one object: the commands recorded
for the (already advanced) object. -/
def objectCommands (ext : Externals α) (commandBuffer : Nat) (obj : LgeGameObject α) :
    List (Event α) :=
  let push : SimplePushConstantData α :=
    { offset := obj.transform2d.translation
      color := obj.color
      transform := ext.mat2 obj.transform2d }
  [.vkCmdPushConstants commandBuffer push,
   .modelBind commandBuffer obj.model,
   .modelDraw commandBuffer obj.model]

/-- The function `FirstApp::renderGameObjects`. -/
def renderGameObjects [LinearOrderedField α] [FloorRing α] (ext : Externals α)
    (commandBuffer : Nat) (s : FirstApp α) : Outcome (FirstApp α) :=
  match s.lgePipeline with
  | none => .undefined
  | some _ =>
    let s := s.emit [.pipelineBind commandBuffer]
    let objs := s.gameObjects.map (advanceObject ext)
    let s := { s with gameObjects := objs }
    .returned (s.emit (objs.flatMap (objectCommands ext commandBuffer)))

/-- The function `FirstApp::recordCommandBuffer`. -/
def recordCommandBuffer [LinearOrderedField α] [FloorRing α] (ext : Externals α)
    (env : FrameEnv) (imageIndex : Nat) (s : FirstApp α) : Outcome (FirstApp α) :=
  let s := s.emit [.vkBeginCommandBuffer imageIndex]
  if env.beginResult ≠ VK_SUCCESS then
    .threw "failed to begin recording command buffer!" s
  else
    match s.lgeSwapChain with
    | none => .undefined
    | some sc =>
      let s := s.emit
        [.vkCmdBeginRenderPass imageIndex sc.renderPass sc.swapChainExtent,
         .vkCmdSetViewport imageIndex sc.swapChainExtent.width sc.swapChainExtent.height,
         .vkCmdSetScissor imageIndex sc.swapChainExtent]
      (renderGameObjects ext imageIndex s).bind fun s =>
        let s := s.emit [.vkCmdEndRenderPass imageIndex, .vkEndCommandBuffer imageIndex]
        if env.endResult ≠ VK_SUCCESS then
          .threw "failed to record command buffer!" s
        else
          .returned s

/-- The function `FirstApp::drawFrame`. -/
def drawFrame [LinearOrderedField α] [FloorRing α] (ext : Externals α)
    (env : FrameEnv) (s : FirstApp α) : Outcome (FirstApp α) :=
  match s.lgeSwapChain with
  | none => .undefined
  | some _ =>
    let s := s.emit [.acquireNextImage]
    if env.acquireResult = VK_ERROR_OUT_OF_DATE_KHR then
      recreateSwapChain env.recreate s
    else if env.acquireResult ≠ VK_SUCCESS ∧ env.acquireResult ≠ VK_SUBOPTIMAL_KHR then
      .threw "failed to acquire swap chain image!" s
    else
      (recordCommandBuffer ext env env.imageIndex s).bind fun s =>
        let s := s.emit [.submitCommandBuffers env.imageIndex]
        if env.submitResult = VK_ERROR_OUT_OF_DATE_KHR ∨ env.submitResult = VK_SUBOPTIMAL_KHR
            ∨ s.lgeWindow.wasWindowResized = true then
          let s := { s with lgeWindow := s.lgeWindow.resetWindowResizedFlag }
          let s := s.emit [.resetWindowResizedFlag]
          recreateSwapChain env.recreate s
        else if env.submitResult ≠ VK_SUCCESS then
          .threw "failed to present swap chain image!" s
        else
          .returned s

/-- The members of `FirstApp` before the constructor body runs. -/
def blank (lgeWindow : LgeWindow) : FirstApp α :=
  { lgeWindow := lgeWindow, pipelineLayout := none, lgeSwapChain := none,
    lgePipeline := none, commandBuffers := [], gameObjects := [], log := [] }

/-- The constructor `FirstApp::FirstApp`, on a freshly created window. -/
def new [LinearOrderedField α] [FloorRing α] (ext : Externals α) (env : CtorEnv)
    (lgeWindow : LgeWindow) : Outcome (FirstApp α) :=
  let s : FirstApp α := blank lgeWindow
  (((Outcome.returned (loadGameObjects ext s)).bind
      (createPipelineLayout env.layoutResult env.pipelineLayout)).bind
      (recreateSwapChain env.recreate)).bind
      (createCommandBuffers env.allocResult env.handles)

/-- One iteration of the loop of `FirstApp::run`: `glfwPollEvents()` (during which a resize
callback may set the window flag), then `drawFrame()`. -/
def tick [LinearOrderedField α] [FloorRing α] (ext : Externals α) (env : TickEnv)
    (s : FirstApp α) : Outcome (FirstApp α) :=
  let s := s.emit [.glfwPollEvents]
  let s := { s with
    lgeWindow := { s.lgeWindow with
      framebufferResized := s.lgeWindow.framebufferResized || env.resized } }
  drawFrame ext env.frame s

/-- The loop of `FirstApp::run` over the iterations made before the window asks to close. -/
def runLoop [LinearOrderedField α] [FloorRing α] (ext : Externals α) :
    List TickEnv → FirstApp α → Outcome (FirstApp α)
  | [], s => .returned s
  | env :: rest, s => (tick ext env s).bind (runLoop ext rest)

/-- The function `FirstApp::run`. -/
def run [LinearOrderedField α] [FloorRing α] (ext : Externals α) (ticks : List TickEnv)
    (s : FirstApp α) : Outcome (FirstApp α) :=
  (runLoop ext ticks s).bind fun s => .returned (s.emit [.vkDeviceWaitIdle])

/-- An extent with which the wait loop of `recreateSwapChain` is left. -/
def nonZero (e : VkExtent2D) : Bool := decide (¬(e.width = 0 ∨ e.height = 0))

/-- The calls one further round of the wait loop makes when it observes `e`. -/
def waitRound (e : VkExtent2D) : List (Event α) := [.getExtent e, .glfwWaitEvents]

/-- The calls `recreateSwapChain` makes to observe the extents `l` one after the other:
the initial query, then one round of the wait loop per further extent. -/
def windowQueries : List VkExtent2D → List (Event α)
  | [] => []
  | e0 :: rest => .getExtent e0 :: rest.flatMap waitRound

/-- The calls `recordCommandBuffer` makes for image `imageIndex` of chain `sc` when no
call fails, `objs` being the objects after their rotation advance. -/
def frameCommands (ext : Externals α) (imageIndex : Nat) (sc : LgeSwapChain)
    (objs : List (LgeGameObject α)) : List (Event α) :=
  [.vkBeginCommandBuffer imageIndex,
   .vkCmdBeginRenderPass imageIndex sc.renderPass sc.swapChainExtent,
   .vkCmdSetViewport imageIndex sc.swapChainExtent.width sc.swapChainExtent.height,
   .vkCmdSetScissor imageIndex sc.swapChainExtent,
   .pipelineBind imageIndex]
  ++ objs.flatMap (objectCommands ext imageIndex)
  ++ [.vkCmdEndRenderPass imageIndex, .vkEndCommandBuffer imageIndex]

/-- The state of `drawFrame` right after `submitCommandBuffers`, when acquire, recording
and the calls before it did not fail: objects advanced once, frame recorded and
submitted. -/
def afterSubmit [LinearOrderedField α] [FloorRing α] (ext : Externals α) (env : FrameEnv)
    (sc : LgeSwapChain) (s : FirstApp α) : FirstApp α :=
  { s with
    gameObjects := s.gameObjects.map (advanceObject ext)
    log := s.log ++ .acquireNextImage ::
      (frameCommands ext env.imageIndex sc (s.gameObjects.map (advanceObject ext))
        ++ [.submitCommandBuffers env.imageIndex]) }

/-- The branch condition of `drawFrame` after the submit. -/
def recreateRequested (env : FrameEnv) (s : FirstApp α) : Prop :=
  env.submitResult = VK_ERROR_OUT_OF_DATE_KHR ∨ env.submitResult = VK_SUBOPTIMAL_KHR
    ∨ s.lgeWindow.wasWindowResized = true

instance (env : FrameEnv) (s : FirstApp α) : Decidable (recreateRequested env s) := by
  unfold recreateRequested; infer_instance

/-- Number of frames submitted according to a log. -/
def submitted (log : List (Event α)) : Nat := log.countP Event.isSubmit

/-- Number of command-buffer recordings begun according to a log. -/
def recorded (log : List (Event α)) : Nat := log.countP Event.isBegin

/-- Number of draw calls according to a log. -/
def drawCalls (log : List (Event α)) : Nat := log.countP Event.isDraw

/-- Number of swap chains constructed according to a log. -/
def swapChainsBuilt (log : List (Event α)) : Nat := log.countP Event.isNewSwapChain

/-- Number of `vkDeviceWaitIdle` calls according to a log. -/
def idleWaits (log : List (Event α)) : Nat := log.countP Event.isWaitIdle

/-- The class invariant the constructor establishes: layout, swap chain and pipeline
exist. -/
def Constructed (s : FirstApp α) : Prop :=
  s.pipelineLayout.isSome = true ∧ s.lgeSwapChain.isSome = true ∧ s.lgePipeline.isSome = true

instance (s : FirstApp α) : Decidable (Constructed s) := by
  unfold Constructed; infer_instance

end FirstApp

/-! ### Concrete scenario data -/

/-- Externals for concrete scenarios, from a value for `two_pi` and functions for `sin`
and `cos`: a fresh game object has null model, zero translation and rotation and unit scale,
and the scale matrix stands in for `mat2`. -/
def Externals.standard {α : Type} [Field α] (two_pi : α) (sin cos : α → α) : Externals α :=
  { two_pi := two_pi
    sin := sin
    cos := cos
    createGameObject := ⟨none, ⟨0, 0, 0⟩, ⟨⟨0, 0⟩, ⟨1, 1⟩, 0⟩⟩
    mat2 := fun t => (⟨t.scale.x, 0⟩, ⟨0, t.scale.y⟩) }

/-- Rational stand-ins for the numeric externals: `two_pi` is the approximation 710/113,
`sin` and `cos` are the constants at angle zero. -/
def sampleExternals : Externals ℚ :=
  Externals.standard (710 / 113) (fun _ => 0) (fun _ => 1)

/-- A recreation in which the window reports 800 x 600 at once and the chain has three
images. -/
def sampleRecreate : RecreateEnv :=
  { extents := [⟨800, 600⟩], imageCount := 3, swapChainExtent := ⟨800, 600⟩, renderPass := 1,
    allocResult := VK_SUCCESS, handles := fun i => i + 1 }

/-- A construction in which every call succeeds. -/
def sampleCtor : CtorEnv :=
  { layoutResult := VK_SUCCESS, pipelineLayout := 1, recreate := sampleRecreate,
    allocResult := VK_SUCCESS, handles := fun i => i + 1 }

/-- The application `FirstApp.new ext sampleCtor` returns on a window whose flag is
unset. -/
def constructedApp {α : Type} [Field α] (ext : Externals α) : FirstApp α :=
  { lgeWindow := ⟨false⟩
    pipelineLayout := some 1
    lgeSwapChain := some ⟨⟨800, 600⟩, 3, ⟨800, 600⟩, 1⟩
    lgePipeline := some ⟨1, 1⟩
    commandBuffers := [1, 2, 3]
    gameObjects := (FirstApp.loadGameObjects ext (FirstApp.blank ⟨false⟩)).gameObjects
    log := [.vkCreatePipelineLayout, .getExtent ⟨800, 600⟩, .vkDeviceWaitIdle,
      .newSwapChain ⟨800, 600⟩ none, .newPipeline 1 1, .vkAllocateCommandBuffers 3] }

/-- The constructed application over the rational stand-ins. -/
def sampleApp : FirstApp ℚ := constructedApp sampleExternals

/-- The same application after a resize callback has set the window flag. -/
def sampleAppResized : FirstApp ℚ :=
  { sampleApp with lgeWindow := ⟨true⟩ }

/-- A frame in which every call succeeds, on image 0. -/
def okFrame : FrameEnv :=
  { acquireResult := VK_SUCCESS, imageIndex := 0, beginResult := VK_SUCCESS,
    endResult := VK_SUCCESS, submitResult := VK_SUCCESS, recreate := sampleRecreate }

/-- A frame in which `vkBeginCommandBuffer` fails with `VK_ERROR_OUT_OF_HOST_MEMORY` (-1)
and every other call would succeed. -/
def beginFailureFrame : FrameEnv :=
  { okFrame with beginResult := -1 }

/-- The window reports a non-zero extent at some point and, should command buffers be
reallocated, the allocation succeeds: the recreation then runs to its end. -/
def RecreateEnv.Completes (env : RecreateEnv) : Prop :=
  (∃ e ∈ env.extents, FirstApp.nonZero e = true) ∧ env.allocResult = VK_SUCCESS

instance (env : RecreateEnv) : Decidable env.Completes := by
  unfold RecreateEnv.Completes; infer_instance

/-- No call of the frame reports a fatal error: acquire and submit return one of
`VK_SUCCESS`, `VK_SUBOPTIMAL_KHR`, `VK_ERROR_OUT_OF_DATE_KHR`, beginning and ending the
command buffer succeed, and a recreation, should one start, runs to its end. -/
def FrameEnv.NoFailure (env : FrameEnv) : Prop :=
  (env.acquireResult = VK_SUCCESS ∨ env.acquireResult = VK_SUBOPTIMAL_KHR ∨
    env.acquireResult = VK_ERROR_OUT_OF_DATE_KHR) ∧
  (env.submitResult = VK_SUCCESS ∨ env.submitResult = VK_SUBOPTIMAL_KHR ∨
    env.submitResult = VK_ERROR_OUT_OF_DATE_KHR) ∧
  env.beginResult = VK_SUCCESS ∧ env.endResult = VK_SUCCESS ∧ env.recreate.Completes

instance (env : FrameEnv) : Decidable env.NoFailure := by
  unfold FrameEnv.NoFailure; infer_instance

/-- A run of 100 iterations without resize events in which only the fifth acquire reports
`VK_ERROR_OUT_OF_DATE_KHR` and every other call succeeds. -/
def hundredTicks : List TickEnv :=
  (List.range 100).map fun i =>
    { resized := false
      frame := if i = 4 then { okFrame with acquireResult := VK_ERROR_OUT_OF_DATE_KHR }
        else okFrame }

end lge2d

/-! ## `src/src/simple_render_system.cpp` and `src/src/lge_model.cpp` -/

namespace lge

structure TransformComponent (α : Type) where
  translation : Vec3 α
  scale : Vec3 α
  rotation : Vec3 α
deriving DecidableEq, Repr

/-- The fields of the 3D `LgeGameObject` that the render system reads or writes; `M` is the
type of model handles. -/
structure LgeGameObject (α M : Type) where
  model : M
  color : Vec3 α
  transform : TransformComponent α
deriving DecidableEq, Repr

/-- The struct `SimplePushConstantData` of `simple_render_system.cpp` (`transform` is a
`glm::mat4`, kept as the list of its entries). -/
structure SimplePushConstantData (α : Type) where
  transform : List α
  color : Vec3 α
deriving DecidableEq, Repr

/-- Commands the render system records into the command buffer. -/
inductive Command (α M : Type) where
  | pipelineBind
  | vkCmdPushConstants (push : SimplePushConstantData α)
  | modelBind (model : M)
  | modelDraw (model : M)

namespace SimpleRenderSystem

variable {α M : Type}

/-- The loop body of `SimpleRenderSystem::renderGameObjects` for one object: the advanced
object. -/
def advanceObject [LinearOrderedField α] [FloorRing α] (two_pi : α)
    (obj : LgeGameObject α M) : LgeGameObject α M :=
  let obj := { obj with
    transform := { obj.transform with
      rotation := { obj.transform.rotation with
        y := glmMod (obj.transform.rotation.y + 1 / 10000) two_pi } } }
  { obj with
    transform := { obj.transform with
      rotation := { obj.transform.rotation with
        x := glmMod (obj.transform.rotation.x + 5 / 10000) two_pi } } }

/-- The function `SimpleRenderSystem::renderGameObjects`: the advanced objects and the
commands recorded. `two_pi` is `glm::two_pi<float>()`, and `projected` stands for
`camera.getProjectionMatrix() * obj.transform.mat4()`, neither being part of the sources. -/
def renderGameObjects [LinearOrderedField α] [FloorRing α] (two_pi : α)
    (projected : TransformComponent α → List α)
    (gameObjects : List (LgeGameObject α M)) :
    List (LgeGameObject α M) × List (Command α M) :=
  let objs := gameObjects.map (advanceObject two_pi)
  (objs,
   Command.pipelineBind :: objs.flatMap fun obj =>
     [Command.vkCmdPushConstants ⟨projected obj.transform, obj.color⟩,
      Command.modelBind obj.model,
      Command.modelDraw obj.model])

end SimpleRenderSystem

namespace tinyobj

structure index_t where
  vertex_index : Int
  normal_index : Int
  texcoord_index : Int
deriving DecidableEq, Repr

structure attrib_t (α : Type) where
  vertices : List α
  normals : List α
  texcoords : List α
  colors : List α
deriving DecidableEq, Repr

/-- A shape, reduced to `shape.mesh.indices`. -/
structure shape_t where
  indices : List index_t
deriving DecidableEq, Repr

end tinyobj

namespace LgeModel

/-- The struct `LgeModel::Vertex` of the 3D engine, with memberwise equality. -/
structure Vertex (α : Type) where
  position : Vec3 α
  color : Vec3 α
  normal : Vec3 α
  uv : Vec2 α
deriving DecidableEq, Repr

/-- The members of `LgeModel::Builder`. -/
structure Builder (α : Type) where
  vertices : List (Vertex α)
  indices : List Nat

/-- A value of C++ type `int`: overflow of signed arithmetic is undefined (`none`). -/
def int32 (x : Int) : Option Int :=
  if -2 ^ 31 ≤ x ∧ x < 2 ^ 31 then some x else none

/-- The `int` expression `stride * i + k`. -/
def scaledIndex (stride i k : Int) : Option Int :=
  (int32 (stride * i)).bind fun t => int32 (t + k)

/-- Conversion of an `int` to `size_t`. -/
def toSizeT (x : Int) : Nat := (x % 2 ^ 64).toNat

/-- The read `xs[i]` of a `std::vector` at an `int` index: undefined (`none`) outside the
vector. -/
def readAt {α : Type} (xs : List α) (i : Int) : Option α := xs[toSizeT i]?

variable {α : Type}

/-- The block `if (index.vertex_index >= 0) ...` of the loop body of `loadModel`. -/
def setPositionColor [One α] (attrib : tinyobj.attrib_t α) (index : tinyobj.index_t)
    (vertex : Vertex α) : Option (Vertex α) :=
  if index.vertex_index ≥ 0 then do
    let p0 ← (scaledIndex 3 index.vertex_index 0).bind (readAt attrib.vertices)
    let p1 ← (scaledIndex 3 index.vertex_index 1).bind (readAt attrib.vertices)
    let p2 ← (scaledIndex 3 index.vertex_index 2).bind (readAt attrib.vertices)
    let vertex := { vertex with position := ⟨p0, p1, p2⟩ }
    let colorIndex ← scaledIndex 3 index.vertex_index 2
    if toSizeT colorIndex < attrib.colors.length then do
      let c0 ← (int32 (colorIndex - 2)).bind (readAt attrib.colors)
      let c1 ← (int32 (colorIndex - 1)).bind (readAt attrib.colors)
      let c2 ← (int32 (colorIndex - 0)).bind (readAt attrib.colors)
      pure { vertex with color := ⟨c0, c1, c2⟩ }
    else
      pure { vertex with color := ⟨1, 1, 1⟩ }
  else
    pure vertex

/-- The block `if (index.normal_index >= 0) ...` of the loop body of `loadModel`. -/
def setNormal (attrib : tinyobj.attrib_t α) (index : tinyobj.index_t)
    (vertex : Vertex α) : Option (Vertex α) :=
  if index.normal_index ≥ 0 then do
    let n0 ← (scaledIndex 3 index.normal_index 0).bind (readAt attrib.normals)
    let n1 ← (scaledIndex 3 index.normal_index 1).bind (readAt attrib.normals)
    let n2 ← (scaledIndex 3 index.normal_index 2).bind (readAt attrib.normals)
    pure { vertex with normal := ⟨n0, n1, n2⟩ }
  else
    pure vertex

/-- The block `if (index.texcoord_index >= 0) ...` of the loop body of `loadModel`. -/
def setUv [One α] [Sub α] (attrib : tinyobj.attrib_t α) (index : tinyobj.index_t)
    (vertex : Vertex α) : Option (Vertex α) :=
  if index.texcoord_index ≥ 0 then do
    let u ← (scaledIndex 2 index.texcoord_index 0).bind (readAt attrib.texcoords)
    let v ← (scaledIndex 2 index.texcoord_index 1).bind (readAt attrib.texcoords)
    pure { vertex with uv := ⟨u, 1 - v⟩ }
  else
    pure vertex

/-- The vertex the loop body of `loadModel` builds from one mesh index, starting from the
value-initialised `Vertex vertex{}`. -/
def buildVertex [Zero α] [One α] [Sub α] (attrib : tinyobj.attrib_t α)
    (index : tinyobj.index_t) : Option (Vertex α) :=
  ((setPositionColor attrib index ⟨⟨0, 0, 0⟩, ⟨0, 0, 0⟩, ⟨0, 0, 0⟩, ⟨0, 0⟩⟩).bind
    (setNormal attrib index)).bind (setUv attrib index)

/-- The locals of `loadModel` that its loop updates; `uniqueVertices` is the
`std::unordered_map<Vertex, uint32_t>` as its entries in insertion order. -/
structure LoadState (α : Type) where
  vertices : List (Vertex α)
  indices : List Nat
  uniqueVertices : List (Vertex α × Nat)

/-- The lookup every operation of `uniqueVertices` starts with: the entry whose key compares
equal to `key`. Keys are compared with `keyEq`, the `operator==` of `Vertex`, which is
declared in `lge_model.hpp`, outside the sources, and is therefore a parameter; on `float`
members it is not reflexive (a NaN differs from itself). The hash of lines 15-23 only
selects the bucket to search and is taken to agree on keys that compare equal. -/
def mapFind (keyEq : Vertex α → Vertex α → Bool) (m : List (Vertex α × Nat))
    (key : Vertex α) : Option (Vertex α × Nat) :=
  m.find? fun e => keyEq e.1 key

/-- The call `uniqueVertices.count(key)`. -/
def mapCount (keyEq : Vertex α → Vertex α → Bool) (m : List (Vertex α × Nat))
    (key : Vertex α) : Nat :=
  match mapFind keyEq m key with
  | some _ => 1
  | none => 0

/-- The assignment `uniqueVertices[key] = value`: the entry found is overwritten, and a
new entry is inserted when none is found. -/
def mapAssign (keyEq : Vertex α → Vertex α → Bool) :
    List (Vertex α × Nat) → Vertex α → Nat → List (Vertex α × Nat)
  | [], key, value => [(key, value)]
  | e :: m, key, value =>
    if keyEq e.1 key = true then (e.1, value) :: m else e :: mapAssign keyEq m key value

/-- The read `uniqueVertices[key]`: the value of the entry found and the map as it was or,
when none is found, the value 0 of a newly inserted value-initialised entry and the map
with that entry. -/
def mapSubscript (keyEq : Vertex α → Vertex α → Bool) (m : List (Vertex α × Nat))
    (key : Vertex α) : Nat × List (Vertex α × Nat) :=
  match mapFind keyEq m key with
  | some e => (e.2, m)
  | none => (0, m ++ [(key, 0)])

/-- The tail of the loop body of `loadModel`: register the vertex if `count` finds none
equal to it, then push the value `uniqueVertices[vertex]` yields. -/
def addVertex (keyEq : Vertex α → Vertex α → Bool) (st : LoadState α) (vertex : Vertex α) :
    LoadState α :=
  let st :=
    if mapCount keyEq st.uniqueVertices vertex = 0 then
      { st with
        uniqueVertices :=
          mapAssign keyEq st.uniqueVertices vertex (toUint32 st.vertices.length)
        vertices := st.vertices ++ [vertex] }
    else st
  let read := mapSubscript keyEq st.uniqueVertices vertex
  { st with uniqueVertices := read.2, indices := st.indices ++ [read.1] }

/-- The inner loop `for (const auto& index : shape.mesh.indices)`. -/
def loadIndices [Zero α] [One α] [Sub α] (keyEq : Vertex α → Vertex α → Bool)
    (attrib : tinyobj.attrib_t α) :
    List tinyobj.index_t → LoadState α → Option (LoadState α)
  | [], st => some st
  | index :: rest, st =>
    (buildVertex attrib index).bind fun vertex =>
      loadIndices keyEq attrib rest (addVertex keyEq st vertex)

/-- The outer loop `for (const auto& shape : shapes)`. -/
def loadShapes [Zero α] [One α] [Sub α] (keyEq : Vertex α → Vertex α → Bool)
    (attrib : tinyobj.attrib_t α) :
    List tinyobj.shape_t → LoadState α → Option (LoadState α)
  | [], st => some st
  | shape :: rest, st =>
    (loadIndices keyEq attrib shape.indices st).bind (loadShapes keyEq attrib rest)

/-- The function `LgeModel::Builder::loadModel`, given the `operator==` of `Vertex` and what
`tinyobj::LoadObj` produced: either the message `warn + err` of a failed load or the parsed
attributes and shapes. -/
def Builder.loadModel [Zero α] [One α] [Sub α] (keyEq : Vertex α → Vertex α → Bool)
    (parsed : Except String (tinyobj.attrib_t α × List tinyobj.shape_t))
    (b : Builder α) : Outcome (Builder α) :=
  match parsed with
  | .error what => .threw what b
  | .ok (attrib, shapes) =>
    match loadShapes keyEq attrib shapes ⟨[], [], []⟩ with
    | none => .undefined
    | some st => .returned { b with vertices := st.vertices, indices := st.indices }

/-- Memberwise comparison of two vertices from a comparison `feq` of `float`s, the way `glm`
compares vectors: the key comparison used in the scenarios. -/
def memberwiseEq (feq : α → α → Bool) (v w : Vertex α) : Bool :=
  feq v.position.x w.position.x && feq v.position.y w.position.y &&
  feq v.position.z w.position.z && feq v.color.x w.color.x && feq v.color.y w.color.y &&
  feq v.color.z w.color.z && feq v.normal.x w.normal.x && feq v.normal.y w.normal.y &&
  feq v.normal.z w.normal.z && feq v.uv.x w.uv.x && feq v.uv.y w.uv.y

/-- The key comparison for scenarios over the rationals, where no value is a NaN. -/
def exactEq (v w : Vertex ℚ) : Bool := memberwiseEq (fun a b => decide (a = b)) v w

/-- The vertices in order of first occurrence, each kept once. -/
def firstOccurrences [DecidableEq α] : List (Vertex α) → List (Vertex α)
  | [] => []
  | v :: vs => v :: (firstOccurrences vs).filter (fun w => decide (w ≠ v))

/-- All mesh indices, shape after shape. -/
def meshIndices (shapes : List tinyobj.shape_t) : List tinyobj.index_t :=
  shapes.flatMap fun shape => shape.indices

/-- The vertices built from a list of mesh indices, in order; `none` if building one of
them is undefined. -/
def buildAll [Zero α] [One α] [Sub α] (attrib : tinyobj.attrib_t α) :
    List tinyobj.index_t → Option (List (Vertex α))
  | [] => some []
  | index :: rest =>
    (buildVertex attrib index).bind fun v => (buildAll attrib rest).map fun vs => v :: vs

/-- The loop invariant of `loadModel` after the vertices `processed`, none of which has a
NaN member. -/
def Good [DecidableEq α] (keyEq : Vertex α → Vertex α → Bool) (st : LoadState α)
    (processed : List (Vertex α)) : Prop :=
  st.vertices = firstOccurrences processed ∧
  st.indices = processed.map (fun v => toUint32 (List.indexOf v st.vertices)) ∧
  ∀ v, keyEq v v = true →
    (mapFind keyEq st.uniqueVertices v).map Prod.snd
      = if v ∈ st.vertices then some (toUint32 (List.indexOf v st.vertices)) else none

/-- A `float` of the scenarios with a NaN: a rational value or NaN. -/
inductive NanFloat where
  | val (q : ℚ)
  | nan
deriving DecidableEq

instance : Zero NanFloat := ⟨.val 0⟩

instance : One NanFloat := ⟨.val 1⟩

instance : Sub NanFloat :=
  ⟨fun a b =>
    match a, b with
    | .val x, .val y => .val (x - y)
    | _, _ => .nan⟩

/-- The comparison `==` of two `float`s: NaN differs from every value, itself included. -/
def NanFloat.eq : NanFloat → NanFloat → Bool
  | .val x, .val y => decide (x = y)
  | _, _ => false

/-- Two positions, the first with a NaN coordinate; nothing else. -/
def nanAttrib : tinyobj.attrib_t NanFloat :=
  { vertices := [.nan, .val 5, .val 0, .val 1, .val 0, .val 0], normals := [],
    texcoords := [], colors := [] }

/-- One triangle that names position 1 once and the position with the NaN twice. -/
def nanShapes : List tinyobj.shape_t :=
  [⟨[⟨1, -1, -1⟩, ⟨0, -1, -1⟩, ⟨0, -1, -1⟩]⟩]

/-- The vertex built from position 1 of `nanAttrib`. -/
def plainVertex : Vertex NanFloat :=
  ⟨⟨.val 1, .val 0, .val 0⟩, ⟨.val 1, .val 1, .val 1⟩, ⟨.val 0, .val 0, .val 0⟩,
    ⟨.val 0, .val 0⟩⟩

/-- The vertex built from position 0 of `nanAttrib`. -/
def nanVertex : Vertex NanFloat :=
  ⟨⟨.nan, .val 5, .val 0⟩, ⟨.val 1, .val 1, .val 1⟩, ⟨.val 0, .val 0, .val 0⟩,
    ⟨.val 0, .val 0⟩⟩

/-- The index triple number `j` of the wide mesh: vertex `j / 65536`, normal `j % 65536`, no
texture coordinate. -/
def wideIndex (j : Nat) : tinyobj.index_t :=
  ⟨((j / 65536 : Nat) : Int), ((j % 65536 : Nat) : Int), -1⟩

/-- A mesh of one shape with `2 ^ 32 + 1` index triples, pairwise distinct. -/
def wideShape : tinyobj.shape_t :=
  ⟨(List.range (2 ^ 32 + 1)).map wideIndex⟩

/-- Attributes for the wide mesh: 65537 positions and 65536 normals whose coordinates are
their own offsets in the arrays, no colours, no texture coordinates. -/
def wideAttrib : tinyobj.attrib_t ℚ :=
  { vertices := (List.range (3 * 65537)).map fun i : Nat => (i : ℚ)
    normals := (List.range (3 * 65536)).map fun i : Nat => (i : ℚ)
    texcoords := []
    colors := [] }

/-- The vertex built from index triple `j` of the wide mesh. -/
def wideVertex (j : Nat) : Vertex ℚ :=
  { position := ⟨((3 * (j / 65536) + 0 : Nat) : ℚ), ((3 * (j / 65536) + 1 : Nat) : ℚ),
      ((3 * (j / 65536) + 2 : Nat) : ℚ)⟩
    color := ⟨1, 1, 1⟩
    normal := ⟨((3 * (j % 65536) + 0 : Nat) : ℚ), ((3 * (j % 65536) + 1 : Nat) : ℚ),
      ((3 * (j % 65536) + 2 : Nat) : ℚ)⟩
    uv := ⟨0, 0⟩ }

/-- Four corner positions of a unit square, no normals, texture coordinates or colours. -/
def quadAttrib : tinyobj.attrib_t ℚ :=
  { vertices := [0, 0, 0, 1, 0, 0, 1, 1, 0, 0, 1, 0], normals := [], texcoords := [],
    colors := [] }

/-- The square as two shapes of one triangle each, sharing corners 0 and 2. -/
def quadShapes : List tinyobj.shape_t :=
  [⟨[⟨0, -1, -1⟩, ⟨1, -1, -1⟩, ⟨2, -1, -1⟩]⟩, ⟨[⟨0, -1, -1⟩, ⟨2, -1, -1⟩, ⟨3, -1, -1⟩]⟩]

/-- What `loadModel` leaves in the builder for the square. -/
def quadBuilder : Builder ℚ :=
  { vertices :=
      [⟨⟨0, 0, 0⟩, ⟨1, 1, 1⟩, ⟨0, 0, 0⟩, ⟨0, 0⟩⟩, ⟨⟨1, 0, 0⟩, ⟨1, 1, 1⟩, ⟨0, 0, 0⟩, ⟨0, 0⟩⟩,
       ⟨⟨1, 1, 0⟩, ⟨1, 1, 1⟩, ⟨0, 0, 0⟩, ⟨0, 0⟩⟩, ⟨⟨0, 1, 0⟩, ⟨1, 1, 1⟩, ⟨0, 0, 0⟩, ⟨0, 0⟩⟩]
    indices := [0, 1, 2, 0, 2, 3] }

/-- The colour of a vertex built from a mesh index with `vertex_index = v`: the entries
`3v`, `3v+1`, `3v+2` of the colour array, all of them present, when `3v+2 < colors.size()`,
and white otherwise. -/
def SpecifiedColor [One α] (colors : List α) (v : Nat) (color : Vec3 α) : Prop :=
  (3 * v + 2 < colors.length →
    colors[3 * v]? = some color.x ∧ colors[3 * v + 1]? = some color.y ∧
      colors[3 * v + 2]? = some color.z) ∧
  (¬3 * v + 2 < colors.length → color = ⟨1, 1, 1⟩)

instance [One α] [DecidableEq α] (colors : List α) (v : Nat) (color : Vec3 α) :
    Decidable (SpecifiedColor colors v color) := by
  unfold SpecifiedColor
  infer_instance

/-- Three positions; colours for the first two only. -/
def tintAttrib : tinyobj.attrib_t ℚ :=
  { vertices := [0, 0, 0, 1, 0, 0, 0, 1, 0], normals := [], texcoords := [],
    colors := [7, 8, 9, 4, 5, 6] }

/-- One triangle over the three positions. -/
def tintShapes : List tinyobj.shape_t :=
  [⟨[⟨0, -1, -1⟩, ⟨1, -1, -1⟩, ⟨2, -1, -1⟩]⟩]

/-- What `loadModel` leaves in the builder for the tinted triangle. -/
def tintBuilder : Builder ℚ :=
  { vertices :=
      [⟨⟨0, 0, 0⟩, ⟨7, 8, 9⟩, ⟨0, 0, 0⟩, ⟨0, 0⟩⟩, ⟨⟨1, 0, 0⟩, ⟨4, 5, 6⟩, ⟨0, 0, 0⟩, ⟨0, 0⟩⟩,
       ⟨⟨0, 1, 0⟩, ⟨1, 1, 1⟩, ⟨0, 0, 0⟩, ⟨0, 0⟩⟩]
    indices := [0, 1, 2] }

end LgeModel

end lge

/-! ## Auxiliary facts: `glm::mod` and outcomes -/

theorem glmMod_add_glmMod {α : Type} [LinearOrderedField α] [FloorRing α] (x d p : α)
    (hp : p ≠ 0) : glmMod (glmMod x p + d) p = glmMod (x + d) p := by
  unfold glmMod
  have h : (x - p * ((⌊x / p⌋ : Int) : α) + d) / p = (x + d) / p - ((⌊x / p⌋ : Int) : α) := by
    field_simp
    ring
  rw [h, Int.floor_sub_int]
  push_cast
  ring

theorem glmMod_range {α : Type} [LinearOrderedField α] [FloorRing α] (x p : α)
    (hp : 0 < p) : 0 ≤ glmMod x p ∧ glmMod x p < p := by
  have h : glmMod x p = p * Int.fract (x / p) := by
    unfold glmMod
    rw [← Int.self_sub_floor]
    field_simp
  rw [h]
  constructor
  · exact mul_nonneg hp.le (Int.fract_nonneg _)
  · calc p * Int.fract (x / p) < p * 1 := mul_lt_mul_of_pos_left (Int.fract_lt_one _) hp
      _ = p := mul_one p

theorem glmMod_iterate {α : Type} [LinearOrderedField α] [FloorRing α] (d p : α)
    (hp : p ≠ 0) (k : Nat) (r : α) :
    (fun x => glmMod (x + d) p)^[k + 1] r = glmMod (r + ((k + 1 : Nat) : α) * d) p := by
  induction k with
  | zero => simp
  | succ k ih =>
    rw [Function.iterate_succ_apply', ih, glmMod_add_glmMod _ _ _ hp]
    congr 1
    push_cast
    ring

theorem glmMod_small {α : Type} [LinearOrderedField α] [FloorRing α] (x p : α)
    (h0 : 0 ≤ x) (h1 : x < p) : glmMod x p = x := by
  unfold glmMod
  have hp : 0 < p := lt_of_le_of_lt h0 h1
  have : ⌊x / p⌋ = 0 := by
    rw [Int.floor_eq_zero_iff]
    exact ⟨div_nonneg h0 hp.le, (div_lt_one hp).mpr h1⟩
  rw [this]
  simp

theorem map_iterate {β : Type} (f : β → β) (k : Nat) (l : List β) :
    (List.map f)^[k] l = l.map f^[k] := by
  induction k generalizing l with
  | zero => simp
  | succ k ih => simp [Function.iterate_succ_apply, ih]

/-! ## Auxiliary facts on `src/first_app.cpp` -/

namespace lge2d

namespace FirstApp

variable {α : Type}

theorem waitForExtent_fst (e0 : VkExtent2D) (rest : List VkExtent2D) :
    (waitForExtent (α := α) e0 rest).1 = (e0 :: rest).find? nonZero := by
  induction rest generalizing e0 with
  | nil => by_cases h : e0.width = 0 ∨ e0.height = 0 <;> simp [waitForExtent, nonZero, h]
  | cons e rest ih =>
    by_cases h : e0.width = 0 ∨ e0.height = 0
    · simp only [waitForExtent, h, if_true, ih]
      simp [List.find?_cons, nonZero, h]
    · simp [waitForExtent, nonZero, h]

theorem nonZero_eq_false (e : VkExtent2D) :
    nonZero e = false ↔ (e.width = 0 ∨ e.height = 0) := by
  simp only [nonZero, decide_eq_false_iff_not, not_not]

theorem nonZero_eq_true (e : VkExtent2D) :
    nonZero e = true ↔ ¬(e.width = 0 ∨ e.height = 0) := by
  simp only [nonZero, decide_eq_true_eq]

theorem waitForExtent_nonZero (e : VkExtent2D) (rest : List VkExtent2D)
    (h : nonZero e = true) : waitForExtent (α := α) e rest = (some e, []) := by
  have h1 := (nonZero_eq_true e).mp h
  cases rest <;> simp only [waitForExtent, h1, if_false]

theorem waitForExtent_zeros (e0 : VkExtent2D) (rest : List VkExtent2D)
    (h : ∀ z ∈ e0 :: rest, nonZero z = false) :
    waitForExtent (α := α) e0 rest = (none, rest.flatMap waitRound) := by
  induction rest generalizing e0 with
  | nil =>
    have h1 := (nonZero_eq_false e0).mp (h e0 (by simp))
    simp [waitForExtent, h1]
  | cons e rest ih =>
    have h1 := (nonZero_eq_false e0).mp (h e0 (by simp))
    have h2 := ih e (fun z hz => h z (List.mem_cons_of_mem _ hz))
    simp [waitForExtent, h1, h2, waitRound]

theorem waitForExtent_first (zs : List VkExtent2D) (z e : VkExtent2D)
    (rest : List VkExtent2D) (hz : ∀ x ∈ z :: zs, nonZero x = false)
    (he : nonZero e = true) :
    waitForExtent (α := α) z (zs ++ e :: rest) = (some e, (zs ++ [e]).flatMap waitRound) := by
  induction zs generalizing z with
  | nil =>
    have h1 := (nonZero_eq_false z).mp (hz z (by simp))
    simp [waitForExtent, h1, waitForExtent_nonZero e rest he, waitRound]
  | cons y zs ih =>
    have h1 := (nonZero_eq_false z).mp (hz z (by simp))
    have h2 := ih y (fun x hx => hz x (List.mem_cons_of_mem _ hx))
    simp [waitForExtent, h1, h2, waitRound]

/-- The wait phase of `recreateSwapChain` when the observed extents are `zs`, all with a
zero side, followed by the non-zero `e`. -/
theorem recreateSwapChain_first (env : RecreateEnv) (s : FirstApp α)
    (zs : List VkExtent2D) (e : VkExtent2D) (rest : List VkExtent2D)
    (hx : env.extents = zs ++ e :: rest) (hz : ∀ x ∈ zs, nonZero x = false)
    (he : nonZero e = true) :
    recreateSwapChain env s = rebuild env e (s.emit (windowQueries (zs ++ [e]))) := by
  cases zs with
  | nil =>
    simp only [List.nil_append] at hx
    simp [recreateSwapChain, hx, waitForExtent_nonZero e rest he, windowQueries]
  | cons z zs =>
    simp only [List.cons_append] at hx
    simp [recreateSwapChain, hx, waitForExtent_first zs z e rest hz he, windowQueries]

/-- The wait phase of `recreateSwapChain` when every observed extent has a zero side. -/
theorem recreateSwapChain_zeros (env : RecreateEnv) (s : FirstApp α)
    (hz : ∀ x ∈ env.extents, nonZero x = false) :
    recreateSwapChain env s = .blocked (s.emit (windowQueries env.extents)) := by
  cases hx : env.extents with
  | nil => simp [recreateSwapChain, hx, windowQueries, emit]
  | cons z zs =>
    rw [hx] at hz
    simp [recreateSwapChain, hx, waitForExtent_zeros z zs hz, windowQueries]

/-- Every list of extents with a non-zero member splits at its first non-zero member. -/
theorem split_first_nonZero (l : List VkExtent2D) (h : ∃ e ∈ l, nonZero e = true) :
    ∃ zs e rest, l = zs ++ e :: rest ∧ (∀ x ∈ zs, nonZero x = false) ∧ nonZero e = true := by
  induction l with
  | nil => simp at h
  | cons a l ih =>
    by_cases ha : nonZero a = true
    · exact ⟨[], a, l, by simp, by simp, ha⟩
    · have hl : ∃ e ∈ l, nonZero e = true := by
        obtain ⟨e, hm, he⟩ := h
        rcases List.mem_cons.mp hm with rfl | hm
        · exact absurd he ha
        · exact ⟨e, hm, he⟩
      obtain ⟨zs, e, rest, hsplit, hz, he⟩ := ih hl
      refine ⟨a :: zs, e, rest, by simp [hsplit], ?_, he⟩
      intro x hx
      rcases List.mem_cons.mp hx with rfl | hx
      · simpa using ha
      · exact hz x hx

theorem mem_windowQueries (l : List VkExtent2D) (ev : Event α)
    (h : ev ∈ windowQueries l) : ev = .glfwWaitEvents ∨ ∃ e, ev = .getExtent e := by
  cases l with
  | nil => simp [windowQueries] at h
  | cons e l =>
    simp only [windowQueries, List.mem_cons, List.mem_flatMap, waitRound,
      List.mem_singleton, List.not_mem_nil, or_false] at h
    rcases h with rfl | ⟨x, _, rfl | rfl⟩
    · exact Or.inr ⟨e, rfl⟩
    · exact Or.inr ⟨x, rfl⟩
    · exact Or.inl rfl

theorem windowQueries_counts (l : List VkExtent2D) :
    submitted (windowQueries (α := α) l) = 0 ∧ recorded (windowQueries (α := α) l) = 0 ∧
    drawCalls (windowQueries (α := α) l) = 0 ∧ swapChainsBuilt (windowQueries (α := α) l) = 0 ∧
    idleWaits (windowQueries (α := α) l) = 0 := by
  simp only [submitted, recorded, drawCalls, swapChainsBuilt, idleWaits, List.countP_eq_zero]
  refine ⟨?_, ?_, ?_, ?_, ?_⟩ <;>
  · intro ev hev
    rcases mem_windowQueries l ev hev with rfl | ⟨e, rfl⟩ <;> simp [Event.isSubmit,
      Event.isBegin, Event.isDraw, Event.isNewSwapChain, Event.isWaitIdle]

/-- What `rebuild` does in every case: the state its outcome carries extends the log by
the device wait and the construction of one chain from the given extent, followed by calls
that neither draw nor construct a chain; objects and window are untouched. -/
theorem rebuild_state (env : RecreateEnv) (e : VkExtent2D) (s : FirstApp α) :
    (rebuild env e s).Carries fun s1 => ∃ evs,
      s1.log = s.log ++ .vkDeviceWaitIdle :: .newSwapChain e s.lgeSwapChain :: evs ∧
      submitted evs = 0 ∧ recorded evs = 0 ∧ drawCalls evs = 0 ∧ swapChainsBuilt evs = 0 ∧
      idleWaits evs = 0 ∧
      s1.lgeSwapChain = some ⟨e, env.imageCount, env.swapChainExtent, env.renderPass⟩ ∧
      s1.gameObjects = s.gameObjects ∧ s1.lgeWindow = s.lgeWindow ∧
      s1.pipelineLayout = s.pipelineLayout := by
  unfold rebuild
  cases hsc : s.lgeSwapChain with
  | none =>
    cases hl : s.pipelineLayout with
    | none =>
      simp only [createPipeline, emit, hsc, hl, Outcome.state?, Outcome.Carries]
      refine ⟨[], ?_⟩
      simp [submitted, recorded, drawCalls, swapChainsBuilt, idleWaits]
    | some l =>
      simp only [createPipeline, emit, hsc, hl, Outcome.state?, Outcome.Carries]
      refine ⟨[.newPipeline l env.renderPass], ?_⟩
      simp [submitted, recorded, drawCalls,
        swapChainsBuilt, idleWaits, Event.isSubmit, Event.isBegin, Event.isDraw,
        Event.isNewSwapChain, Event.isWaitIdle]
  | some old =>
    simp only [emit, hsc]
    by_cases hn : env.imageCount = s.commandBuffers.length
    · cases hl : s.pipelineLayout with
      | none =>
        simp only [createPipeline, emit, hl, hn, Outcome.state?, Outcome.Carries, ne_eq,
          not_true_eq_false, if_false]
        refine ⟨[], ?_⟩
        simp [submitted, recorded, drawCalls, swapChainsBuilt, idleWaits]
      | some l =>
        simp only [createPipeline, emit, hl, hn, Outcome.state?, Outcome.Carries, ne_eq,
          not_true_eq_false, if_false]
        refine ⟨[.newPipeline l env.renderPass], ?_⟩
        simp [submitted, recorded, drawCalls,
          swapChainsBuilt, idleWaits, Event.isSubmit, Event.isBegin, Event.isDraw,
          Event.isNewSwapChain, Event.isWaitIdle]
    · by_cases ha : env.allocResult = VK_SUCCESS
      · cases hl : s.pipelineLayout with
        | none =>
          simp only [createPipeline, createCommandBuffers, freeCommandBuffers, emit, hl, hn,
            ha, Outcome.state?, Outcome.bind, Outcome.Carries, ne_eq, not_true_eq_false,
            not_false_eq_true, if_false, if_true]
          refine ⟨[.vkFreeCommandBuffers (toUint32 s.commandBuffers.length),
            .vkAllocateCommandBuffers (toUint32 env.imageCount)], ?_⟩
          simp [vectorResize, submitted, recorded, drawCalls,
            swapChainsBuilt, idleWaits, Event.isSubmit, Event.isBegin, Event.isDraw,
            Event.isNewSwapChain, Event.isWaitIdle]
        | some l =>
          simp only [createPipeline, createCommandBuffers, freeCommandBuffers, emit, hl, hn,
            ha, Outcome.state?, Outcome.bind, Outcome.Carries, ne_eq, not_true_eq_false,
            not_false_eq_true, if_false, if_true]
          refine ⟨[.vkFreeCommandBuffers (toUint32 s.commandBuffers.length),
            .vkAllocateCommandBuffers (toUint32 env.imageCount),
            .newPipeline l env.renderPass], ?_⟩
          simp [vectorResize, submitted, recorded, drawCalls,
            swapChainsBuilt, idleWaits, Event.isSubmit, Event.isBegin, Event.isDraw,
            Event.isNewSwapChain, Event.isWaitIdle]
      · simp only [createCommandBuffers, freeCommandBuffers, emit, hn,
          ha, Outcome.state?, Outcome.bind, Outcome.Carries, ne_eq, not_true_eq_false,
          not_false_eq_true, if_false, if_true]
        refine ⟨[.vkFreeCommandBuffers (toUint32 s.commandBuffers.length),
          .vkAllocateCommandBuffers (toUint32 env.imageCount)], ?_⟩
        simp [vectorResize, submitted, recorded, drawCalls,
          swapChainsBuilt, idleWaits, Event.isSubmit, Event.isBegin, Event.isDraw,
          Event.isNewSwapChain, Event.isWaitIdle]

theorem carries_of_returned {σ : Type} {o : Outcome σ} {P : σ → Prop} {s : σ}
    (h : o = .returned s) (hc : o.Carries P) : P s := by
  subst h
  simpa [Outcome.Carries, Outcome.state?] using hc

theorem carries_of_state {σ : Type} {o : Outcome σ} {P : σ → Prop} {s : σ}
    (h : o.state? = some s) (hc : o.Carries P) : P s := by
  simpa [Outcome.Carries, h] using hc

theorem toUint32_le (n : Nat) : toUint32 n ≤ n := Nat.mod_le _ _

/-- With a pipeline layout present and a successful allocation, `rebuild` returns. -/
theorem rebuild_returns (env : RecreateEnv) (e : VkExtent2D) (s : FirstApp α)
    (hl : s.pipelineLayout.isSome = true) (ha : env.allocResult = VK_SUCCESS) :
    ∃ s1, rebuild env e s = .returned s1 ∧ Constructed s1 ∧
      (s.lgeSwapChain.isSome = true → s1.commandBuffers.length = env.imageCount) := by
  obtain ⟨l, hl⟩ := Option.isSome_iff_exists.mp hl
  unfold rebuild
  cases hsc : s.lgeSwapChain with
  | none =>
    simp [createPipeline, emit, hsc, hl, Constructed]
  | some old =>
    simp only [emit, hsc]
    by_cases hn : env.imageCount = s.commandBuffers.length
    · simp [createPipeline, emit, hl, hn, Constructed]
    · have := toUint32_le env.imageCount
      simp only [createPipeline, createCommandBuffers, freeCommandBuffers, emit, hl, hn,
        ha, Outcome.bind, ne_eq, not_true_eq_false, not_false_eq_true, if_false, if_true]
      refine ⟨_, rfl, ?_, ?_⟩
      · simp [Constructed]
      · intro _
        simp [vectorResize]
        omega

theorem createPipeline_threw (s s1 : FirstApp α) (w : String) :
    createPipeline s ≠ .threw w s1 := by
  unfold createPipeline
  cases s.lgeSwapChain with
  | none => simp
  | some sc => cases s.pipelineLayout <;> simp

theorem createCommandBuffers_threw (r : VkResult) (hd : Nat → VkCommandBuffer)
    (s s1 : FirstApp α) (w : String) (h : createCommandBuffers r hd s = .threw w s1) :
    w = "failed to allocate command buffers!" := by
  unfold createCommandBuffers at h
  cases hsc : s.lgeSwapChain with
  | none => simp [hsc] at h
  | some sc =>
    by_cases hr : r = VK_SUCCESS
    · simp [hsc, hr] at h
    · simp only [hsc, ne_eq, hr, not_false_eq_true, if_true, Outcome.threw.injEq] at h
      exact h.1.symm

theorem bind_threw {σ : Type} (o : Outcome σ) (f : σ → Outcome σ) (w : String) (s1 : σ)
    (h : o.bind f = .threw w s1) :
    o = .threw w s1 ∨ ∃ s2, o = .returned s2 ∧ f s2 = .threw w s1 := by
  cases o with
  | returned s2 => exact Or.inr ⟨s2, rfl, h⟩
  | threw w2 s2 => exact Or.inl h
  | aborted w2 s2 => simp [Outcome.bind] at h
  | blocked s2 => simp [Outcome.bind] at h
  | undefined => simp [Outcome.bind] at h

theorem rebuild_threw (env : RecreateEnv) (e : VkExtent2D) (s s1 : FirstApp α) (w : String)
    (h : rebuild env e s = .threw w s1) : w = "failed to allocate command buffers!" := by
  unfold rebuild at h
  cases hsc : s.lgeSwapChain with
  | none =>
    simp only [emit, hsc] at h
    exact absurd h (createPipeline_threw _ _ _)
  | some old =>
    simp only [emit, hsc] at h
    split at h
    · rcases bind_threw _ _ _ _ h with h1 | ⟨s2, _, h2⟩
      · exact createCommandBuffers_threw _ _ _ _ _ h1
      · exact absurd h2 (createPipeline_threw _ _ _)
    · exact absurd h (createPipeline_threw _ _ _)

/-- The only exception `recreateSwapChain` raises is the allocation failure. -/
theorem recreateSwapChain_threw (env : RecreateEnv) (s s1 : FirstApp α) (w : String)
    (h : recreateSwapChain env s = .threw w s1) :
    w = "failed to allocate command buffers!" := by
  unfold recreateSwapChain at h
  cases hx : env.extents with
  | nil => simp [hx] at h
  | cons e0 rest =>
    simp only [hx] at h
    cases hw : (waitForExtent (α := α) e0 rest).1 with
    | none => simp [hw] at h
    | some extent =>
      simp only [hw] at h
      exact rebuild_threw _ _ _ _ _ h

/-- When no call fails, `recordCommandBuffer` advances every object once and records the
frame's commands. -/
theorem recordCommandBuffer_returns [LinearOrderedField α] [FloorRing α]
    (ext : Externals α) (env : FrameEnv) (i : Nat) (s : FirstApp α) (sc : LgeSwapChain)
    (hsc : s.lgeSwapChain = some sc) (hp : s.lgePipeline.isSome = true)
    (hb : env.beginResult = VK_SUCCESS) (he : env.endResult = VK_SUCCESS) :
    recordCommandBuffer ext env i s = .returned
      { s with
        gameObjects := s.gameObjects.map (advanceObject ext)
        log := s.log ++ frameCommands ext i sc (s.gameObjects.map (advanceObject ext)) } := by
  obtain ⟨p, hp⟩ := Option.isSome_iff_exists.mp hp
  simp [recordCommandBuffer, renderGameObjects, emit, hsc, hp, hb, he, Outcome.bind,
    frameCommands]

/-- The exceptions `recordCommandBuffer` raises. -/
theorem recordCommandBuffer_threw [LinearOrderedField α] [FloorRing α]
    (ext : Externals α) (env : FrameEnv) (i : Nat) (s s1 : FirstApp α) (w : String)
    (h : recordCommandBuffer ext env i s = .threw w s1) :
    w = "failed to begin recording command buffer!" ∨ w = "failed to record command buffer!" := by
  unfold recordCommandBuffer at h
  by_cases hb : env.beginResult = VK_SUCCESS
  · cases hsc : s.lgeSwapChain with
    | none => simp [emit, hb, hsc] at h
    | some sc =>
      cases hp : s.lgePipeline with
      | none => simp [emit, hb, hsc, hp, renderGameObjects, Outcome.bind] at h
      | some p =>
        by_cases he : env.endResult = VK_SUCCESS
        · simp [emit, hb, hsc, hp, he, renderGameObjects, Outcome.bind] at h
        · simp only [emit, hb, hsc, hp, he, renderGameObjects, Outcome.bind, ne_eq,
            not_true_eq_false, not_false_eq_true, if_false, if_true, Outcome.threw.injEq] at h
          exact Or.inr h.1.symm
  · simp only [emit, hb, ne_eq, not_false_eq_true, if_true, Outcome.threw.injEq] at h
    exact Or.inl h.1.symm

theorem frameCommands_counts (ext : Externals α) (i : Nat) (sc : LgeSwapChain)
    (objs : List (LgeGameObject α)) :
    submitted (frameCommands ext i sc objs) = 0 ∧ recorded (frameCommands ext i sc objs) = 1 ∧
    drawCalls (frameCommands ext i sc objs) = objs.length ∧
    swapChainsBuilt (frameCommands ext i sc objs) = 0 ∧
    idleWaits (frameCommands ext i sc objs) = 0 := by
  have key : ∀ p : Event α → Bool, (∀ o, (objectCommands ext i o).countP p = 0) →
      (objs.flatMap (objectCommands ext i)).countP p = 0 := by
    intro p hp
    induction objs with
    | nil => simp
    | cons o objs ih => simp [List.flatMap_cons, List.countP_append, hp o, ih]
  have draws : (objs.flatMap (objectCommands ext i)).countP Event.isDraw = objs.length := by
    clear key
    induction objs with
    | nil => simp
    | cons o objs ih =>
      rw [List.flatMap_cons, List.countP_append, ih]
      simp [objectCommands, Event.isDraw, List.countP_cons]
      omega
  simp only [submitted, recorded, drawCalls, swapChainsBuilt, idleWaits, frameCommands,
    List.countP_append, draws]
  rw [key Event.isSubmit (by intro o; simp [objectCommands, Event.isSubmit, List.countP_cons]),
    key Event.isBegin (by intro o; simp [objectCommands, Event.isBegin, List.countP_cons]),
    key Event.isNewSwapChain
      (by intro o; simp [objectCommands, Event.isNewSwapChain, List.countP_cons]),
    key Event.isWaitIdle (by intro o; simp [objectCommands, Event.isWaitIdle, List.countP_cons])]
  simp [Event.isSubmit, Event.isBegin, Event.isDraw, Event.isNewSwapChain, Event.isWaitIdle,
    List.countP_cons]

/-- The state `recreateSwapChain` returns when the recreation runs to its end. -/
theorem recreateSwapChain_completes (env : RecreateEnv) (s : FirstApp α)
    (hc : env.Completes) (hl : s.pipelineLayout.isSome = true) :
    ∃ s1 evs, recreateSwapChain env s = .returned s1 ∧ Constructed s1 ∧
      s1.log = s.log ++ evs ∧ submitted evs = 0 ∧ recorded evs = 0 ∧ drawCalls evs = 0 ∧
      swapChainsBuilt evs = 1 ∧ idleWaits evs = 1 ∧
      s1.gameObjects = s.gameObjects ∧ s1.lgeWindow = s.lgeWindow ∧
      (∃ e, s1.lgeSwapChain = some ⟨e, env.imageCount, env.swapChainExtent, env.renderPass⟩) ∧
      (s.lgeSwapChain.isSome = true → s1.commandBuffers.length = env.imageCount) := by
  obtain ⟨zs, e, rest, hx, hz, he⟩ := split_first_nonZero env.extents hc.1
  rw [recreateSwapChain_first env s zs e rest hx hz he]
  obtain ⟨s1, hret, hcon, hlen⟩ :=
    rebuild_returns env e (s.emit (windowQueries (zs ++ [e]))) hl hc.2
  obtain ⟨evs, hlog, h1, h2, h3, h4, h5, h6, h7, h8, _⟩ :=
    carries_of_returned hret (rebuild_state env e (s.emit (windowQueries (zs ++ [e]))))
  obtain ⟨q1, q2, q3, q4, q5⟩ := windowQueries_counts (α := α) (zs ++ [e])
  refine ⟨s1, windowQueries (zs ++ [e]) ++
    .vkDeviceWaitIdle :: .newSwapChain e s.lgeSwapChain :: evs, hret, hcon, ?_, ?_, ?_, ?_,
    ?_, ?_, h7, h8, ⟨e, h6⟩, hlen⟩
  · simpa [emit, List.append_assoc] using hlog
  · simp only [submitted, List.countP_append, List.countP_cons] at *
    simp [q1, h1, Event.isSubmit]
  · simp only [recorded, List.countP_append, List.countP_cons] at *
    simp [q2, h2, Event.isBegin]
  · simp only [drawCalls, List.countP_append, List.countP_cons] at *
    simp [q3, h3, Event.isDraw]
  · simp only [swapChainsBuilt, List.countP_append, List.countP_cons] at *
    simp [q4, h4, Event.isNewSwapChain]
  · simp only [idleWaits, List.countP_append, List.countP_cons] at *
    simp [q5, h5, Event.isWaitIdle]

/-- The acquire step of `drawFrame`. -/
theorem drawFrame_outOfDate [LinearOrderedField α] [FloorRing α] (ext : Externals α)
    (env : FrameEnv) (s : FirstApp α) (hsc : s.lgeSwapChain.isSome = true)
    (ha : env.acquireResult = VK_ERROR_OUT_OF_DATE_KHR) :
    drawFrame ext env s = recreateSwapChain env.recreate (s.emit [.acquireNextImage]) := by
  obtain ⟨sc, hsc⟩ := Option.isSome_iff_exists.mp hsc
  simp [drawFrame, hsc, ha]

/-- The part of `drawFrame` after a successful or suboptimal acquire and a recording
without failure. -/
theorem drawFrame_reaches_submit [LinearOrderedField α] [FloorRing α] (ext : Externals α)
    (env : FrameEnv) (s : FirstApp α) (sc : LgeSwapChain)
    (hsc : s.lgeSwapChain = some sc) (hp : s.lgePipeline.isSome = true)
    (ha : env.acquireResult = VK_SUCCESS ∨ env.acquireResult = VK_SUBOPTIMAL_KHR)
    (hb : env.beginResult = VK_SUCCESS) (he : env.endResult = VK_SUCCESS) :
    drawFrame ext env s =
      if recreateRequested env s then
        recreateSwapChain env.recreate
          ({ afterSubmit ext env sc s with
              lgeWindow := s.lgeWindow.resetWindowResizedFlag }.emit [.resetWindowResizedFlag])
      else if env.submitResult ≠ VK_SUCCESS then
        .threw "failed to present swap chain image!" (afterSubmit ext env sc s)
      else .returned (afterSubmit ext env sc s) := by
  have h1 : env.acquireResult ≠ VK_ERROR_OUT_OF_DATE_KHR := by
    rcases ha with ha | ha <;> rw [ha] <;> decide
  have h2 : ¬(env.acquireResult ≠ VK_SUCCESS ∧ env.acquireResult ≠ VK_SUBOPTIMAL_KHR) := by
    rcases ha with ha | ha <;> simp [ha]
  have hrec := recordCommandBuffer_returns ext env env.imageIndex (s.emit [.acquireNextImage])
    sc hsc hp hb he
  unfold drawFrame
  simp only [hsc, h1, h2, if_false, hrec, Outcome.bind]
  simp only [emit, afterSubmit, recreateRequested, List.append_assoc, List.singleton_append,
    List.cons_append, List.nil_append]

theorem afterSubmit_counts [LinearOrderedField α] [FloorRing α] (ext : Externals α)
    (env : FrameEnv) (sc : LgeSwapChain) (s : FirstApp α) :
    submitted (afterSubmit ext env sc s).log = submitted s.log + 1 ∧
    recorded (afterSubmit ext env sc s).log = recorded s.log + 1 ∧
    drawCalls (afterSubmit ext env sc s).log = drawCalls s.log + s.gameObjects.length ∧
    swapChainsBuilt (afterSubmit ext env sc s).log = swapChainsBuilt s.log ∧
    idleWaits (afterSubmit ext env sc s).log = idleWaits s.log := by
  obtain ⟨f1, f2, f3, f4, f5⟩ :=
    frameCommands_counts ext env.imageIndex sc (s.gameObjects.map (advanceObject ext))
  simp only [submitted, recorded, drawCalls, swapChainsBuilt, idleWaits] at *
  simp only [afterSubmit, List.countP_append, List.countP_cons, List.countP_nil, f1, f2, f3, f4,
    f5, List.length_map]
  simp [Event.isSubmit, Event.isBegin, Event.isDraw, Event.isNewSwapChain, Event.isWaitIdle]

theorem bind_returned {σ : Type} (o : Outcome σ) (f : σ → Outcome σ) (s1 : σ)
    (h : o.bind f = .returned s1) : ∃ s2, o = .returned s2 ∧ f s2 = .returned s1 := by
  cases o with
  | returned s2 => exact ⟨s2, rfl, h⟩
  | threw w2 s2 => simp [Outcome.bind] at h
  | aborted w2 s2 => simp [Outcome.bind] at h
  | blocked s2 => simp [Outcome.bind] at h
  | undefined => simp [Outcome.bind] at h

theorem createPipeline_returned (s s1 : FirstApp α) (h : createPipeline s = .returned s1) :
    s1.lgeSwapChain = s.lgeSwapChain ∧ s1.commandBuffers = s.commandBuffers := by
  unfold createPipeline at h
  cases hsc : s.lgeSwapChain with
  | none => simp [hsc] at h
  | some sc =>
    cases hl : s.pipelineLayout with
    | none => simp [hsc, hl] at h
    | some l =>
      simp only [hsc, hl, emit, Outcome.returned.injEq] at h
      subst h
      simp [hsc]

theorem createCommandBuffers_returned (r : VkResult) (hd : Nat → VkCommandBuffer)
    (s s1 : FirstApp α) (h : createCommandBuffers r hd s = .returned s1) :
    s1.lgeSwapChain = s.lgeSwapChain ∧
    ∃ sc, s.lgeSwapChain = some sc ∧ s1.commandBuffers.length = sc.imageCount := by
  unfold createCommandBuffers at h
  cases hsc : s.lgeSwapChain with
  | none => simp [hsc] at h
  | some sc =>
    by_cases hr : r = VK_SUCCESS
    · simp only [hsc, hr, emit, ne_eq, not_true_eq_false, if_false,
        Outcome.returned.injEq] at h
      subst h
      refine ⟨by simp [hsc], sc, rfl, ?_⟩
      have h1 : (vectorResize s.commandBuffers sc.imageCount 0).length = sc.imageCount := by
        simp [vectorResize]
        omega
      have h2 := toUint32_le sc.imageCount
      simp [h1]
      omega
    · simp [hsc, hr] at h

/-- After a returning `rebuild` that replaced an existing chain, there are as many command
buffers as the new chain has images. -/
theorem rebuild_length (env : RecreateEnv) (e : VkExtent2D) (s s1 : FirstApp α)
    (old : LgeSwapChain) (hold : s.lgeSwapChain = some old)
    (h : rebuild env e s = .returned s1) :
    s1.lgeSwapChain = some ⟨e, env.imageCount, env.swapChainExtent, env.renderPass⟩ ∧
    s1.commandBuffers.length = env.imageCount := by
  unfold rebuild at h
  simp only [emit, hold] at h
  split at h
  · obtain ⟨s2, h1, h2⟩ := bind_returned _ _ _ h
    obtain ⟨c1, sc, c2, c3⟩ := createCommandBuffers_returned _ _ _ _ h1
    obtain ⟨p1, p2⟩ := createPipeline_returned _ _ h2
    simp only [freeCommandBuffers, emit, Option.some.injEq] at c1 c2
    subst c2
    rw [p1, p2, c1, c3]
    exact ⟨rfl, rfl⟩
  · rename_i hn
    obtain ⟨p1, p2⟩ := createPipeline_returned _ _ h
    rw [p1, p2]
    simp only [ne_eq, not_not] at hn
    exact ⟨rfl, hn.symm⟩

theorem recreateSwapChain_returned (env : RecreateEnv) (s s1 : FirstApp α)
    (h : recreateSwapChain env s = .returned s1) :
    ∃ e, ∃ s0 : FirstApp α, rebuild env e s0 = .returned s1 ∧
      s0.lgeSwapChain = s.lgeSwapChain ∧ s0.commandBuffers = s.commandBuffers := by
  unfold recreateSwapChain at h
  cases hx : env.extents with
  | nil => simp [hx] at h
  | cons e0 rest =>
    simp only [hx] at h
    cases hw : (@waitForExtent α e0 rest).1 with
    | none => simp [hw] at h
    | some extent =>
      simp only [hw] at h
      exact ⟨extent, _, h, rfl, rfl⟩

theorem afterSubmit_constructed [LinearOrderedField α] [FloorRing α] (ext : Externals α)
    (env : FrameEnv) (sc : LgeSwapChain) (s : FirstApp α) (h : Constructed s) :
    Constructed (afterSubmit ext env sc s) := h

/-- One `drawFrame` in which no call fails: it returns, on a constructed application
again; and what it did, by acquire result. -/
theorem drawFrame_noFailure [LinearOrderedField α] [FloorRing α] (ext : Externals α)
    (env : FrameEnv) (s : FirstApp α) (hcon : Constructed s) (hok : env.NoFailure) :
    ∃ s1, drawFrame ext env s = .returned s1 ∧ Constructed s1 ∧
      (env.acquireResult = VK_ERROR_OUT_OF_DATE_KHR →
        s1.gameObjects = s.gameObjects ∧ recorded s1.log = recorded s.log ∧
        submitted s1.log = submitted s.log ∧ drawCalls s1.log = drawCalls s.log ∧
        swapChainsBuilt s1.log = swapChainsBuilt s.log + 1) ∧
      (env.acquireResult ≠ VK_ERROR_OUT_OF_DATE_KHR →
        s1.gameObjects = s.gameObjects.map (advanceObject ext) ∧
        recorded s1.log = recorded s.log + 1 ∧ submitted s1.log = submitted s.log + 1 ∧
        drawCalls s1.log = drawCalls s.log + s.gameObjects.length) := by
  obtain ⟨hacq, hsub, hb, he, hc⟩ := hok
  obtain ⟨hl, hsc, hp⟩ := hcon
  by_cases hood : env.acquireResult = VK_ERROR_OUT_OF_DATE_KHR
  · rw [drawFrame_outOfDate ext env s hsc hood]
    obtain ⟨s1, evs, hret, hcon1, hlog, e1, e2, e3, e4, _, hg, _⟩ :=
      recreateSwapChain_completes env.recreate (s.emit [.acquireNextImage]) hc hl
    refine ⟨s1, hret, hcon1, fun _ => ⟨hg, ?_, ?_, ?_, ?_⟩, fun h => absurd hood h⟩
    · rw [hlog]
      simp only [recorded, emit, List.countP_append] at e2 ⊢
      simp [e2, Event.isBegin]
    · rw [hlog]
      simp only [submitted, emit, List.countP_append] at e1 ⊢
      simp [e1, Event.isSubmit]
    · rw [hlog]
      simp only [drawCalls, emit, List.countP_append] at e3 ⊢
      simp [e3, Event.isDraw]
    · rw [hlog]
      simp only [swapChainsBuilt, emit, List.countP_append] at e4 ⊢
      simp [e4, Event.isNewSwapChain]
  · have ha : env.acquireResult = VK_SUCCESS ∨ env.acquireResult = VK_SUBOPTIMAL_KHR := by
      rcases hacq with h | h | h
      · exact Or.inl h
      · exact Or.inr h
      · exact absurd h hood
    obtain ⟨sc, hsc2⟩ := Option.isSome_iff_exists.mp hsc
    have hdf := drawFrame_reaches_submit ext env s sc hsc2 hp ha hb he
    obtain ⟨c1, c2, c3, _, _⟩ := afterSubmit_counts ext env sc s
    by_cases ht : recreateRequested env s
    · rw [if_pos ht] at hdf
      obtain ⟨s1, evs, hret, hcon1, hlog, e1, e2, e3, _, _, hg, _⟩ :=
        recreateSwapChain_completes env.recreate
          ({ afterSubmit ext env sc s with
              lgeWindow := s.lgeWindow.resetWindowResizedFlag }.emit [.resetWindowResizedFlag])
          hc hl
      refine ⟨s1, hdf.trans hret, hcon1, fun h => absurd h hood, fun _ => ⟨?_, ?_, ?_, ?_⟩⟩
      · rw [hg]
        rfl
      · rw [hlog]
        simp only [recorded, emit, List.countP_append] at c2 e2 ⊢
        rw [c2, e2]
        simp [Event.isBegin]
      · rw [hlog]
        simp only [submitted, emit, List.countP_append] at c1 e1 ⊢
        rw [c1, e1]
        simp [Event.isSubmit]
      · rw [hlog]
        simp only [drawCalls, emit, List.countP_append] at c3 e3 ⊢
        rw [c3, e3]
        simp [Event.isDraw]
    · have hs : env.submitResult = VK_SUCCESS := by
        rcases hsub with h | h | h
        · exact h
        · exact absurd (Or.inr (Or.inl h)) ht
        · exact absurd (Or.inl h) ht
      rw [if_neg ht, if_neg (by simp [hs])] at hdf
      exact ⟨_, hdf, afterSubmit_constructed ext env sc s ⟨hl, hsc, hp⟩,
        fun h => absurd h hood, fun _ => ⟨rfl, c2, c1, c3⟩⟩

theorem createPipeline_returned_layout (s s1 : FirstApp α)
    (h : createPipeline s = .returned s1) :
    s1.lgePipeline.isSome = true ∧ s1.pipelineLayout.isSome = true := by
  unfold createPipeline at h
  cases hsc : s.lgeSwapChain with
  | none => simp [hsc] at h
  | some sc =>
    cases hl : s.pipelineLayout with
    | none => simp [hsc, hl] at h
    | some l =>
      simp only [hsc, hl, emit, Outcome.returned.injEq] at h
      subst h
      simp [hl]

theorem rebuild_returned_constructed (env : RecreateEnv) (e : VkExtent2D)
    (s s1 : FirstApp α) (h : rebuild env e s = .returned s1) : Constructed s1 := by
  obtain ⟨evs, _, _, _, _, _, _, hchain, _⟩ := carries_of_returned h (rebuild_state env e s)
  have hpl : s1.lgePipeline.isSome = true ∧ s1.pipelineLayout.isSome = true := by
    unfold rebuild at h
    cases hsc : s.lgeSwapChain with
    | none =>
      simp only [emit, hsc] at h
      exact createPipeline_returned_layout _ _ h
    | some old =>
      simp only [emit, hsc] at h
      split at h
      · obtain ⟨s2, _, h2⟩ := bind_returned _ _ _ h
        exact createPipeline_returned_layout _ _ h2
      · exact createPipeline_returned_layout _ _ h
  exact ⟨hpl.2, by rw [hchain]; rfl, hpl.1⟩

/-- What a returning `recreateSwapChain` did. -/
theorem recreateSwapChain_returned_facts (env : RecreateEnv) (s s1 : FirstApp α)
    (h : recreateSwapChain env s = .returned s1) :
    ∃ evs, Constructed s1 ∧ s1.log = s.log ++ evs ∧ submitted evs = 0 ∧ recorded evs = 0 ∧
      drawCalls evs = 0 ∧ swapChainsBuilt evs = 1 ∧
      s1.gameObjects = s.gameObjects ∧ s1.lgeWindow = s.lgeWindow := by
  by_cases hex : ∃ e ∈ env.extents, nonZero e = true
  · obtain ⟨zs, e, rest, hx, hz, he⟩ := split_first_nonZero env.extents hex
    rw [recreateSwapChain_first env s zs e rest hx hz he] at h
    obtain ⟨evs, hlog, h1, h2, h3, h4, _, _, h7, h8, _⟩ :=
      carries_of_returned h (rebuild_state env e (s.emit (windowQueries (zs ++ [e]))))
    obtain ⟨q1, q2, q3, q4, _⟩ := @windowQueries_counts α (zs ++ [e])
    refine ⟨windowQueries (zs ++ [e]) ++
      .vkDeviceWaitIdle :: .newSwapChain e s.lgeSwapChain :: evs,
      rebuild_returned_constructed _ _ _ _ h, ?_, ?_, ?_, ?_, ?_, h7, h8⟩
    · simpa [emit, List.append_assoc] using hlog
    · simp only [submitted, List.countP_append, List.countP_cons] at *
      simp [q1, h1, Event.isSubmit]
    · simp only [recorded, List.countP_append, List.countP_cons] at *
      simp [q2, h2, Event.isBegin]
    · simp only [drawCalls, List.countP_append, List.countP_cons] at *
      simp [q3, h3, Event.isDraw]
    · simp only [swapChainsBuilt, List.countP_append, List.countP_cons] at *
      simp [q4, h4, Event.isNewSwapChain]
  · have hz : ∀ x ∈ env.extents, nonZero x = false := by
      intro x hx
      by_contra hne
      exact hex ⟨x, hx, by simpa using hne⟩
    rw [recreateSwapChain_zeros env s hz] at h
    exact Outcome.noConfusion h

/-- A returning `recordCommandBuffer` had no failing call. -/
theorem recordCommandBuffer_returned [LinearOrderedField α] [FloorRing α]
    (ext : Externals α) (env : FrameEnv) (i : Nat) (s s1 : FirstApp α)
    (h : recordCommandBuffer ext env i s = .returned s1) :
    env.beginResult = VK_SUCCESS ∧ env.endResult = VK_SUCCESS := by
  unfold recordCommandBuffer at h
  by_cases hb : env.beginResult = VK_SUCCESS
  · cases hsc : s.lgeSwapChain with
    | none => simp [emit, hb, hsc] at h
    | some sc =>
      cases hp : s.lgePipeline with
      | none => simp [emit, hb, hsc, hp, renderGameObjects, Outcome.bind] at h
      | some p =>
        by_cases he : env.endResult = VK_SUCCESS
        · exact ⟨hb, he⟩
        · simp [emit, hb, hsc, hp, he, renderGameObjects, Outcome.bind] at h
  · simp [emit, hb] at h

/-- What a returning `drawFrame` did on a constructed application, by acquire result. -/
theorem drawFrame_returned [LinearOrderedField α] [FloorRing α] (ext : Externals α)
    (env : FrameEnv) (s s1 : FirstApp α) (hcon : Constructed s)
    (h : drawFrame ext env s = .returned s1) :
    Constructed s1 ∧
    (env.acquireResult = VK_ERROR_OUT_OF_DATE_KHR →
      s1.gameObjects = s.gameObjects ∧ recorded s1.log = recorded s.log ∧
      submitted s1.log = submitted s.log ∧ drawCalls s1.log = drawCalls s.log ∧
      swapChainsBuilt s1.log = swapChainsBuilt s.log + 1) ∧
    (env.acquireResult ≠ VK_ERROR_OUT_OF_DATE_KHR →
      s1.gameObjects = s.gameObjects.map (advanceObject ext) ∧
      recorded s1.log = recorded s.log + 1 ∧ submitted s1.log = submitted s.log + 1 ∧
      drawCalls s1.log = drawCalls s.log + s.gameObjects.length) := by
  obtain ⟨hl, hsc, hp⟩ := hcon
  by_cases hood : env.acquireResult = VK_ERROR_OUT_OF_DATE_KHR
  · rw [drawFrame_outOfDate ext env s hsc hood] at h
    obtain ⟨evs, hcon1, hlog, e1, e2, e3, e4, hg, _⟩ := recreateSwapChain_returned_facts _ _ _ h
    refine ⟨hcon1, fun _ => ⟨hg, ?_, ?_, ?_, ?_⟩, fun hne => absurd hood hne⟩
    · rw [hlog]
      simp only [recorded, emit, List.countP_append] at e2 ⊢
      simp [e2, Event.isBegin]
    · rw [hlog]
      simp only [submitted, emit, List.countP_append] at e1 ⊢
      simp [e1, Event.isSubmit]
    · rw [hlog]
      simp only [drawCalls, emit, List.countP_append] at e3 ⊢
      simp [e3, Event.isDraw]
    · rw [hlog]
      simp only [swapChainsBuilt, emit, List.countP_append] at e4 ⊢
      simp [e4, Event.isNewSwapChain]
  · obtain ⟨sc, hsc2⟩ := Option.isSome_iff_exists.mp hsc
    have hfatal : ¬(env.acquireResult ≠ VK_SUCCESS ∧ env.acquireResult ≠ VK_SUBOPTIMAL_KHR) := by
      intro hf
      unfold drawFrame at h
      simp only [hsc2] at h
      rw [if_neg hood, if_pos hf] at h
      exact Outcome.noConfusion h
    have ha : env.acquireResult = VK_SUCCESS ∨ env.acquireResult = VK_SUBOPTIMAL_KHR := by
      by_cases h1 : env.acquireResult = VK_SUCCESS
      · exact Or.inl h1
      · by_cases h2 : env.acquireResult = VK_SUBOPTIMAL_KHR
        · exact Or.inr h2
        · exact absurd ⟨h1, h2⟩ hfatal
    have hbe : env.beginResult = VK_SUCCESS ∧ env.endResult = VK_SUCCESS := by
      have h0 := h
      unfold drawFrame at h0
      simp only [hsc2] at h0
      rw [if_neg hood, if_neg hfatal] at h0
      obtain ⟨s2, hr, _⟩ := bind_returned _ _ _ h0
      exact recordCommandBuffer_returned ext env _ _ _ hr
    rw [drawFrame_reaches_submit ext env s sc hsc2 hp ha hbe.1 hbe.2] at h
    obtain ⟨c1, c2, c3, _, _⟩ := afterSubmit_counts ext env sc s
    by_cases ht : recreateRequested env s
    · rw [if_pos ht] at h
      obtain ⟨evs, hcon1, hlog, e1, e2, e3, _, hg, _⟩ :=
        recreateSwapChain_returned_facts _ _ _ h
      refine ⟨hcon1, fun hh => absurd hh hood, fun _ => ⟨?_, ?_, ?_, ?_⟩⟩
      · rw [hg]
        rfl
      · rw [hlog]
        simp only [recorded, emit, List.countP_append] at c2 e2 ⊢
        rw [c2, e2]
        simp [Event.isBegin]
      · rw [hlog]
        simp only [submitted, emit, List.countP_append] at c1 e1 ⊢
        rw [c1, e1]
        simp [Event.isSubmit]
      · rw [hlog]
        simp only [drawCalls, emit, List.countP_append] at c3 e3 ⊢
        rw [c3, e3]
        simp [Event.isDraw]
    · rw [if_neg ht] at h
      split at h
      · exact Outcome.noConfusion h
      · simp only [Outcome.returned.injEq] at h
        subst h
        exact ⟨afterSubmit_constructed ext env sc s ⟨hl, hsc, hp⟩,
          fun hh => absurd hh hood, fun _ => ⟨rfl, c2, c1, c3⟩⟩

/-- The log of a returning `drawFrame` whose acquire was not out-of-date: the acquire, the
commands of one recorded frame over the advanced objects, the submit, and then calls among
which there is no recording, submit or draw call. -/
theorem drawFrame_returned_log [LinearOrderedField α] [FloorRing α] (ext : Externals α)
    (env : FrameEnv) (s s1 : FirstApp α) (hcon : Constructed s)
    (h : drawFrame ext env s = .returned s1)
    (hood : env.acquireResult ≠ VK_ERROR_OUT_OF_DATE_KHR) :
    ∃ sc post, s.lgeSwapChain = some sc ∧
      s1.log = s.log ++ .acquireNextImage ::
        (frameCommands ext env.imageIndex sc (s.gameObjects.map (advanceObject ext))
          ++ [.submitCommandBuffers env.imageIndex]) ++ post ∧
      recorded post = 0 ∧ submitted post = 0 ∧ drawCalls post = 0 := by
  obtain ⟨hl, hsc, hp⟩ := hcon
  obtain ⟨sc, hsc2⟩ := Option.isSome_iff_exists.mp hsc
  have hfatal : ¬(env.acquireResult ≠ VK_SUCCESS ∧ env.acquireResult ≠ VK_SUBOPTIMAL_KHR) := by
    intro hf
    unfold drawFrame at h
    simp only [hsc2] at h
    rw [if_neg hood, if_pos hf] at h
    exact Outcome.noConfusion h
  have ha : env.acquireResult = VK_SUCCESS ∨ env.acquireResult = VK_SUBOPTIMAL_KHR := by
    by_cases h1 : env.acquireResult = VK_SUCCESS
    · exact Or.inl h1
    · by_cases h2 : env.acquireResult = VK_SUBOPTIMAL_KHR
      · exact Or.inr h2
      · exact absurd ⟨h1, h2⟩ hfatal
  have hbe : env.beginResult = VK_SUCCESS ∧ env.endResult = VK_SUCCESS := by
    have h0 := h
    unfold drawFrame at h0
    simp only [hsc2] at h0
    rw [if_neg hood, if_neg hfatal] at h0
    obtain ⟨s2, hr, _⟩ := bind_returned _ _ _ h0
    exact recordCommandBuffer_returned ext env _ _ _ hr
  rw [drawFrame_reaches_submit ext env s sc hsc2 hp ha hbe.1 hbe.2] at h
  by_cases ht : recreateRequested env s
  · rw [if_pos ht] at h
    obtain ⟨evs, _, hlog, e1, e2, e3, _⟩ := recreateSwapChain_returned_facts _ _ _ h
    refine ⟨sc, .resetWindowResizedFlag :: evs, hsc2, ?_, ?_, ?_, ?_⟩
    · rw [hlog]
      simp [emit, afterSubmit]
    · simp only [recorded] at e2 ⊢
      simp [List.countP_cons, e2, Event.isBegin]
    · simp only [submitted] at e1 ⊢
      simp [List.countP_cons, e1, Event.isSubmit]
    · simp only [drawCalls] at e3 ⊢
      simp [List.countP_cons, e3, Event.isDraw]
  · rw [if_neg ht] at h
    split at h
    · exact Outcome.noConfusion h
    · simp only [Outcome.returned.injEq] at h
      subst h
      exact ⟨sc, [], hsc2, by simp [afterSubmit], rfl, rfl, rfl⟩

theorem advanceObject_iterate [LinearOrderedField α] [FloorRing α] (ext : Externals α)
    (k : Nat) (o : LgeGameObject α) :
    ((advanceObject ext)^[k] o).transform2d.rotation
      = (fun x => glmMod (x + 1 / 100) ext.two_pi)^[k] o.transform2d.rotation ∧
    ((advanceObject ext)^[k] o).transform2d.scale = o.transform2d.scale := by
  induction k with
  | zero => simp
  | succ k ih =>
    rw [Function.iterate_succ_apply', Function.iterate_succ_apply']
    simp only [advanceObject]
    rw [ih.1]
    exact ⟨rfl, ih.2⟩

/-- Calling `renderGameObjects` for `k` frames in a row, with a pipeline present, returns
and advances every object `k` times. -/
theorem renderGameObjects_iter [LinearOrderedField α] [FloorRing α] (ext : Externals α)
    (cb : Nat) (k : Nat) (s : FirstApp α) (hp : s.lgePipeline.isSome = true) :
    ∃ s1, Outcome.iter (renderGameObjects ext cb) k s = .returned s1 ∧
      s1.gameObjects = s.gameObjects.map (advanceObject ext)^[k] := by
  induction k generalizing s with
  | zero => exact ⟨s, rfl, by simp⟩
  | succ k ih =>
    obtain ⟨p, hp2⟩ := Option.isSome_iff_exists.mp hp
    have h1 : renderGameObjects ext cb s = .returned
        (({ s.emit [.pipelineBind cb] with
            gameObjects := s.gameObjects.map (advanceObject ext) }).emit
          ((s.gameObjects.map (advanceObject ext)).flatMap (objectCommands ext cb))) := by
      simp [renderGameObjects, hp2, emit]
    obtain ⟨s1, hret, hobjs⟩ := ih
      (({ s.emit [.pipelineBind cb] with
            gameObjects := s.gameObjects.map (advanceObject ext) }).emit
          ((s.gameObjects.map (advanceObject ext)).flatMap (objectCommands ext cb))) hp
    refine ⟨s1, ?_, ?_⟩
    · simp only [Outcome.iter, h1, Outcome.bind]
      exact hret
    · rw [hobjs]
      simp [emit, Function.iterate_succ_apply]

theorem foldl_push {β γ : Type} (f : γ → β) (l : List γ) (init : List β) :
    l.foldl (fun acc i => acc ++ [f i]) init = init ++ l.map f := by
  induction l generalizing init with
  | nil => simp
  | cons a l ih => simp [ih]

theorem loadGameObjects_objects [Field α] (ext : Externals α) (s : FirstApp α) :
    (loadGameObjects ext s).gameObjects
      = s.gameObjects ++ (List.range 20).map (loadGameObject ext triangleModel) := by
  simp only [loadGameObjects]
  exact foldl_push _ _ _

theorem createPipelineLayout_returned (r : VkResult) (l : VkPipelineLayout)
    (s s1 : FirstApp α) (h : createPipelineLayout r l s = .returned s1) :
    s1.pipelineLayout = some l ∧ s1.gameObjects = s.gameObjects := by
  unfold createPipelineLayout at h
  by_cases hr : r = VK_SUCCESS
  · simp only [hr, ne_eq, not_true_eq_false, if_false, emit, Outcome.returned.injEq] at h
    subst h
    exact ⟨rfl, rfl⟩
  · simp [hr] at h

theorem createPipeline_returned_pipeline (s s1 : FirstApp α)
    (h : createPipeline s = .returned s1) :
    s1.lgePipeline.isSome = true ∧ s1.pipelineLayout = s.pipelineLayout ∧
    s1.gameObjects = s.gameObjects := by
  unfold createPipeline at h
  cases hsc : s.lgeSwapChain with
  | none => simp [hsc] at h
  | some sc =>
    cases hl : s.pipelineLayout with
    | none => simp [hsc, hl] at h
    | some l =>
      simp only [hsc, hl, emit, Outcome.returned.injEq] at h
      subst h
      simp [hl]

theorem rebuild_returned_pipeline (env : RecreateEnv) (e : VkExtent2D) (s s1 : FirstApp α)
    (hnone : s.lgeSwapChain = none) (h : rebuild env e s = .returned s1) :
    s1.lgePipeline.isSome = true := by
  unfold rebuild at h
  simp only [emit, hnone] at h
  exact (createPipeline_returned_pipeline _ _ h).1

/-- The state the constructor returns: a constructed application holding exactly the
loaded objects. -/
theorem new_returned [LinearOrderedField α] [FloorRing α] (ext : Externals α)
    (cenv : CtorEnv) (w : LgeWindow) (s : FirstApp α)
    (h : FirstApp.new ext cenv w = .returned s) :
    Constructed s ∧ s.gameObjects = (loadGameObjects ext (blank w)).gameObjects := by
  unfold FirstApp.new at h
  obtain ⟨s3, h3, h4⟩ := bind_returned _ _ _ h
  obtain ⟨s2, h1, h2⟩ := bind_returned _ _ _ h3
  simp only [Outcome.bind] at h1
  obtain ⟨l1, g1⟩ := createPipelineLayout_returned _ _ _ _ h1
  obtain ⟨e, s0, hr, hc0, hb0⟩ := recreateSwapChain_returned _ _ _ h2
  have hnone : s0.lgeSwapChain = none := by
    rw [hc0]
    have : s2.lgeSwapChain = none := by
      unfold createPipelineLayout at h1
      by_cases hr : cenv.layoutResult = VK_SUCCESS
      · simp only [hr, ne_eq, not_true_eq_false, if_false, emit,
          Outcome.returned.injEq] at h1
        subst h1
        rfl
      · simp [hr] at h1
    exact this
  have hpipe := rebuild_returned_pipeline _ _ _ _ hnone hr
  have hrs : s3.gameObjects = s2.gameObjects ∧
      s3.pipelineLayout = s2.pipelineLayout ∧ s3.lgeSwapChain.isSome = true := by
    unfold recreateSwapChain at h2
    cases hx : cenv.recreate.extents with
    | nil => simp [hx] at h2
    | cons e0 rest =>
      simp only [hx] at h2
      cases hw : (@waitForExtent α e0 rest).1 with
      | none => simp [hw] at h2
      | some extent =>
        simp only [hw] at h2
        obtain ⟨evs, _, _, _, _, _, _, q6, q7, _, q9⟩ :=
          carries_of_returned h2 (rebuild_state cenv.recreate extent _)
        exact ⟨q7, q9, by rw [q6]; rfl⟩
  obtain ⟨g3, l3, c3⟩ := hrs
  unfold createCommandBuffers at h4
  obtain ⟨sc, hsc⟩ := Option.isSome_iff_exists.mp c3
  by_cases ha : cenv.allocResult = VK_SUCCESS
  · simp only [hsc, ha, emit, ne_eq, not_true_eq_false, if_false,
      Outcome.returned.injEq] at h4
    subst h4
    refine ⟨⟨?_, ?_, ?_⟩, ?_⟩
    · simp [l3, l1]
    · simp [hsc]
    · exact hpipe
    · simp only [g3, g1]
  · simp [hsc, ha] at h4

/-- Over the reals, one rotation advance of the loaded objects leaves drawable 0 with
rotation 0.01 and scale 0.5. -/
theorem first_object_advanced (ext : Externals ℝ) (htwo : ext.two_pi = 2 * Real.pi) :
    ∃ o, (((List.range 20).map (loadGameObject ext triangleModel)).map
        (advanceObject ext))[0]? = some o ∧
      o.transform2d.rotation = 1 / 100 ∧ o.transform2d.scale = ⟨1 / 2, 1 / 2⟩ := by
  refine ⟨advanceObject ext (loadGameObject ext triangleModel 0), by simp, ?_, ?_⟩
  · simp only [advanceObject, loadGameObject, htwo]
    have h3 := Real.pi_gt_three
    rw [glmMod_small]
    · norm_num
    · norm_num
    · norm_num
      linarith
  · simp [advanceObject, loadGameObject]

end FirstApp

/-- The concrete application is what the constructor returns in the concrete scenario. -/
theorem new_constructedApp {α : Type} [LinearOrderedField α] [FloorRing α]
    (ext : Externals α) :
    FirstApp.new ext sampleCtor ⟨false⟩ = .returned (constructedApp ext) := by
  simp [FirstApp.new, FirstApp.createPipelineLayout, FirstApp.recreateSwapChain,
    FirstApp.rebuild, FirstApp.createPipeline, FirstApp.createCommandBuffers,
    FirstApp.waitForExtent, FirstApp.emit, FirstApp.blank, FirstApp.loadGameObjects,
    Outcome.bind, sampleCtor, sampleRecreate, constructedApp, vectorResize, toUint32]
  decide

theorem new_sample :
    FirstApp.new sampleExternals sampleCtor ⟨false⟩ = .returned sampleApp :=
  new_constructedApp sampleExternals

end lge2d

/-! ## Claims on the frame loop of `src/first_app.cpp` -/

namespace lge2d

namespace FirstApp

variable {α : Type}

/-- Counterexample to claim C1 as stated: on the constructed sample, a tick whose acquire
and submit report no fatal error (both would be `VK_SUCCESS`) and whose acquire is not
out-of-date, but whose `vkBeginCommandBuffer` fails: `drawFrame` throws after beginning the
recording, submits nothing, makes no draw call and leaves the objects as they were, and the
run made of this one tick throws too, having submitted no frame. -/
theorem drawFrame_recording_failure_drops_frame :
    beginFailureFrame.acquireResult = VK_SUCCESS ∧
    beginFailureFrame.submitResult = VK_SUCCESS ∧
    Constructed sampleApp ∧
    (∃ s1, drawFrame sampleExternals beginFailureFrame sampleApp
        = .threw "failed to begin recording command buffer!" s1 ∧
      submitted s1.log = submitted sampleApp.log ∧ drawCalls s1.log = drawCalls sampleApp.log ∧
      s1.gameObjects = sampleApp.gameObjects) ∧
    ∃ s1, run sampleExternals [⟨false, beginFailureFrame⟩] sampleApp
        = .threw "failed to begin recording command buffer!" s1 ∧
      submitted s1.log = submitted sampleApp.log :=
  ⟨rfl, rfl, by decide, ⟨_, rfl, rfl, rfl, rfl⟩, ⟨_, rfl, rfl⟩⟩

/-- Claim C1, amended: on a constructed application, which every returning `drawFrame`
leaves constructed again, (first part) a `drawFrame` that returns and whose acquire was
out-of-date has constructed one swap chain and begun no recording,
submitted no frame, made no draw call and left the objects (hence their rotations) as they
were; (second part) every other `drawFrame` that returns has logged, after the acquire,
the commands of exactly one recorded frame over the objects advanced once (one push, bind
and draw per object), then the submit, then only calls that record, submit and draw
nothing, so that it has made one recording, one submit and one draw call per object and
advanced every object's rotation once; (third part) whenever `run` returns, the number of
frames it submitted is the number of iterations whose acquire was not out-of-date; and
(fourth part) `run` does return when no acquire or submit reports a fatal error, recording
does not fail and recreations run to their end. -/
theorem run_submits_one_frame_per_tick [LinearOrderedField α] [FloorRing α]
    (ext : Externals α) :
    (∀ (env : FrameEnv) (s s1 : FirstApp α), Constructed s →
      drawFrame ext env s = .returned s1 →
      env.acquireResult = VK_ERROR_OUT_OF_DATE_KHR →
      Constructed s1 ∧ swapChainsBuilt s1.log = swapChainsBuilt s.log + 1 ∧
      recorded s1.log = recorded s.log ∧ submitted s1.log = submitted s.log ∧
      drawCalls s1.log = drawCalls s.log ∧ s1.gameObjects = s.gameObjects) ∧
    (∀ (env : FrameEnv) (s s1 : FirstApp α), Constructed s →
      drawFrame ext env s = .returned s1 →
      env.acquireResult ≠ VK_ERROR_OUT_OF_DATE_KHR →
      Constructed s1 ∧
      (∃ sc post, s.lgeSwapChain = some sc ∧
        s1.log = s.log ++ .acquireNextImage ::
          (frameCommands ext env.imageIndex sc (s.gameObjects.map (advanceObject ext))
            ++ [.submitCommandBuffers env.imageIndex]) ++ post ∧
        recorded post = 0 ∧ submitted post = 0 ∧ drawCalls post = 0) ∧
      s1.gameObjects = s.gameObjects.map (advanceObject ext) ∧
      recorded s1.log = recorded s.log + 1 ∧ submitted s1.log = submitted s.log + 1 ∧
      drawCalls s1.log = drawCalls s.log + s.gameObjects.length) ∧
    (∀ (ticks : List TickEnv) (s s1 : FirstApp α), Constructed s →
      run ext ticks s = .returned s1 →
      submitted s1.log = submitted s.log +
        (ticks.filter fun t =>
          decide (t.frame.acquireResult ≠ VK_ERROR_OUT_OF_DATE_KHR)).length) ∧
    (∀ (ticks : List TickEnv) (s : FirstApp α), Constructed s →
      (∀ t ∈ ticks, t.frame.NoFailure) → ∃ s1, run ext ticks s = .returned s1) := by
  refine ⟨?_, ?_, ?_, ?_⟩
  · intro env s s1 hcon hret hood
    obtain ⟨hc1, h1, _⟩ := drawFrame_returned ext env s s1 hcon hret
    obtain ⟨g, r, sb, d, sw⟩ := h1 hood
    exact ⟨hc1, sw, r, sb, d, g⟩
  · intro env s s1 hcon hret hood
    obtain ⟨hc1, _, h2⟩ := drawFrame_returned ext env s s1 hcon hret
    obtain ⟨g, r, sb, d⟩ := h2 hood
    exact ⟨hc1, drawFrame_returned_log ext env s s1 hcon hret hood, g, r, sb, d⟩
  · intro ticks s s1 hcon hrun
    have loop : ∀ (ticks : List TickEnv) (s s1 : FirstApp α), Constructed s →
        runLoop ext ticks s = .returned s1 →
        submitted s1.log = submitted s.log +
          (ticks.filter fun t =>
            decide (t.frame.acquireResult ≠ VK_ERROR_OUT_OF_DATE_KHR)).length := by
      intro ticks
      induction ticks with
      | nil =>
        intro s s1 _ h
        simp only [runLoop, Outcome.returned.injEq] at h
        subst h
        simp
      | cons t rest ih =>
        intro s s1 hcon h
        simp only [runLoop, tick] at h
        obtain ⟨s2, hdf, hrest⟩ := bind_returned _ _ _ h
        have hcon0 : Constructed
            ({ s.emit [.glfwPollEvents] with
                lgeWindow := { (s.emit [.glfwPollEvents]).lgeWindow with
                  framebufferResized :=
                    (s.emit [.glfwPollEvents]).lgeWindow.framebufferResized || t.resized } } :
              FirstApp α) := hcon
        obtain ⟨hcon2, h1, h2⟩ := drawFrame_returned ext t.frame _ s2 hcon0 hdf
        rw [ih s2 s1 hcon2 hrest]
        have hpoll : ∀ n, submitted (s.log ++ [Event.glfwPollEvents]) + n
            = submitted s.log + n := by
          intro n
          simp [submitted, List.countP_append, Event.isSubmit]
        by_cases hood : t.frame.acquireResult = VK_ERROR_OUT_OF_DATE_KHR
        · rw [(h1 hood).2.2.1]
          simp only [emit, List.filter_cons, hood, ne_eq, not_true_eq_false, decide_False,
            Bool.false_eq_true, if_false]
          exact hpoll _
        · rw [(h2 hood).2.2.1]
          simp only [emit, List.filter_cons, hood, ne_eq, not_false_eq_true, decide_True,
            if_true, List.length_cons]
          rw [hpoll]
          omega
    simp only [run] at hrun
    obtain ⟨s2, hloop, hlast⟩ := bind_returned _ _ _ hrun
    simp only [Outcome.returned.injEq] at hlast
    subst hlast
    rw [← loop ticks s s2 hcon hloop]
    simp [emit, submitted, List.countP_append, Event.isSubmit]
  · intro ticks s hcon hok
    have loop : ∀ (ticks : List TickEnv) (s : FirstApp α), Constructed s →
        (∀ t ∈ ticks, t.frame.NoFailure) →
        ∃ s1, runLoop ext ticks s = .returned s1 := by
      intro ticks
      induction ticks with
      | nil =>
        intro s _ _
        exact ⟨s, rfl⟩
      | cons t rest ih =>
        intro s hcon hok
        have hcon0 : Constructed
            ({ s.emit [.glfwPollEvents] with
                lgeWindow := { (s.emit [.glfwPollEvents]).lgeWindow with
                  framebufferResized :=
                    (s.emit [.glfwPollEvents]).lgeWindow.framebufferResized || t.resized } } :
              FirstApp α) := hcon
        obtain ⟨s1, hret, hcon1, _, _⟩ :=
          drawFrame_noFailure ext t.frame _ hcon0 (hok t (by simp))
        obtain ⟨s2, hret2⟩ := ih s1 hcon1 (fun u hu => hok u (List.mem_cons_of_mem _ hu))
        refine ⟨s2, ?_⟩
        simp only [runLoop, tick]
        rw [hret]
        exact hret2
    obtain ⟨s1, hret⟩ := loop ticks s hcon hok
    exact ⟨s1.emit [.vkDeviceWaitIdle], by simp only [run, hret, Outcome.bind]⟩

/-- The run of 100 iterations with the fifth acquire out-of-date returns and has submitted
99 frames. -/
theorem run_submits_one_frame_per_tick_witness :
    (Constructed sampleApp ∧ ∀ t ∈ hundredTicks, t.frame.NoFailure) ∧
    ∃ s1, run sampleExternals hundredTicks sampleApp = .returned s1 ∧
      submitted s1.log = submitted sampleApp.log + 99 := by
  have hok : ∀ t ∈ hundredTicks, t.frame.NoFailure := by decide
  have hcon : Constructed sampleApp := by decide
  obtain ⟨s1, hret⟩ :=
    (run_submits_one_frame_per_tick sampleExternals).2.2.2 hundredTicks sampleApp hcon hok
  have hcount :=
    (run_submits_one_frame_per_tick sampleExternals).2.2.1 hundredTicks sampleApp s1 hcon hret
  have hlen : (hundredTicks.filter fun t =>
      decide (t.frame.acquireResult ≠ VK_ERROR_OUT_OF_DATE_KHR)).length = 99 := by decide
  rw [hlen] at hcount
  exact ⟨⟨hcon, hok⟩, s1, hret, hcount⟩

/-- Claim C3: (first part) whenever the constructor returns, the application holds a swap
chain and as many command buffers as that chain has images; (second part) whenever
`recreateSwapChain` returns after replacing an existing chain, whatever the old chain, the
old number of command buffers and the new image count are, the number of command buffers
equals the image count of the new chain; so every image index below the image count
addresses a command buffer. -/
theorem commandBuffers_match_imageCount [LinearOrderedField α] [FloorRing α]
    (ext : Externals α) (cenv : CtorEnv) (lgeWindow : LgeWindow)
    (env : RecreateEnv) (s : FirstApp α) (old : LgeSwapChain) :
    (∀ s1, FirstApp.new ext cenv lgeWindow = .returned s1 →
      ∃ sc, s1.lgeSwapChain = some sc ∧ sc.imageCount = cenv.recreate.imageCount ∧
        s1.commandBuffers.length = sc.imageCount ∧
        ∀ imageIndex, imageIndex < sc.imageCount → imageIndex < s1.commandBuffers.length) ∧
    (s.lgeSwapChain = some old →
      ∀ s1, recreateSwapChain env s = .returned s1 →
        ∃ sc, s1.lgeSwapChain = some sc ∧ sc.imageCount = env.imageCount ∧
          s1.commandBuffers.length = sc.imageCount ∧
          ∀ imageIndex, imageIndex < sc.imageCount → imageIndex < s1.commandBuffers.length) := by
  constructor
  · intro s1 h
    unfold FirstApp.new at h
    obtain ⟨s3, h3, h4⟩ := bind_returned _ _ _ h
    obtain ⟨s2, _, h2⟩ := bind_returned _ _ _ h3
    obtain ⟨e, s0, hr, h0, _⟩ := recreateSwapChain_returned _ _ _ h2
    have hst := carries_of_returned hr (rebuild_state cenv.recreate e s0)
    obtain ⟨evs, _, _, _, _, _, _, hchain, _⟩ := hst
    obtain ⟨c1, sc, c2, c3⟩ := createCommandBuffers_returned _ _ _ _ h4
    rw [hchain] at c2
    simp only [Option.some.injEq] at c2
    subst c2
    refine ⟨_, c1.trans hchain, rfl, c3, ?_⟩
    intro i hi
    rw [c3]
    exact hi
  · intro hold s1 h
    obtain ⟨e, s0, hr, h0, _⟩ := recreateSwapChain_returned _ _ _ h
    obtain ⟨r1, r2⟩ := rebuild_length env e s0 s1 old (h0.trans hold) hr
    refine ⟨_, r1, rfl, r2, ?_⟩
    intro i hi
    rw [r2]
    exact hi

/-- The constructed sample, and a recreation on it that changes the image count to 2. -/
theorem commandBuffers_match_imageCount_witness :
    (FirstApp.new sampleExternals sampleCtor ⟨false⟩ = .returned sampleApp ∧
      sampleApp.lgeSwapChain = some ⟨⟨800, 600⟩, 3, ⟨800, 600⟩, 1⟩) ∧
    (∃ sc, sampleApp.lgeSwapChain = some sc ∧ sc.imageCount = sampleCtor.recreate.imageCount ∧
      sampleApp.commandBuffers.length = sc.imageCount ∧
      ∀ imageIndex, imageIndex < sc.imageCount →
        imageIndex < sampleApp.commandBuffers.length) ∧
    (∃ s1, recreateSwapChain { sampleRecreate with imageCount := 2 } sampleApp = .returned s1 ∧
      ∃ sc, s1.lgeSwapChain = some sc ∧ sc.imageCount = 2 ∧
        s1.commandBuffers.length = sc.imageCount ∧
        ∀ imageIndex, imageIndex < sc.imageCount → imageIndex < s1.commandBuffers.length) := by
  obtain ⟨s1, _, hret, _⟩ := recreateSwapChain_completes
    { sampleRecreate with imageCount := 2 } sampleApp (by decide) (by rfl)
  have h := commandBuffers_match_imageCount sampleExternals sampleCtor ⟨false⟩
    { sampleRecreate with imageCount := 2 } sampleApp ⟨⟨800, 600⟩, 3, ⟨800, 600⟩, 1⟩
  exact ⟨⟨new_sample, rfl⟩, h.1 sampleApp new_sample, s1, hret, h.2 rfl s1 hret⟩

/-- Claim C4: on a constructed application `drawFrame` raises the acquire failure exactly
when the acquire result is none of `VK_SUCCESS`, `VK_SUBOPTIMAL_KHR` and
`VK_ERROR_OUT_OF_DATE_KHR`; the state at that exception is the initial one with only the
acquire call added to the log, so nothing was recorded, submitted or recreated. -/
theorem drawFrame_acquire_failure [LinearOrderedField α] [FloorRing α] (ext : Externals α)
    (env : FrameEnv) (s : FirstApp α) (hsc : s.lgeSwapChain.isSome = true) :
    ((∃ s1, drawFrame ext env s = .threw "failed to acquire swap chain image!" s1) ↔
      (env.acquireResult ≠ VK_SUCCESS ∧ env.acquireResult ≠ VK_SUBOPTIMAL_KHR ∧
        env.acquireResult ≠ VK_ERROR_OUT_OF_DATE_KHR)) ∧
    (∀ s1, drawFrame ext env s = .threw "failed to acquire swap chain image!" s1 →
      s1 = { s with log := s.log ++ [.acquireNextImage] } ∧
      submitted s1.log = submitted s.log ∧ recorded s1.log = recorded s.log ∧
      drawCalls s1.log = drawCalls s.log ∧ swapChainsBuilt s1.log = swapChainsBuilt s.log) := by
  obtain ⟨sc, hsc⟩ := Option.isSome_iff_exists.mp hsc
  have key : ∀ s1, drawFrame ext env s = .threw "failed to acquire swap chain image!" s1 →
      (env.acquireResult ≠ VK_SUCCESS ∧ env.acquireResult ≠ VK_SUBOPTIMAL_KHR ∧
        env.acquireResult ≠ VK_ERROR_OUT_OF_DATE_KHR) ∧
      s1 = { s with log := s.log ++ [.acquireNextImage] } := by
    intro s1 h
    unfold drawFrame at h
    simp only [hsc] at h
    by_cases h1 : env.acquireResult = VK_ERROR_OUT_OF_DATE_KHR
    · rw [if_pos h1] at h
      have := recreateSwapChain_threw _ _ _ _ h
      exact absurd this (by decide)
    · rw [if_neg h1] at h
      by_cases h2 : env.acquireResult ≠ VK_SUCCESS ∧ env.acquireResult ≠ VK_SUBOPTIMAL_KHR
      · rw [if_pos h2] at h
        simp only [Outcome.threw.injEq, true_and] at h
        exact ⟨⟨h2.1, h2.2, h1⟩, by rw [← h]; rfl⟩
      · rw [if_neg h2] at h
        rcases bind_threw _ _ _ _ h with h3 | ⟨s2, _, h3⟩
        · rcases recordCommandBuffer_threw _ _ _ _ _ _ h3 with h4 | h4 <;>
            exact absurd h4 (by decide)
        · split at h3
          · have := recreateSwapChain_threw _ _ _ _ h3
            exact absurd this (by decide)
          · split at h3
            · simp only [Outcome.threw.injEq] at h3
              exact absurd h3.1 (by decide)
            · simp at h3
  refine ⟨⟨fun ⟨s1, h⟩ => (key s1 h).1, ?_⟩, ?_⟩
  · rintro ⟨h1, h2, h3⟩
    refine ⟨s.emit [.acquireNextImage], ?_⟩
    simp [drawFrame, hsc, h1, h2, h3]
  · intro s1 h
    obtain ⟨_, rfl⟩ := key s1 h
    simp [submitted, recorded, drawCalls, swapChainsBuilt, List.countP_append, Event.isSubmit,
      Event.isBegin, Event.isDraw, Event.isNewSwapChain]

/-- A frame whose acquire reports `VK_ERROR_DEVICE_LOST` (-4). -/
theorem drawFrame_acquire_failure_witness :
    sampleApp.lgeSwapChain.isSome = true ∧
    (((∃ s1, drawFrame sampleExternals { okFrame with acquireResult := -4 } sampleApp
        = .threw "failed to acquire swap chain image!" s1) ↔
      (({ okFrame with acquireResult := -4 } : FrameEnv).acquireResult ≠ VK_SUCCESS ∧
        ({ okFrame with acquireResult := -4 } : FrameEnv).acquireResult ≠ VK_SUBOPTIMAL_KHR ∧
        ({ okFrame with acquireResult := -4 } : FrameEnv).acquireResult
          ≠ VK_ERROR_OUT_OF_DATE_KHR)) ∧
    (∀ s1, drawFrame sampleExternals { okFrame with acquireResult := -4 } sampleApp
        = .threw "failed to acquire swap chain image!" s1 →
      s1 = { sampleApp with log := sampleApp.log ++ [.acquireNextImage] } ∧
      submitted s1.log = submitted sampleApp.log ∧ recorded s1.log = recorded sampleApp.log ∧
      drawCalls s1.log = drawCalls sampleApp.log ∧
      swapChainsBuilt s1.log = swapChainsBuilt sampleApp.log)) :=
  ⟨rfl, drawFrame_acquire_failure sampleExternals { okFrame with acquireResult := -4 }
    sampleApp rfl⟩

/-- Counterexample to claim C5 as stated: on the constructed sample with the was-resized
flag set, a frame whose submit reports `VK_ERROR_DEVICE_LOST` (-4) reaches the submit step
and `drawFrame` returns normally, raising nothing. -/
theorem drawFrame_fatal_submit_masked :
    sampleAppResized.lgeWindow.wasWindowResized = true ∧
    ((-4 : VkResult) ≠ VK_SUCCESS ∧ (-4 : VkResult) ≠ VK_ERROR_OUT_OF_DATE_KHR ∧
      (-4 : VkResult) ≠ VK_SUBOPTIMAL_KHR) ∧
    (∃ s1, drawFrame sampleExternals { okFrame with submitResult := -4 } sampleAppResized
      = .returned s1 ∧ submitted s1.log = submitted sampleAppResized.log + 1) ∧
    ∀ w s1, drawFrame sampleExternals { okFrame with submitResult := -4 } sampleAppResized
      ≠ .threw w s1 := by
  have hdf := drawFrame_reaches_submit sampleExternals { okFrame with submitResult := -4 }
    sampleAppResized ⟨⟨800, 600⟩, 3, ⟨800, 600⟩, 1⟩ rfl rfl (Or.inl rfl) rfl rfl
  have hreq : recreateRequested { okFrame with submitResult := -4 } sampleAppResized :=
    Or.inr (Or.inr rfl)
  rw [if_pos hreq] at hdf
  obtain ⟨s1, evs, hret, _, hlog, e1, _⟩ :=
    recreateSwapChain_completes sampleRecreate
      ({ afterSubmit sampleExternals { okFrame with submitResult := -4 }
            ⟨⟨800, 600⟩, 3, ⟨800, 600⟩, 1⟩ sampleAppResized with
          lgeWindow := sampleAppResized.lgeWindow.resetWindowResizedFlag }.emit
        [.resetWindowResizedFlag])
      (by decide) (by rfl)
  have hdf2 := hdf.trans hret
  refine ⟨rfl, by decide, ⟨s1, hdf2, ?_⟩, ?_⟩
  · have h3 := (afterSubmit_counts sampleExternals { okFrame with submitResult := -4 }
      ⟨⟨800, 600⟩, 3, ⟨800, 600⟩, 1⟩ sampleAppResized).1
    rw [hlog]
    simp only [submitted, emit, List.countP_append] at h3 e1 ⊢
    rw [h3, e1]
    simp [Event.isSubmit]
  · intro w s2 h
    rw [hdf2] at h
    exact Outcome.noConfusion h

/-- Claim C5, amended: when `drawFrame` reaches the submit step with the was-resized flag
unset and submit returns a code that is none of `VK_SUCCESS`, `VK_ERROR_OUT_OF_DATE_KHR` and
`VK_SUBOPTIMAL_KHR`, it raises the presentation failure, in the state right after the
submit. -/
theorem drawFrame_submit_failure [LinearOrderedField α] [FloorRing α]
    (ext : Externals α) (env : FrameEnv) (s : FirstApp α) (sc : LgeSwapChain)
    (hsc : s.lgeSwapChain = some sc) (hp : s.lgePipeline.isSome = true)
    (ha : env.acquireResult = VK_SUCCESS ∨ env.acquireResult = VK_SUBOPTIMAL_KHR)
    (hb : env.beginResult = VK_SUCCESS) (he : env.endResult = VK_SUCCESS)
    (hflag : s.lgeWindow.wasWindowResized = false)
    (hfatal : env.submitResult ≠ VK_SUCCESS ∧ env.submitResult ≠ VK_ERROR_OUT_OF_DATE_KHR ∧
      env.submitResult ≠ VK_SUBOPTIMAL_KHR) :
    drawFrame ext env s =
      .threw "failed to present swap chain image!" (afterSubmit ext env sc s) := by
  have hdf := drawFrame_reaches_submit ext env s sc hsc hp ha hb he
  have ht : ¬recreateRequested env s := by
    simp [recreateRequested, hfatal.2.1, hfatal.2.2, hflag]
  rw [if_neg ht, if_pos hfatal.1] at hdf
  exact hdf

/-- The frame of the counterexample, with the flag unset. -/
theorem drawFrame_submit_failure_witness :
    (sampleApp.lgeSwapChain = some ⟨⟨800, 600⟩, 3, ⟨800, 600⟩, 1⟩ ∧
      sampleApp.lgePipeline.isSome = true ∧
      sampleApp.lgeWindow.wasWindowResized = false) ∧
    drawFrame sampleExternals { okFrame with submitResult := -4 } sampleApp =
      .threw "failed to present swap chain image!"
        (afterSubmit sampleExternals { okFrame with submitResult := -4 }
          ⟨⟨800, 600⟩, 3, ⟨800, 600⟩, 1⟩ sampleApp) :=
  ⟨⟨rfl, rfl, rfl⟩,
    drawFrame_submit_failure sampleExternals { okFrame with submitResult := -4 } sampleApp
      ⟨⟨800, 600⟩, 3, ⟨800, 600⟩, 1⟩ rfl rfl (Or.inl rfl) rfl rfl rfl (by decide)⟩

/-- Counterexample to claim C6 as stated: acquire reports `VK_SUBOPTIMAL_KHR`, submit
returns `VK_SUCCESS` and the was-resized flag is unset; the frame is recorded and submitted
and `drawFrame` returns without constructing a swap chain. -/
theorem drawFrame_suboptimal_acquire_not_recreated :
    sampleApp.lgeWindow.wasWindowResized = false ∧
    ∃ s1, drawFrame sampleExternals { okFrame with acquireResult := VK_SUBOPTIMAL_KHR }
        sampleApp = .returned s1 ∧
      submitted s1.log = submitted sampleApp.log + 1 ∧
      swapChainsBuilt s1.log = swapChainsBuilt sampleApp.log := by
  have hdf := drawFrame_reaches_submit sampleExternals
    { okFrame with acquireResult := VK_SUBOPTIMAL_KHR }
    sampleApp ⟨⟨800, 600⟩, 3, ⟨800, 600⟩, 1⟩ rfl rfl (Or.inr rfl) rfl rfl
  have ht : ¬recreateRequested { okFrame with acquireResult := VK_SUBOPTIMAL_KHR }
      sampleApp := by decide
  rw [if_neg ht, if_neg (by decide)] at hdf
  obtain ⟨c1, _, _, c4, _⟩ := afterSubmit_counts sampleExternals
    { okFrame with acquireResult := VK_SUBOPTIMAL_KHR } ⟨⟨800, 600⟩, 3, ⟨800, 600⟩, 1⟩ sampleApp
  exact ⟨rfl, _, hdf, c1, c4⟩

/-- Claim C6, amended: on a constructed application, when acquire reports
`VK_SUBOPTIMAL_KHR` and recording does not fail, `drawFrame` records and submits this
frame; (first part) when submit returns out-of-date or suboptimal or the was-resized flag
is set, every return has constructed exactly one swap chain after that one recording and
one submit, and `drawFrame` does return when the recreation runs to its end; (second part)
when submit returns `VK_SUCCESS` with the flag unset, it returns after one recording and one
submit without constructing a swap chain. -/
theorem drawFrame_suboptimal_acquire [LinearOrderedField α] [FloorRing α]
    (ext : Externals α) (env : FrameEnv) (s : FirstApp α)
    (hcon : Constructed s) (ha : env.acquireResult = VK_SUBOPTIMAL_KHR)
    (hb : env.beginResult = VK_SUCCESS) (he : env.endResult = VK_SUCCESS) :
    ((env.submitResult = VK_ERROR_OUT_OF_DATE_KHR ∨ env.submitResult = VK_SUBOPTIMAL_KHR
        ∨ s.lgeWindow.wasWindowResized = true) →
      (∀ s1, drawFrame ext env s = .returned s1 →
        recorded s1.log = recorded s.log + 1 ∧ submitted s1.log = submitted s.log + 1 ∧
        swapChainsBuilt s1.log = swapChainsBuilt s.log + 1) ∧
      (env.recreate.Completes → ∃ s1, drawFrame ext env s = .returned s1)) ∧
    (env.submitResult = VK_SUCCESS → s.lgeWindow.wasWindowResized = false →
      ∃ s1, drawFrame ext env s = .returned s1 ∧
        recorded s1.log = recorded s.log + 1 ∧ submitted s1.log = submitted s.log + 1 ∧
        swapChainsBuilt s1.log = swapChainsBuilt s.log) := by
  obtain ⟨hl, hsc, hp⟩ := hcon
  obtain ⟨sc, hsc⟩ := Option.isSome_iff_exists.mp hsc
  have hdf := drawFrame_reaches_submit ext env s sc hsc hp (Or.inr ha) hb he
  obtain ⟨c1, c2, _, c4, _⟩ := afterSubmit_counts ext env sc s
  constructor
  · intro ht
    have hreq : recreateRequested env s := ht
    rw [if_pos hreq] at hdf
    constructor
    · intro s1 hret
      rw [hdf] at hret
      obtain ⟨evs, _, hlog, e1, e2, _, e4, _⟩ := recreateSwapChain_returned_facts _ _ _ hret
      refine ⟨?_, ?_, ?_⟩
      · rw [hlog]
        simp only [recorded, emit, List.countP_append] at c2 e2 ⊢
        rw [c2, e2]
        simp [Event.isBegin]
      · rw [hlog]
        simp only [submitted, emit, List.countP_append] at c1 e1 ⊢
        rw [c1, e1]
        simp [Event.isSubmit]
      · rw [hlog]
        simp only [swapChainsBuilt, emit, List.countP_append] at c4 e4 ⊢
        rw [c4, e4]
        simp [Event.isNewSwapChain]
    · intro hc
      obtain ⟨s1, _, hret, _⟩ :=
        recreateSwapChain_completes env.recreate
          ({ afterSubmit ext env sc s with
              lgeWindow := s.lgeWindow.resetWindowResizedFlag }.emit [.resetWindowResizedFlag])
          hc hl
      exact ⟨s1, hdf.trans hret⟩
  · intro hs hflag
    have ht : ¬recreateRequested env s := by
      simp [recreateRequested, hs, hflag]
    rw [if_neg ht, if_neg (by simp [hs])] at hdf
    exact ⟨_, hdf, c2, c1, c4⟩

/-- A suboptimal acquire followed by a suboptimal submit, on the constructed sample. -/
theorem drawFrame_suboptimal_acquire_witness :
    (Constructed sampleApp ∧ sampleRecreate.Completes) ∧
    ∃ s1,
      drawFrame sampleExternals
        { okFrame with acquireResult := VK_SUBOPTIMAL_KHR, submitResult := VK_SUBOPTIMAL_KHR }
        sampleApp = .returned s1 ∧
      recorded s1.log = recorded sampleApp.log + 1 ∧
      submitted s1.log = submitted sampleApp.log + 1 ∧
      swapChainsBuilt s1.log = swapChainsBuilt sampleApp.log + 1 := by
  have h := (drawFrame_suboptimal_acquire sampleExternals
    { okFrame with acquireResult := VK_SUBOPTIMAL_KHR, submitResult := VK_SUBOPTIMAL_KHR }
    sampleApp (by decide) rfl rfl rfl).1 (Or.inr (Or.inl rfl))
  obtain ⟨s1, hret⟩ := h.2 (by decide)
  exact ⟨⟨by decide, by decide⟩, s1, hret, h.1 s1 hret⟩

/-- Claim C7: (first part) while every extent the window has reported has a zero width or
height, `recreateSwapChain` is still blocked: it made only window queries, never waited for
the device and constructed no swap chain. (Second part) when the reported extents are `zs`,
all with a zero side, followed by `e` with both sides non-zero, the calls after the window
queries are the device wait and the construction of one swap chain from exactly `e`; no
other chain is constructed, the resulting chain has window extent `e`, and the call returns
when a pipeline layout exists and the allocation does not fail. -/
theorem recreateSwapChain_waits_for_extent (env : RecreateEnv) (s : FirstApp α) :
    ((∀ x ∈ env.extents, x.width = 0 ∨ x.height = 0) →
      recreateSwapChain env s = .blocked { s with log := s.log ++ windowQueries env.extents } ∧
      swapChainsBuilt (@windowQueries α env.extents) = 0 ∧
      idleWaits (@windowQueries α env.extents) = 0) ∧
    (∀ zs e rest, env.extents = zs ++ e :: rest → (∀ x ∈ zs, x.width = 0 ∨ x.height = 0) →
      ¬(e.width = 0 ∨ e.height = 0) →
      ∃ s1 evs, (recreateSwapChain env s).state? = some s1 ∧
        s1.log = s.log ++ windowQueries (zs ++ [e]) ++
          .vkDeviceWaitIdle :: .newSwapChain e s.lgeSwapChain :: evs ∧
        swapChainsBuilt (@windowQueries α (zs ++ [e])) = 0 ∧
        idleWaits (@windowQueries α (zs ++ [e])) = 0 ∧
        swapChainsBuilt evs = 0 ∧ idleWaits evs = 0 ∧
        s1.lgeSwapChain = some ⟨e, env.imageCount, env.swapChainExtent, env.renderPass⟩ ∧
        (s.pipelineLayout.isSome = true → env.allocResult = VK_SUCCESS →
          recreateSwapChain env s = .returned s1)) := by
  constructor
  · intro hz
    have hz2 : ∀ x ∈ env.extents, nonZero x = false :=
      fun x hx => (nonZero_eq_false x).mpr (hz x hx)
    obtain ⟨_, _, _, q4, q5⟩ := @windowQueries_counts α env.extents
    exact ⟨recreateSwapChain_zeros env s hz2, q4, q5⟩
  · intro zs e rest hx hz he
    have hz2 : ∀ x ∈ zs, nonZero x = false := fun x hx => (nonZero_eq_false x).mpr (hz x hx)
    have he2 : nonZero e = true := (nonZero_eq_true e).mpr he
    have hrec := recreateSwapChain_first env s zs e rest hx hz2 he2
    obtain ⟨_, _, _, q4, q5⟩ := @windowQueries_counts α (zs ++ [e])
    have hst := rebuild_state env e (s.emit (windowQueries (zs ++ [e])))
    rw [← hrec] at hst
    cases hs : (recreateSwapChain env s).state? with
    | none => simp [Outcome.Carries, hs] at hst
    | some s1 =>
      obtain ⟨evs, hlog, _, _, _, h4, h5, h6, _⟩ := carries_of_state hs hst
      refine ⟨s1, evs, rfl, ?_, q4, q5, h4, h5, h6, ?_⟩
      · simpa [emit, List.append_assoc] using hlog
      · intro hl ha
        obtain ⟨s2, hret, _⟩ := rebuild_returns env e (s.emit (windowQueries (zs ++ [e]))) hl ha
        rw [← hrec] at hret
        rw [hret] at hs
        simp only [Outcome.state?, Option.some.injEq] at hs
        rw [hret, hs]

/-- A minimised window reporting (0,0) twice, then resuming at (800,600). -/
theorem recreateSwapChain_waits_for_extent_witness :
    (({ sampleRecreate with extents := [⟨0, 0⟩, ⟨0, 0⟩, ⟨800, 600⟩] } : RecreateEnv).extents
        = [⟨0, 0⟩, ⟨0, 0⟩] ++ ⟨800, 600⟩ :: [] ∧
      (∀ x ∈ [(⟨0, 0⟩ : VkExtent2D), ⟨0, 0⟩], x.width = 0 ∨ x.height = 0) ∧
      ¬((⟨800, 600⟩ : VkExtent2D).width = 0 ∨ (⟨800, 600⟩ : VkExtent2D).height = 0)) ∧
    ∃ s1 evs,
      (recreateSwapChain { sampleRecreate with extents := [⟨0, 0⟩, ⟨0, 0⟩, ⟨800, 600⟩] }
        sampleApp).state? = some s1 ∧
      s1.log = sampleApp.log ++ windowQueries ([⟨0, 0⟩, ⟨0, 0⟩] ++ [⟨800, 600⟩]) ++
        .vkDeviceWaitIdle :: .newSwapChain ⟨800, 600⟩ sampleApp.lgeSwapChain :: evs ∧
      swapChainsBuilt (@windowQueries ℚ ([⟨0, 0⟩, ⟨0, 0⟩] ++ [⟨800, 600⟩])) = 0 ∧
      idleWaits (@windowQueries ℚ ([⟨0, 0⟩, ⟨0, 0⟩] ++ [⟨800, 600⟩])) = 0 ∧
      swapChainsBuilt evs = 0 ∧ idleWaits evs = 0 ∧
      s1.lgeSwapChain = some ⟨⟨800, 600⟩, 3, ⟨800, 600⟩, 1⟩ ∧
      (sampleApp.pipelineLayout.isSome = true → VK_SUCCESS = VK_SUCCESS →
        recreateSwapChain { sampleRecreate with extents := [⟨0, 0⟩, ⟨0, 0⟩, ⟨800, 600⟩] }
          sampleApp = .returned s1) :=
  ⟨⟨rfl, by decide, by decide⟩,
    (recreateSwapChain_waits_for_extent
      { sampleRecreate with extents := [⟨0, 0⟩, ⟨0, 0⟩, ⟨800, 600⟩] } sampleApp).2
      [⟨0, 0⟩, ⟨0, 0⟩] ⟨800, 600⟩ [] rfl (by decide) (by decide)⟩

end FirstApp

end lge2d

/-! ## Rotation advance -/

namespace lge

namespace SimpleRenderSystem

variable {α M : Type}

theorem advanceObject_iterate_yx [LinearOrderedField α] [FloorRing α] (two_pi : α)
    (k : Nat) (o : LgeGameObject α M) :
    ((advanceObject two_pi)^[k] o).transform.rotation.y
      = (fun x => glmMod (x + 1 / 10000) two_pi)^[k] o.transform.rotation.y ∧
    ((advanceObject two_pi)^[k] o).transform.rotation.x
      = (fun x => glmMod (x + 5 / 10000) two_pi)^[k] o.transform.rotation.x := by
  induction k with
  | zero => simp
  | succ k ih =>
    rw [Function.iterate_succ_apply', Function.iterate_succ_apply',
      Function.iterate_succ_apply']
    simp only [advanceObject]
    rw [ih.1, ih.2]
    exact ⟨rfl, rfl⟩

theorem renderGameObjects_iterate [LinearOrderedField α] [FloorRing α] (two_pi : α)
    (projected : TransformComponent α → List α) (k : Nat) (objs : List (LgeGameObject α M)) :
    (fun os => (renderGameObjects two_pi projected os).1)^[k] objs
      = objs.map (advanceObject two_pi)^[k] := by
  have h : (fun os : List (LgeGameObject α M) => (renderGameObjects two_pi projected os).1)
      = List.map (advanceObject two_pi) := by
    funext os
    rfl
  rw [h, map_iterate]

end SimpleRenderSystem

/-- Counterexample to claim C8 as stated, at `k = 0`: a drawable handed to the render
system with rotation 7 still has rotation 7 after zero advances, while
`(7 + 0 * d) mod 2π` is `7 - 2π`. -/
theorem rotation_after_zero_advances :
    ((fun os => (SimpleRenderSystem.renderGameObjects (2 * Real.pi) (fun _ => []) os).1)^[0]
        [(⟨(), ⟨0, 0, 0⟩, ⟨⟨0, 0, 0⟩, ⟨1, 1, 1⟩, ⟨0, 7, 0⟩⟩⟩ : LgeGameObject ℝ Unit)]).map
      (fun o => o.transform.rotation.y) = [7] ∧
    (7 : ℝ) ≠ glmMod (7 + ((0 : Nat) : ℝ) * (1 / 10000)) (2 * Real.pi) ∧
    (7 : ℝ) ≠ 7 + ((0 : Nat) : ℝ) * (1 / 10000)
      - 2 * Real.pi * ((⌊(7 + ((0 : Nat) : ℝ) * (1 / 10000)) / (2 * Real.pi)⌋ : Int) : ℝ) := by
  have hpi : (0 : ℝ) < 2 * Real.pi := by positivity
  have h7 : 2 * Real.pi < 7 := by
    have := Real.pi_lt_d2
    norm_num at this
    linarith
  have hr := glmMod_range (7 + ((0 : Nat) : ℝ) * (1 / 10000)) (2 * Real.pi) hpi
  refine ⟨by simp, ?_, ?_⟩
  · intro h
    rw [← h] at hr
    linarith [hr.2]
  · intro h
    unfold glmMod at hr
    rw [← h] at hr
    linarith [hr.2]

/-- Claim C8, amended: over the reals and for every `k ≥ 1`, after `k` calls of
`renderGameObjects` every drawable with initial rotation `r0` has rotation
`(r0 + k·d) - 2π·⌊(r0 + k·d) / 2π⌋`, which lies in `[0, 2π)`; `d` is 0.01 in
`FirstApp::renderGameObjects`, and 0.0001 for the y angle and 0.0005 for the x angle in
`SimpleRenderSystem::renderGameObjects`. -/
theorem rotation_after_advances (k : Nat) (hk : 1 ≤ k) :
    (∀ (ext : lge2d.Externals ℝ) (cb : Nat) (s : lge2d.FirstApp ℝ),
      ext.two_pi = 2 * Real.pi → s.lgePipeline.isSome = true →
      ∃ s1, Outcome.iter (lge2d.FirstApp.renderGameObjects ext cb) k s = .returned s1 ∧
        s1.gameObjects.map (fun o => o.transform2d.rotation)
          = s.gameObjects.map (fun o =>
              o.transform2d.rotation + (k : ℝ) * (1 / 100)
                - 2 * Real.pi *
                  ((⌊(o.transform2d.rotation + (k : ℝ) * (1 / 100)) / (2 * Real.pi)⌋ : Int) : ℝ)) ∧
        ∀ o ∈ s1.gameObjects,
          0 ≤ o.transform2d.rotation ∧ o.transform2d.rotation < 2 * Real.pi) ∧
    (∀ (M : Type) (projected : TransformComponent ℝ → List ℝ)
        (objs : List (LgeGameObject ℝ M)),
      ((fun os => (SimpleRenderSystem.renderGameObjects (2 * Real.pi) projected os).1)^[k]
          objs).map (fun o => (o.transform.rotation.y, o.transform.rotation.x))
        = objs.map (fun o =>
            (o.transform.rotation.y + (k : ℝ) * (1 / 10000)
                - 2 * Real.pi *
                  ((⌊(o.transform.rotation.y + (k : ℝ) * (1 / 10000)) / (2 * Real.pi)⌋ : Int) : ℝ),
             o.transform.rotation.x + (k : ℝ) * (5 / 10000)
                - 2 * Real.pi *
                  ((⌊(o.transform.rotation.x + (k : ℝ) * (5 / 10000)) / (2 * Real.pi)⌋ : Int) : ℝ))) ∧
      ∀ o ∈ (fun os => (SimpleRenderSystem.renderGameObjects (2 * Real.pi) projected os).1)^[k]
          objs,
        (0 ≤ o.transform.rotation.y ∧ o.transform.rotation.y < 2 * Real.pi) ∧
        (0 ≤ o.transform.rotation.x ∧ o.transform.rotation.x < 2 * Real.pi)) := by
  obtain ⟨j, rfl⟩ : ∃ j, k = j + 1 := ⟨k - 1, by omega⟩
  have hpi : (0 : ℝ) < 2 * Real.pi := by positivity
  have hne : (2 * Real.pi : ℝ) ≠ 0 := hpi.ne'
  constructor
  · intro ext cb s htwo hp
    obtain ⟨s1, hret, hobjs⟩ := lge2d.FirstApp.renderGameObjects_iter ext cb (j + 1) s hp
    have hrot : ∀ o : lge2d.LgeGameObject ℝ,
        ((lge2d.FirstApp.advanceObject ext)^[j + 1] o).transform2d.rotation
          = glmMod (o.transform2d.rotation + ((j + 1 : Nat) : ℝ) * (1 / 100)) (2 * Real.pi) := by
      intro o
      rw [(lge2d.FirstApp.advanceObject_iterate ext (j + 1) o).1, htwo,
        glmMod_iterate _ _ hne]
    refine ⟨s1, hret, ?_, ?_⟩
    · rw [hobjs, List.map_map]
      apply List.map_congr_left
      intro o _
      simp only [Function.comp_apply]
      rw [hrot o]
      rfl
    · intro o ho
      rw [hobjs, List.mem_map] at ho
      obtain ⟨o0, _, rfl⟩ := ho
      rw [hrot o0]
      exact glmMod_range _ _ hpi
  · intro M projected objs
    rw [SimpleRenderSystem.renderGameObjects_iterate]
    have hrot : ∀ o : LgeGameObject ℝ M,
        ((SimpleRenderSystem.advanceObject (2 * Real.pi))^[j + 1] o).transform.rotation.y
          = glmMod (o.transform.rotation.y + ((j + 1 : Nat) : ℝ) * (1 / 10000)) (2 * Real.pi) ∧
        ((SimpleRenderSystem.advanceObject (2 * Real.pi))^[j + 1] o).transform.rotation.x
          = glmMod (o.transform.rotation.x + ((j + 1 : Nat) : ℝ) * (5 / 10000))
              (2 * Real.pi) := by
      intro o
      rw [(SimpleRenderSystem.advanceObject_iterate_yx (2 * Real.pi) (j + 1) o).1,
        (SimpleRenderSystem.advanceObject_iterate_yx (2 * Real.pi) (j + 1) o).2,
        glmMod_iterate _ _ hne, glmMod_iterate _ _ hne]
      exact ⟨rfl, rfl⟩
    constructor
    · rw [List.map_map]
      apply List.map_congr_left
      intro o _
      simp only [Function.comp_apply]
      rw [(hrot o).1, (hrot o).2]
      rfl
    · intro o ho
      rw [List.mem_map] at ho
      obtain ⟨o0, _, rfl⟩ := ho
      rw [(hrot o0).1, (hrot o0).2]
      exact ⟨glmMod_range _ _ hpi, glmMod_range _ _ hpi⟩

/-- One advance of the 20 loaded drawables of the constructed application. -/
theorem rotation_after_advances_witness :
    (1 ≤ 1 ∧ (lge2d.Externals.standard (2 * Real.pi) Real.sin Real.cos).two_pi = 2 * Real.pi ∧
      (lge2d.constructedApp
        (lge2d.Externals.standard (2 * Real.pi) Real.sin Real.cos)).lgePipeline.isSome = true) ∧
    ∃ s1,
      Outcome.iter (lge2d.FirstApp.renderGameObjects
          (lge2d.Externals.standard (2 * Real.pi) Real.sin Real.cos) 0) 1
        (lge2d.constructedApp (lge2d.Externals.standard (2 * Real.pi) Real.sin Real.cos))
        = .returned s1 ∧
      s1.gameObjects.map (fun o => o.transform2d.rotation)
        = (lge2d.constructedApp
            (lge2d.Externals.standard (2 * Real.pi) Real.sin Real.cos)).gameObjects.map
          (fun o =>
            o.transform2d.rotation + ((1 : Nat) : ℝ) * (1 / 100)
              - 2 * Real.pi *
                ((⌊(o.transform2d.rotation + ((1 : Nat) : ℝ) * (1 / 100))
                    / (2 * Real.pi)⌋ : Int) : ℝ)) ∧
      ∀ o ∈ s1.gameObjects,
        0 ≤ o.transform2d.rotation ∧ o.transform2d.rotation < 2 * Real.pi :=
  ⟨⟨le_refl 1, rfl, rfl⟩,
    (rotation_after_advances 1 (le_refl 1)).1
      (lge2d.Externals.standard (2 * Real.pi) Real.sin Real.cos) 0
      (lge2d.constructedApp (lge2d.Externals.standard (2 * Real.pi) Real.sin Real.cos))
      rfl rfl⟩

end lge

/-! ## Scene loading and the first frame -/

namespace lge2d

namespace FirstApp

/-- Counterexample to claim C9 as stated: over the reals, after the one `drawFrame` that
records and submits on the freshly constructed application, drawable 0 has rotation 0.01,
not 0. -/
theorem first_frame_advances_rotation :
    FirstApp.new (Externals.standard (2 * Real.pi) Real.sin Real.cos) sampleCtor ⟨false⟩
      = .returned (constructedApp (Externals.standard (2 * Real.pi) Real.sin Real.cos)) ∧
    ∃ s1 o,
      drawFrame (Externals.standard (2 * Real.pi) Real.sin Real.cos) okFrame
        (constructedApp (Externals.standard (2 * Real.pi) Real.sin Real.cos)) = .returned s1 ∧
      recorded s1.log
        = recorded (constructedApp
            (Externals.standard (2 * Real.pi) Real.sin Real.cos)).log + 1 ∧
      submitted s1.log
        = submitted (constructedApp
            (Externals.standard (2 * Real.pi) Real.sin Real.cos)).log + 1 ∧
      s1.gameObjects[0]? = some o ∧ o.transform2d.rotation = 1 / 100 ∧
      o.transform2d.rotation ≠ 0 := by
  refine ⟨new_constructedApp _, ?_⟩
  have hobjs : (constructedApp
      (Externals.standard (2 * Real.pi) Real.sin Real.cos)).gameObjects
      = (List.range 20).map
          (loadGameObject (Externals.standard (2 * Real.pi) Real.sin Real.cos) triangleModel) := by
    have := loadGameObjects_objects (Externals.standard (2 * Real.pi) Real.sin Real.cos)
      (blank ⟨false⟩)
    simpa [constructedApp, blank] using this
  obtain ⟨s1, hret, _, _, h2⟩ :=
    drawFrame_noFailure (Externals.standard (2 * Real.pi) Real.sin Real.cos) okFrame
      (constructedApp (Externals.standard (2 * Real.pi) Real.sin Real.cos))
      ⟨rfl, rfl, rfl⟩ (by decide)
  obtain ⟨g, r, sb, _⟩ := h2 (by decide)
  obtain ⟨o, ho, hrot, _⟩ :=
    first_object_advanced (Externals.standard (2 * Real.pi) Real.sin Real.cos) rfl
  refine ⟨s1, o, hret, r, sb, ?_, hrot, by rw [hrot]; norm_num⟩
  rw [g, hobjs]
  exact ho

/-- Claim C9, amended: over the reals, the constructor leaves exactly the 20 drawables
`loadGameObjects` creates, all holding the one triangle model, drawable `i` with scale
`0.5 + 0.05·i` in both components and rotation `(π/2)·i/5`; drawable 0 is loaded with
rotation 0 and scale 0.5; and after one `drawFrame` that records and submits, which
performs one rotation advance of 0.01, drawable 0 has rotation 0.01 and scale 0.5. -/
theorem loadGameObjects_then_one_frame (ext : Externals ℝ) (htwo : ext.two_pi = 2 * Real.pi)
    (cenv : CtorEnv) (w : LgeWindow) (s : FirstApp ℝ)
    (hnew : FirstApp.new ext cenv w = .returned s) :
    s.gameObjects = (loadGameObjects ext (blank w)).gameObjects ∧
    s.gameObjects.length = 20 ∧
    (∀ i : Nat, i < 20 → ∃ o, s.gameObjects[i]? = some o ∧ o.model = some triangleModel ∧
      o.transform2d.scale = ⟨1 / 2 + 5 / 100 * (i : ℝ), 1 / 2 + 5 / 100 * (i : ℝ)⟩ ∧
      o.transform2d.rotation = Real.pi / 2 * (i : ℝ) / 5) ∧
    (∃ o, s.gameObjects[0]? = some o ∧ o.transform2d.rotation = 0 ∧
      o.transform2d.scale = ⟨1 / 2, 1 / 2⟩) ∧
    (∀ (env : FrameEnv) (s1 : FirstApp ℝ), drawFrame ext env s = .returned s1 →
      env.acquireResult ≠ VK_ERROR_OUT_OF_DATE_KHR →
      recorded s1.log = recorded s.log + 1 ∧ submitted s1.log = submitted s.log + 1 ∧
      ∃ o, s1.gameObjects[0]? = some o ∧ o.transform2d.rotation = 1 / 100 ∧
        o.transform2d.scale = ⟨1 / 2, 1 / 2⟩) ∧
    (∀ env : FrameEnv, env.NoFailure → ∃ s1, drawFrame ext env s = .returned s1) := by
  obtain ⟨hcon, hg⟩ := new_returned ext cenv w s hnew
  have hobjs : s.gameObjects = (List.range 20).map (loadGameObject ext triangleModel) := by
    rw [hg, loadGameObjects_objects]
    rfl
  refine ⟨hg, ?_, ?_, ?_, ?_, ?_⟩
  · rw [hobjs]
    simp
  · intro i hi
    refine ⟨loadGameObject ext triangleModel i, ?_, rfl, ?_, ?_⟩
    · rw [hobjs]
      simp [hi]
    · simp only [loadGameObject, Vec2.mk.injEq]
      constructor <;> ring
    · simp only [loadGameObject, htwo]
      ring
  · refine ⟨loadGameObject ext triangleModel 0, ?_, ?_, ?_⟩
    · rw [hobjs]
      simp
    · simp [loadGameObject]
    · simp [loadGameObject]
  · intro env s1 hret hacq
    obtain ⟨_, _, h2⟩ := drawFrame_returned ext env s s1 hcon hret
    obtain ⟨g, r, sb, _⟩ := h2 hacq
    obtain ⟨o, ho, hrot, hscale⟩ := first_object_advanced ext htwo
    refine ⟨r, sb, o, ?_, hrot, hscale⟩
    rw [g, hobjs]
    exact ho
  · intro env hok
    obtain ⟨s1, hret, _⟩ := drawFrame_noFailure ext env s hcon hok
    exact ⟨s1, hret⟩

/-- The constructed application over the reals and a frame in which every call
succeeds. -/
theorem loadGameObjects_then_one_frame_witness :
    ((Externals.standard (2 * Real.pi) Real.sin Real.cos).two_pi = 2 * Real.pi ∧
      FirstApp.new (Externals.standard (2 * Real.pi) Real.sin Real.cos) sampleCtor ⟨false⟩
        = .returned (constructedApp (Externals.standard (2 * Real.pi) Real.sin Real.cos)) ∧
      okFrame.NoFailure ∧ okFrame.acquireResult ≠ VK_ERROR_OUT_OF_DATE_KHR) ∧
    (constructedApp (Externals.standard (2 * Real.pi) Real.sin Real.cos)).gameObjects.length
      = 20 ∧
    ∃ s1,
      drawFrame (Externals.standard (2 * Real.pi) Real.sin Real.cos) okFrame
        (constructedApp (Externals.standard (2 * Real.pi) Real.sin Real.cos)) = .returned s1 ∧
      recorded s1.log
        = recorded (constructedApp
            (Externals.standard (2 * Real.pi) Real.sin Real.cos)).log + 1 ∧
      submitted s1.log
        = submitted (constructedApp
            (Externals.standard (2 * Real.pi) Real.sin Real.cos)).log + 1 ∧
      ∃ o, s1.gameObjects[0]? = some o ∧ o.transform2d.rotation = 1 / 100 ∧
        o.transform2d.scale = ⟨1 / 2, 1 / 2⟩ := by
  have h := loadGameObjects_then_one_frame
    (Externals.standard (2 * Real.pi) Real.sin Real.cos) rfl sampleCtor ⟨false⟩
    (constructedApp (Externals.standard (2 * Real.pi) Real.sin Real.cos))
    (new_constructedApp _)
  obtain ⟨s1, hret⟩ := h.2.2.2.2.2 okFrame (by decide)
  exact ⟨⟨rfl, new_constructedApp _, by decide, by decide⟩, h.2.1, s1, hret,
    h.2.2.2.2.1 okFrame s1 hret (by decide)⟩

end FirstApp

end lge2d

/-! ## `LgeModel::Builder::loadModel` -/

namespace lge

namespace LgeModel

variable {α : Type}

theorem loadIndices_eq [Zero α] [One α] [Sub α] (keyEq : Vertex α → Vertex α → Bool)
    (attrib : tinyobj.attrib_t α) (idxs : List tinyobj.index_t) (st : LoadState α) :
    loadIndices keyEq attrib idxs st
      = (buildAll attrib idxs).map fun vs => vs.foldl (addVertex keyEq) st := by
  induction idxs generalizing st with
  | nil => rfl
  | cons i rest ih =>
    simp only [loadIndices, buildAll]
    cases buildVertex attrib i with
    | none => rfl
    | some v =>
      simp only [Option.bind_some, ih]
      cases buildAll attrib rest <;> rfl

theorem buildAll_cons [Zero α] [One α] [Sub α] (attrib : tinyobj.attrib_t α)
    (i : tinyobj.index_t) (rest : List tinyobj.index_t) :
    buildAll attrib (i :: rest)
      = (buildVertex attrib i).bind fun v => (buildAll attrib rest).map fun vs => v :: vs :=
  rfl

theorem buildAll_append [Zero α] [One α] [Sub α] (attrib : tinyobj.attrib_t α)
    (a b : List tinyobj.index_t) :
    buildAll attrib (a ++ b)
      = (buildAll attrib a).bind fun x => (buildAll attrib b).map fun y => x ++ y := by
  induction a with
  | nil => cases h : buildAll attrib b <;> simp [buildAll, h]
  | cons i rest ih =>
    rw [List.cons_append, buildAll_cons, buildAll_cons, ih]
    cases h0 : buildVertex attrib i with
    | none => rfl
    | some v =>
      cases h1 : buildAll attrib rest with
      | none => rfl
      | some x => cases h2 : buildAll attrib b <;> simp

theorem meshIndices_cons (shape : tinyobj.shape_t) (rest : List tinyobj.shape_t) :
    meshIndices (shape :: rest) = shape.indices ++ meshIndices rest := by
  simp [meshIndices]

theorem loadShapes_eq [Zero α] [One α] [Sub α] (keyEq : Vertex α → Vertex α → Bool)
    (attrib : tinyobj.attrib_t α) (shapes : List tinyobj.shape_t) (st : LoadState α) :
    loadShapes keyEq attrib shapes st
      = (buildAll attrib (meshIndices shapes)).map fun vs =>
          vs.foldl (addVertex keyEq) st := by
  induction shapes generalizing st with
  | nil => rfl
  | cons sh rest ih =>
    rw [meshIndices_cons, buildAll_append]
    simp only [loadShapes, loadIndices_eq]
    cases h1 : buildAll attrib sh.indices with
    | none => rfl
    | some x =>
      simp only [Option.map_some', Option.bind_some, ih]
      cases h2 : buildAll attrib (meshIndices rest) with
      | none => rfl
      | some y => simp [List.foldl_append]

theorem mapAssign_of_none (keyEq : Vertex α → Vertex α → Bool) (m : List (Vertex α × Nat))
    (key : Vertex α) (value : Nat) (h : mapFind keyEq m key = none) :
    mapAssign keyEq m key value = m ++ [(key, value)] := by
  induction m with
  | nil => rfl
  | cons e m ih =>
    simp only [mapFind, List.find?_cons] at h
    cases he : keyEq e.1 key with
    | true => simp [he] at h
    | false =>
      simp only [he] at h
      simp only [mapAssign, he, Bool.false_eq_true, if_false, List.cons_append]
      rw [ih h]

theorem mapFind_append (keyEq : Vertex α → Vertex α → Bool) (m : List (Vertex α × Nat))
    (e : Vertex α × Nat) (key : Vertex α) :
    mapFind keyEq (m ++ [e]) key
      = (mapFind keyEq m key).or (if keyEq e.1 key = true then some e else none) := by
  simp only [mapFind, List.find?_append, List.find?_cons, List.find?_nil]
  cases keyEq e.1 key <;> rfl

theorem buildAll_getElem [Zero α] [One α] [Sub α] (attrib : tinyobj.attrib_t α)
    (idxs : List tinyobj.index_t) (vs : List (Vertex α)) (h : buildAll attrib idxs = some vs) :
    vs.length = idxs.length ∧
    ∀ (j : Nat) (index : tinyobj.index_t), idxs[j]? = some index →
      ∃ v, vs[j]? = some v ∧ buildVertex attrib index = some v := by
  induction idxs generalizing vs with
  | nil =>
    simp only [buildAll, Option.some.injEq] at h
    subst h
    simp
  | cons i rest ih =>
    simp only [buildAll] at h
    cases hb : buildVertex attrib i with
    | none => simp [hb] at h
    | some v =>
      cases hr : buildAll attrib rest with
      | none => simp [hb, hr] at h
      | some ws =>
        rw [hb, hr] at h
        simp only [Option.map_some', Option.some_bind, Option.some.injEq] at h
        subst h
        obtain ⟨hlen, hget⟩ := ih ws hr
        refine ⟨by simp [hlen], ?_⟩
        intro j index hj
        cases j with
        | zero =>
          simp only [List.getElem?_cons_zero, Option.some.injEq] at hj
          subst hj
          exact ⟨v, List.getElem?_cons_zero, hb⟩
        | succ j =>
          simp only [List.getElem?_cons_succ] at hj ⊢
          exact hget j index hj

theorem buildAll_isSome [Zero α] [One α] [Sub α] (attrib : tinyobj.attrib_t α)
    (idxs : List tinyobj.index_t)
    (h : ∀ index ∈ idxs, (buildVertex attrib index).isSome = true) :
    (buildAll attrib idxs).isSome = true := by
  induction idxs with
  | nil => rfl
  | cons i rest ih =>
    obtain ⟨v, hv⟩ := Option.isSome_iff_exists.mp (h i (by simp))
    obtain ⟨vs, hvs⟩ := Option.isSome_iff_exists.mp
      (ih fun index hi => h index (List.mem_cons_of_mem _ hi))
    simp [buildAll, hv, hvs]

theorem mem_firstOccurrences [DecidableEq α] (l : List (Vertex α)) (v : Vertex α) :
    v ∈ firstOccurrences l ↔ v ∈ l := by
  induction l with
  | nil => simp [firstOccurrences]
  | cons a l ih =>
    simp only [firstOccurrences, List.mem_cons, List.mem_filter, ih, decide_eq_true_eq]
    by_cases h : v = a <;> simp [h]

theorem nodup_firstOccurrences [DecidableEq α] (l : List (Vertex α)) :
    (firstOccurrences l).Nodup := by
  induction l with
  | nil => simp [firstOccurrences]
  | cons a l ih =>
    simp only [firstOccurrences, List.nodup_cons, List.mem_filter, decide_eq_true_eq]
    exact ⟨fun h => h.2 rfl, ih.filter _⟩

theorem firstOccurrences_append_singleton [DecidableEq α] (l : List (Vertex α))
    (v : Vertex α) :
    firstOccurrences (l ++ [v])
      = if v ∈ l then firstOccurrences l else firstOccurrences l ++ [v] := by
  induction l with
  | nil => simp [firstOccurrences]
  | cons a l ih =>
    rw [List.cons_append, firstOccurrences, firstOccurrences, ih]
    by_cases hva : v = a
    · subst hva
      by_cases hvl : v ∈ l <;> simp [hvl, List.filter_append]
    · by_cases hvl : v ∈ l <;> simp [hvl, hva, List.filter_append]

theorem good_addVertex [DecidableEq α] (keyEq : Vertex α → Vertex α → Bool)
    (hs : ∀ v w, keyEq v w = true → v = w) (st : LoadState α) (p : List (Vertex α))
    (v : Vertex α) (hv : keyEq v v = true) (h : Good keyEq st p) :
    Good keyEq (addVertex keyEq st v) (p ++ [v]) := by
  obtain ⟨hvs, hi, hm⟩ := h
  by_cases hmem : v ∈ st.vertices
  · have hp : v ∈ p := (mem_firstOccurrences p v).mp (hvs ▸ hmem)
    have hu := hm v hv
    rw [if_pos hmem] at hu
    obtain ⟨e, he, he2⟩ := Option.map_eq_some'.mp hu
    have hcount : mapCount keyEq st.uniqueVertices v = 1 := by
      simp only [mapCount, he]
    have hread : mapSubscript keyEq st.uniqueVertices v
        = (toUint32 (List.indexOf v st.vertices), st.uniqueVertices) := by
      simp only [mapSubscript, he, he2]
    have hadd : addVertex keyEq st v
        = { st with indices := st.indices ++ [toUint32 (List.indexOf v st.vertices)] } := by
      simp only [addVertex, hcount, one_ne_zero, if_false, hread]
    rw [hadd]
    refine ⟨?_, ?_, hm⟩
    · simp [hvs, firstOccurrences_append_singleton, hp]
    · simp only [List.map_append, List.map_cons, List.map_nil]
      rw [← hi]
  · have hp : v ∉ p := fun hp => hmem (hvs ▸ (mem_firstOccurrences p v).mpr hp)
    have hu := hm v hv
    rw [if_neg hmem] at hu
    have hnone : mapFind keyEq st.uniqueVertices v = none := Option.map_eq_none'.mp hu
    have hcount : mapCount keyEq st.uniqueVertices v = 0 := by
      simp only [mapCount, hnone]
    have hfind : mapFind keyEq
          (st.uniqueVertices ++ [(v, toUint32 st.vertices.length)]) v
        = some (v, toUint32 st.vertices.length) := by
      rw [mapFind_append, hnone, if_pos hv]
      rfl
    have hadd : addVertex keyEq st v
        = { vertices := st.vertices ++ [v]
            indices := st.indices ++ [toUint32 st.vertices.length]
            uniqueVertices := st.uniqueVertices ++ [(v, toUint32 st.vertices.length)] } := by
      simp only [addVertex, hcount, if_true, mapAssign_of_none keyEq _ _ _ hnone,
        mapSubscript, hfind]
    have hidx : List.indexOf v (st.vertices ++ [v]) = st.vertices.length := by
      rw [List.indexOf_append_of_not_mem hmem, List.indexOf_cons_self]
      rfl
    rw [hadd]
    refine ⟨?_, ?_, ?_⟩
    · simp [hvs, firstOccurrences_append_singleton, hp]
    · simp only [List.map_append, List.map_cons, List.map_nil, hidx]
      congr 1
      rw [hi]
      apply List.map_congr_left
      intro w hw
      have hwv : w ∈ st.vertices := hvs ▸ (mem_firstOccurrences p w).mpr hw
      rw [List.indexOf_append_of_mem hwv]
    · intro w hw
      simp only [mapFind_append, List.mem_append, List.mem_singleton]
      by_cases hwm : w ∈ st.vertices
      · have h1 := hm w hw
        rw [if_pos hwm] at h1
        obtain ⟨e, he, he2⟩ := Option.map_eq_some'.mp h1
        simp [he, he2, hwm, List.indexOf_append_of_mem hwm]
      · have h1 := hm w hw
        rw [if_neg hwm] at h1
        rw [Option.map_eq_none'.mp h1]
        by_cases hvw : keyEq v w = true
        · have := hs v w hvw
          subst this
          simp [hvw, hidx]
        · have hne : w ≠ v := fun hwv => hvw (hwv ▸ hv)
          simp [hvw, hwm, hne]

theorem good_foldl [DecidableEq α] (keyEq : Vertex α → Vertex α → Bool)
    (hs : ∀ v w, keyEq v w = true → v = w) (vs : List (Vertex α))
    (hr : ∀ v ∈ vs, keyEq v v = true) (st : LoadState α)
    (p : List (Vertex α)) (h : Good keyEq st p) :
    Good keyEq (vs.foldl (addVertex keyEq) st) (p ++ vs) := by
  induction vs generalizing st p with
  | nil => simpa using h
  | cons v vs ih =>
    have := ih (fun w hw => hr w (List.mem_cons_of_mem _ hw)) (addVertex keyEq st v) (p ++ [v])
      (good_addVertex keyEq hs st p v (hr v (List.mem_cons_self _ _)) h)
    simpa using this

theorem good_init [DecidableEq α] (keyEq : Vertex α → Vertex α → Bool) :
    Good keyEq (⟨[], [], []⟩ : LoadState α) [] := by
  simp [Good, firstOccurrences, mapFind]

theorem addVertex_indices_length (keyEq : Vertex α → Vertex α → Bool) (st : LoadState α)
    (v : Vertex α) : (addVertex keyEq st v).indices.length = st.indices.length + 1 := by
  simp only [addVertex]
  split <;> simp

theorem foldl_indices_length (keyEq : Vertex α → Vertex α → Bool) (vs : List (Vertex α))
    (st : LoadState α) :
    (vs.foldl (addVertex keyEq) st).indices.length = st.indices.length + vs.length := by
  induction vs generalizing st with
  | nil => rfl
  | cons v vs ih =>
    rw [List.foldl_cons, ih, addVertex_indices_length, List.length_cons]
    omega

theorem mem_of_mapFind (keyEq : Vertex α → Vertex α → Bool) (m : List (Vertex α × Nat))
    (key : Vertex α) (e : Vertex α × Nat) (h : mapFind keyEq m key = some e) :
    e ∈ m ∧ keyEq e.1 key = true := by
  unfold mapFind at h
  exact ⟨List.mem_of_find?_eq_some h, by simpa using List.find?_some h⟩

/-- Whatever the vertices hold, as long as the key comparison only identifies equal
vertices: every stored key and every vertex handled is in `vertices`. -/
theorem addVertex_mem (keyEq : Vertex α → Vertex α → Bool)
    (hs : ∀ v w, keyEq v w = true → v = w) (st : LoadState α) (v : Vertex α)
    (hk : ∀ e ∈ st.uniqueVertices, e.1 ∈ st.vertices) :
    (∀ e ∈ (addVertex keyEq st v).uniqueVertices, e.1 ∈ (addVertex keyEq st v).vertices) ∧
    v ∈ (addVertex keyEq st v).vertices ∧
    ∀ w ∈ st.vertices, w ∈ (addVertex keyEq st v).vertices := by
  cases hf : mapFind keyEq st.uniqueVertices v with
  | some e =>
    obtain ⟨hem, hev⟩ := mem_of_mapFind keyEq _ _ _ hf
    have hadd : addVertex keyEq st v = { st with indices := st.indices ++ [e.2] } := by
      simp only [addVertex, mapCount, hf, one_ne_zero, if_false, mapSubscript]
    rw [hadd]
    exact ⟨hk, hs e.1 v hev ▸ hk e hem, fun w hw => hw⟩
  | none =>
    have hassign := mapAssign_of_none keyEq st.uniqueVertices v
      (toUint32 st.vertices.length) hf
    have hkeys : ∀ e ∈ (mapSubscript keyEq
        (st.uniqueVertices ++ [(v, toUint32 st.vertices.length)]) v).2,
        e.1 ∈ st.vertices ++ [v] := by
      intro e he
      unfold mapSubscript at he
      split at he
      · rcases List.mem_append.mp he with h1 | h1
        · exact List.mem_append_left _ (hk e h1)
        · rw [List.mem_singleton.mp h1]
          simp
      · rcases List.mem_append.mp he with h1 | h1
        · rcases List.mem_append.mp h1 with h2 | h2
          · exact List.mem_append_left _ (hk e h2)
          · rw [List.mem_singleton.mp h2]
            simp
        · rw [List.mem_singleton.mp h1]
          simp
    have hadd : addVertex keyEq st v
        = { vertices := st.vertices ++ [v]
            indices := st.indices ++ [(mapSubscript keyEq
              (st.uniqueVertices ++ [(v, toUint32 st.vertices.length)]) v).1]
            uniqueVertices := (mapSubscript keyEq
              (st.uniqueVertices ++ [(v, toUint32 st.vertices.length)]) v).2 } := by
      simp only [addVertex, mapCount, hf, if_true, hassign]
    rw [hadd]
    exact ⟨hkeys, by simp, fun w hw => List.mem_append_left _ hw⟩

theorem foldl_mem (keyEq : Vertex α → Vertex α → Bool)
    (hs : ∀ v w, keyEq v w = true → v = w) (vs : List (Vertex α)) (st : LoadState α)
    (hk : ∀ e ∈ st.uniqueVertices, e.1 ∈ st.vertices) :
    (∀ w ∈ st.vertices, w ∈ (vs.foldl (addVertex keyEq) st).vertices) ∧
    ∀ v ∈ vs, v ∈ (vs.foldl (addVertex keyEq) st).vertices := by
  induction vs generalizing st with
  | nil => exact ⟨fun w hw => hw, fun v hv => absurd hv (List.not_mem_nil v)⟩
  | cons a vs ih =>
    obtain ⟨h1, h2, h3⟩ := addVertex_mem keyEq hs st a hk
    obtain ⟨i1, i2⟩ := ih (addVertex keyEq st a) h1
    refine ⟨fun w hw => i1 w (h3 w hw), ?_⟩
    intro v hv
    rcases List.mem_cons.mp hv with rfl | hv
    · exact i1 _ h2
    · exact i2 v hv

/-- A returning `loadModel` has built a vertex from every mesh index and run the tail of the
loop body over them, from empty locals. -/
theorem loadModel_fold [Zero α] [One α] [Sub α] (keyEq : Vertex α → Vertex α → Bool)
    (attrib : tinyobj.attrib_t α) (shapes : List tinyobj.shape_t) (b b1 : Builder α)
    (h : Builder.loadModel keyEq (.ok (attrib, shapes)) b = .returned b1) :
    ∃ built, buildAll attrib (meshIndices shapes) = some built ∧
      b1.vertices = (built.foldl (addVertex keyEq) ⟨[], [], []⟩).vertices ∧
      b1.indices = (built.foldl (addVertex keyEq) ⟨[], [], []⟩).indices := by
  simp only [Builder.loadModel, loadShapes_eq] at h
  cases hb : buildAll attrib (meshIndices shapes) with
  | none => simp [hb] at h
  | some built =>
    simp only [hb, Option.map_some', Outcome.returned.injEq] at h
    subst h
    exact ⟨built, rfl, rfl, rfl⟩

theorem loadModel_of_built [Zero α] [One α] [Sub α] (keyEq : Vertex α → Vertex α → Bool)
    (attrib : tinyobj.attrib_t α) (shapes : List tinyobj.shape_t) (b : Builder α)
    (built : List (Vertex α)) (h : buildAll attrib (meshIndices shapes) = some built) :
    Builder.loadModel keyEq (.ok (attrib, shapes)) b = .returned
      ⟨(built.foldl (addVertex keyEq) ⟨[], [], []⟩).vertices,
        (built.foldl (addVertex keyEq) ⟨[], [], []⟩).indices⟩ := by
  simp only [Builder.loadModel, loadShapes_eq, h, Option.map_some']

/-- What a returning `loadModel` leaves in the builder, in terms of the vertices built from
the mesh indices, when none of them has a NaN member. -/
theorem loadModel_returned [Zero α] [One α] [Sub α] [DecidableEq α]
    (keyEq : Vertex α → Vertex α → Bool) (hs : ∀ v w, keyEq v w = true → v = w)
    (attrib : tinyobj.attrib_t α) (shapes : List tinyobj.shape_t) (b b1 : Builder α)
    (built : List (Vertex α)) (hbuilt : buildAll attrib (meshIndices shapes) = some built)
    (hr : ∀ v ∈ built, keyEq v v = true)
    (h : Builder.loadModel keyEq (.ok (attrib, shapes)) b = .returned b1) :
    b1.vertices = firstOccurrences built ∧
    b1.indices = built.map fun v => toUint32 (List.indexOf v b1.vertices) := by
  rw [loadModel_of_built keyEq attrib shapes b built hbuilt, Outcome.returned.injEq] at h
  subst h
  have hg := good_foldl keyEq hs built hr ⟨[], [], []⟩ [] (good_init keyEq)
  simp only [List.nil_append] at hg
  exact ⟨hg.1, hg.2.1⟩

theorem loadModel_returns [Zero α] [One α] [Sub α] [DecidableEq α]
    (keyEq : Vertex α → Vertex α → Bool) (hs : ∀ v w, keyEq v w = true → v = w)
    (attrib : tinyobj.attrib_t α) (shapes : List tinyobj.shape_t) (b : Builder α)
    (built : List (Vertex α)) (h : buildAll attrib (meshIndices shapes) = some built)
    (hr : ∀ v ∈ built, keyEq v v = true) :
    Builder.loadModel keyEq (.ok (attrib, shapes)) b = .returned
      ⟨firstOccurrences built,
        built.map fun v => toUint32 (List.indexOf v (firstOccurrences built))⟩ := by
  rw [loadModel_of_built keyEq attrib shapes b built h]
  have hg := good_foldl keyEq hs built hr ⟨[], [], []⟩ [] (good_init keyEq)
  simp only [List.nil_append] at hg
  rw [Outcome.returned.injEq]
  have h1 := hg.1
  have h2 := hg.2.1
  rw [h1] at h2
  simp only [h1, h2]

theorem memberwiseEq_sound (feq : α → α → Bool) (hf : ∀ a b, feq a b = true → a = b)
    (v w : Vertex α) (h : memberwiseEq feq v w = true) : v = w := by
  simp only [memberwiseEq, Bool.and_eq_true] at h
  obtain ⟨⟨⟨⟨⟨⟨⟨⟨⟨⟨h0, h1⟩, h2⟩, h3⟩, h4⟩, h5⟩, h6⟩, h7⟩, h8⟩, h9⟩, h10⟩ := h
  obtain ⟨⟨p0, p1, p2⟩, ⟨c0, c1, c2⟩, ⟨n0, n1, n2⟩, ⟨u0, u1⟩⟩ := v
  obtain ⟨⟨q0, q1, q2⟩, ⟨d0, d1, d2⟩, ⟨m0, m1, m2⟩, ⟨t0, t1⟩⟩ := w
  simp only at h0 h1 h2 h3 h4 h5 h6 h7 h8 h9 h10
  rw [hf _ _ h0, hf _ _ h1, hf _ _ h2, hf _ _ h3, hf _ _ h4, hf _ _ h5, hf _ _ h6,
    hf _ _ h7, hf _ _ h8, hf _ _ h9, hf _ _ h10]

theorem exactEq_iff (v w : Vertex ℚ) : exactEq v w = true ↔ v = w := by
  constructor
  · exact memberwiseEq_sound _ (fun a b h => by simpa using h) v w
  · rintro rfl
    simp [exactEq, memberwiseEq]

theorem nanEq_sound (v w : Vertex NanFloat) (h : memberwiseEq NanFloat.eq v w = true) :
    v = w := by
  refine memberwiseEq_sound _ ?_ v w h
  intro a b hab
  cases a <;> cases b <;> simp_all [NanFloat.eq]

theorem int32_nat (n : Nat) (h : n < 2 ^ 31) : int32 ((n : Nat) : Int) = some (n : Int) := by
  unfold int32
  rw [if_pos]
  constructor <;> omega

theorem scaledIndex_nat (s v k : Nat) (h : s * v + k < 2 ^ 31) :
    scaledIndex (s : Int) (v : Int) (k : Int) = some ((s * v + k : Nat) : Int) := by
  have h1 : ((s : Int) * (v : Int)) = ((s * v : Nat) : Int) := by push_cast; rfl
  have h2 : (((s * v : Nat) : Int) + (k : Int)) = ((s * v + k : Nat) : Int) := by
    push_cast; rfl
  unfold scaledIndex
  rw [h1, int32_nat _ (by omega), Option.some_bind, h2, int32_nat _ h]

theorem readAt_range_map {β : Type} (f : Nat → β) (n i : Nat) (h : i < n) (h64 : i < 2 ^ 64) :
    readAt ((List.range n).map f) ((i : Nat) : Int) = some (f i) := by
  have : toSizeT ((i : Nat) : Int) = i := by
    unfold toSizeT
    omega
  unfold readAt
  rw [this, List.getElem?_map, List.getElem?_range h]
  rfl

theorem wide_position (v k : Nat) (hv : v ≤ 65536) (hk : k < 3) :
    (scaledIndex 3 (v : Int) (k : Int)).bind (readAt wideAttrib.vertices)
      = some ((3 * v + k : Nat) : ℚ) := by
  have h := scaledIndex_nat 3 v k (by omega)
  simp only [Nat.cast_ofNat] at h
  have hvs : wideAttrib.vertices = (List.range (3 * 65537)).map fun i : Nat => (i : ℚ) := by
    simp only [wideAttrib]
  rw [h, Option.some_bind, hvs, readAt_range_map _ _ _ (by omega) (by omega)]

theorem wide_normal (n k : Nat) (hn : n < 65536) (hk : k < 3) :
    (scaledIndex 3 (n : Int) (k : Int)).bind (readAt wideAttrib.normals)
      = some ((3 * n + k : Nat) : ℚ) := by
  have h := scaledIndex_nat 3 n k (by omega)
  simp only [Nat.cast_ofNat] at h
  have hvs : wideAttrib.normals = (List.range (3 * 65536)).map fun i : Nat => (i : ℚ) := by
    simp only [wideAttrib]
  rw [h, Option.some_bind, hvs, readAt_range_map _ _ _ (by omega) (by omega)]

/-- The vertex built from an index triple with position and normal but no texture
coordinate, when the colour array is too short for its colour index. -/
theorem buildVertex_position_normal {α : Type} [Zero α] [One α] [Sub α]
    (attrib : tinyobj.attrib_t α) (index : tinyobj.index_t) (a0 a1 a2 b0 b1 b2 : α)
    (ci : Int) (hv : index.vertex_index ≥ 0) (hn : index.normal_index ≥ 0)
    (ht : ¬index.texcoord_index ≥ 0)
    (p0 : (scaledIndex 3 index.vertex_index 0).bind (readAt attrib.vertices) = some a0)
    (p1 : (scaledIndex 3 index.vertex_index 1).bind (readAt attrib.vertices) = some a1)
    (p2 : (scaledIndex 3 index.vertex_index 2).bind (readAt attrib.vertices) = some a2)
    (c : scaledIndex 3 index.vertex_index 2 = some ci)
    (hcol : ¬toSizeT ci < attrib.colors.length)
    (n0 : (scaledIndex 3 index.normal_index 0).bind (readAt attrib.normals) = some b0)
    (n1 : (scaledIndex 3 index.normal_index 1).bind (readAt attrib.normals) = some b1)
    (n2 : (scaledIndex 3 index.normal_index 2).bind (readAt attrib.normals) = some b2) :
    buildVertex attrib index
      = some ⟨⟨a0, a1, a2⟩, ⟨1, 1, 1⟩, ⟨b0, b1, b2⟩, ⟨0, 0⟩⟩ := by
  unfold buildVertex setPositionColor setNormal setUv
  simp only [hv, hn, ht, if_true, if_false, p0, p1, p2, n0, n1, n2, Option.some_bind, bind,
    pure]
  simp only [c, Option.some_bind, hcol, if_false]

theorem buildVertex_wide (j : Nat) (hj : j ≤ 2 ^ 32) :
    buildVertex wideAttrib (wideIndex j) = some (wideVertex j) := by
  have hv : j / 65536 ≤ 65536 := by omega
  have hn : j % 65536 < 65536 := by omega
  have c := scaledIndex_nat 3 (j / 65536) 2 (by omega)
  have hcol : ¬toSizeT ((3 * (j / 65536) + 2 : Nat) : Int) < wideAttrib.colors.length := by
    simp only [wideAttrib, List.length_nil, Nat.not_lt_zero, not_false_eq_true]
  exact buildVertex_position_normal wideAttrib (wideIndex j) _ _ _ _ _ _ _
    (Int.natCast_nonneg _) (Int.natCast_nonneg _) (by show ¬((-1 : Int) ≥ 0); decide)
    (wide_position (j / 65536) 0 hv (by omega)) (wide_position (j / 65536) 1 hv (by omega))
    (wide_position (j / 65536) 2 hv (by omega)) c hcol
    (wide_normal (j % 65536) 0 hn (by omega)) (wide_normal (j % 65536) 1 hn (by omega))
    (wide_normal (j % 65536) 2 hn (by omega))

theorem buildAll_map [Zero α] [One α] [Sub α] {β : Type} (attrib : tinyobj.attrib_t α)
    (f : β → tinyobj.index_t) (g : β → Vertex α) (l : List β)
    (h : ∀ x ∈ l, buildVertex attrib (f x) = some (g x)) :
    buildAll attrib (l.map f) = some (l.map g) := by
  induction l with
  | nil => rfl
  | cons x l ih =>
    rw [List.map_cons, buildAll_cons, h x (List.mem_cons_self _ _),
      ih fun y hy => h y (List.mem_cons_of_mem _ hy)]
    rfl

theorem firstOccurrences_of_nodup [DecidableEq α] (l : List (Vertex α)) (h : l.Nodup) :
    firstOccurrences l = l := by
  induction l with
  | nil => rfl
  | cons a l ih =>
    rw [List.nodup_cons] at h
    rw [firstOccurrences, ih h.2, List.filter_eq_self.mpr]
    intro w hw
    simp only [decide_eq_true_eq]
    rintro rfl
    exact h.1 hw

theorem wideVertex_injective : Function.Injective wideVertex := by
  intro i j h
  have hp : ((3 * (i / 65536) + 0 : Nat) : ℚ) = ((3 * (j / 65536) + 0 : Nat) : ℚ) :=
    congrArg (fun v => v.position.x) h
  have hn : ((3 * (i % 65536) + 0 : Nat) : ℚ) = ((3 * (j % 65536) + 0 : Nat) : ℚ) :=
    congrArg (fun v => v.normal.x) h
  have hp2 := Nat.cast_injective hp
  have hn2 := Nat.cast_injective hn
  omega

theorem exactEq_self (v : Vertex ℚ) : exactEq v v = true := (exactEq_iff v v).mpr rfl

/-- What `loadModel` returns on the wide mesh: all `2 ^ 32 + 1` vertices, and for each
mesh index its position reduced modulo `2 ^ 32`. -/
theorem loadModel_wide (b : Builder ℚ) :
    Builder.loadModel exactEq (.ok (wideAttrib, [wideShape])) b = .returned
      ⟨(List.range (2 ^ 32 + 1)).map wideVertex,
        (List.range (2 ^ 32 + 1)).map fun j => toUint32 j⟩ := by
  have hmesh : meshIndices [wideShape] = (List.range (2 ^ 32 + 1)).map wideIndex := by
    simp only [meshIndices, List.flatMap_cons, List.flatMap_nil, List.append_nil, wideShape]
  have hbuilt : buildAll wideAttrib (meshIndices [wideShape])
      = some ((List.range (2 ^ 32 + 1)).map wideVertex) := by
    rw [hmesh]
    apply buildAll_map
    intro j hj
    rw [List.mem_range] at hj
    exact buildVertex_wide j (by omega)
  have hnodup : ((List.range (2 ^ 32 + 1)).map wideVertex).Nodup :=
    (List.nodup_range _).map wideVertex_injective
  have hidx : ((List.range (2 ^ 32 + 1)).map wideVertex).map
        (fun v => toUint32 (List.indexOf v ((List.range (2 ^ 32 + 1)).map wideVertex)))
      = (List.range (2 ^ 32 + 1)).map fun j => toUint32 j := by
    rw [List.map_map]
    apply List.map_congr_left
    intro j hj
    rw [List.mem_range] at hj
    have hlen : j < ((List.range (2 ^ 32 + 1)).map wideVertex).length := by
      rw [List.length_map, List.length_range]
      exact hj
    have hget : ((List.range (2 ^ 32 + 1)).map wideVertex)[j] = wideVertex j := by
      rw [List.getElem_map, List.getElem_range]
    have hio := List.indexOf_getElem hnodup j hlen
    rw [hget] at hio
    rw [Function.comp_apply, hio]
  rw [loadModel_returns exactEq (fun v w h => (exactEq_iff v w).mp h) wideAttrib [wideShape] b
      _ hbuilt (fun v _ => exactEq_self v),
    firstOccurrences_of_nodup _ hnodup, hidx]

theorem loadModel_quad :
    Builder.loadModel exactEq (.ok (quadAttrib, quadShapes))
        ⟨[⟨⟨5, 5, 5⟩, ⟨0, 0, 0⟩, ⟨0, 0, 0⟩, ⟨0, 0⟩⟩], [7]⟩
      = .returned quadBuilder := by
  rfl

/-- What `loadModel` returns on the mesh with a NaN coordinate: the vertex with the NaN is
stored once per occurrence and every index pushed is 0. -/
theorem loadModel_nan :
    Builder.loadModel (memberwiseEq NanFloat.eq) (.ok (nanAttrib, nanShapes)) ⟨[], []⟩
      = .returned ⟨[plainVertex, nanVertex, nanVertex], [0, 0, 0]⟩ := by
  rfl

theorem buildAll_mem [Zero α] [One α] [Sub α] (attrib : tinyobj.attrib_t α)
    (idxs : List tinyobj.index_t) (vs : List (Vertex α)) (h : buildAll attrib idxs = some vs)
    (v : Vertex α) : v ∈ vs ↔ ∃ index ∈ idxs, buildVertex attrib index = some v := by
  obtain ⟨hlen, hget⟩ := buildAll_getElem attrib idxs vs h
  constructor
  · intro hv
    obtain ⟨j, hj, hvj⟩ := List.getElem_of_mem hv
    have hj2 : j < idxs.length := hlen ▸ hj
    obtain ⟨w, hw, hb⟩ := hget j idxs[j] (List.getElem?_eq_getElem hj2)
    rw [List.getElem?_eq_getElem hj, Option.some.injEq] at hw
    exact ⟨idxs[j], List.getElem_mem hj2, by rw [hb, ← hw, hvj]⟩
  · rintro ⟨index, hi, hb⟩
    obtain ⟨j, hj, hij⟩ := List.getElem_of_mem hi
    obtain ⟨w, hw, hb2⟩ := hget j index (by rw [List.getElem?_eq_getElem hj, hij])
    rw [hb, Option.some.injEq] at hb2
    rw [hb2]
    exact List.getElem?_mem hw

/-- The indices a loop run has pushed and the values its map holds stay below the number of
vertices, whatever the key comparison is. -/
theorem addVertex_bound (keyEq : Vertex α → Vertex α → Bool) (st : LoadState α)
    (v : Vertex α)
    (h : (∀ e ∈ st.uniqueVertices, e.2 < st.vertices.length) ∧
      ∀ i ∈ st.indices, i < st.vertices.length) :
    (∀ e ∈ (addVertex keyEq st v).uniqueVertices,
      e.2 < (addVertex keyEq st v).vertices.length) ∧
    ∀ i ∈ (addVertex keyEq st v).indices, i < (addVertex keyEq st v).vertices.length := by
  obtain ⟨hm, hi⟩ := h
  cases hf : mapFind keyEq st.uniqueVertices v with
  | some e =>
    obtain ⟨hem, _⟩ := mem_of_mapFind keyEq _ _ _ hf
    have hadd : addVertex keyEq st v = { st with indices := st.indices ++ [e.2] } := by
      simp only [addVertex, mapCount, hf, one_ne_zero, if_false, mapSubscript]
    rw [hadd]
    refine ⟨hm, ?_⟩
    intro i hi2
    rcases List.mem_append.mp hi2 with h1 | h1
    · exact hi i h1
    · rw [List.mem_singleton.mp h1]
      exact hm e hem
  | none =>
    have hassign := mapAssign_of_none keyEq st.uniqueVertices v
      (toUint32 st.vertices.length) hf
    have hadd : addVertex keyEq st v
        = { vertices := st.vertices ++ [v]
            indices := st.indices ++ [(mapSubscript keyEq
              (st.uniqueVertices ++ [(v, toUint32 st.vertices.length)]) v).1]
            uniqueVertices := (mapSubscript keyEq
              (st.uniqueVertices ++ [(v, toUint32 st.vertices.length)]) v).2 } := by
      simp only [addVertex, mapCount, hf, if_true, hassign]
    have hlen : (st.vertices ++ [v]).length = st.vertices.length + 1 := by simp
    have hm1 : ∀ e ∈ st.uniqueVertices ++ [(v, toUint32 st.vertices.length)],
        e.2 < st.vertices.length + 1 := by
      intro e he
      rcases List.mem_append.mp he with h1 | h1
      · exact Nat.lt_succ_of_lt (hm e h1)
      · rw [List.mem_singleton.mp h1]
        exact Nat.lt_succ_of_le (Nat.mod_le _ _)
    rw [hadd]
    simp only [hlen]
    unfold mapSubscript
    cases hf2 : mapFind keyEq (st.uniqueVertices ++ [(v, toUint32 st.vertices.length)]) v with
    | some e2 =>
      obtain ⟨hem2, _⟩ := mem_of_mapFind keyEq _ _ _ hf2
      refine ⟨hm1, ?_⟩
      intro i hi2
      rcases List.mem_append.mp hi2 with h1 | h1
      · exact Nat.lt_succ_of_lt (hi i h1)
      · rw [List.mem_singleton.mp h1]
        exact hm1 e2 hem2
    | none =>
      refine ⟨?_, ?_⟩
      · intro e he
        rcases List.mem_append.mp he with h1 | h1
        · exact hm1 e h1
        · rw [List.mem_singleton.mp h1]
          exact Nat.succ_pos _
      · intro i hi2
        rcases List.mem_append.mp hi2 with h1 | h1
        · exact Nat.lt_succ_of_lt (hi i h1)
        · rw [List.mem_singleton.mp h1]
          exact Nat.succ_pos _

theorem foldl_bound (keyEq : Vertex α → Vertex α → Bool) (vs : List (Vertex α))
    (st : LoadState α)
    (h : (∀ e ∈ st.uniqueVertices, e.2 < st.vertices.length) ∧
      ∀ i ∈ st.indices, i < st.vertices.length) :
    ∀ i ∈ (vs.foldl (addVertex keyEq) st).indices,
      i < (vs.foldl (addVertex keyEq) st).vertices.length := by
  induction vs generalizing st with
  | nil => exact h.2
  | cons v vs ih => exact ih (addVertex keyEq st v) (addVertex_bound keyEq st v h)

/-- Counterexamples to claim C10 as stated. (First) On the mesh whose position 0 has a NaN
coordinate, `loadModel` returns with indices `[0, 0, 0]` and the vertex with the NaN stored
twice: the index pushed for the second mesh index is 0, and `vertices[0]` is the vertex built
from the first mesh index, which differs from the one built from the second in a coordinate
that is no NaN. (Second) On the mesh with `2 ^ 32 + 1` pairwise distinct vertices and no
NaN, the index stored for the last mesh index is 0, and `vertices[0]` is not the vertex
built from that mesh index. -/
theorem loadModel_index_not_of_vertex :
    (∃ b1 index,
      Builder.loadModel (memberwiseEq NanFloat.eq) (.ok (nanAttrib, nanShapes)) ⟨[], []⟩
        = .returned b1 ∧
      (meshIndices nanShapes)[1]? = some index ∧
      buildVertex nanAttrib index = some nanVertex ∧
      b1.indices = [0, 0, 0] ∧
      b1.vertices = [plainVertex, nanVertex, nanVertex] ∧
      b1.indices[1]? = some 0 ∧
      b1.vertices[0]? = some plainVertex ∧
      plainVertex.position.y = .val 0 ∧ nanVertex.position.y = .val 5 ∧
      plainVertex ≠ nanVertex) ∧
    (∃ b1 index,
      Builder.loadModel exactEq (.ok (wideAttrib, [wideShape])) ⟨[], []⟩ = .returned b1 ∧
      (meshIndices [wideShape])[2 ^ 32]? = some index ∧
      buildVertex wideAttrib index = some (wideVertex (2 ^ 32)) ∧
      b1.indices[2 ^ 32]? = some 0 ∧
      b1.vertices[0]? = some (wideVertex 0) ∧
      wideVertex 0 ≠ wideVertex (2 ^ 32)) := by
  constructor
  · exact ⟨_, ⟨0, -1, -1⟩, loadModel_nan, rfl, rfl, rfl, rfl, rfl, rfl, rfl, rfl,
      by decide⟩
  refine ⟨_, wideIndex (2 ^ 32), loadModel_wide _, ?_, buildVertex_wide _ (le_refl _), ?_, ?_,
    ?_⟩
  · simp only [meshIndices, List.flatMap_cons, List.flatMap_nil, List.append_nil, wideShape]
    rw [List.getElem?_map, List.getElem?_range (by omega)]
    rfl
  · rw [List.getElem?_map, List.getElem?_range (by omega)]
    simp [toUint32]
  · rw [List.getElem?_map, List.getElem?_range (by omega)]
    rfl
  · intro h
    have := wideVertex_injective h
    omega

/-- Claim C10, amended. Whatever `operator==` of `Vertex` is: `loadModel` returns whenever
every mesh index builds a vertex (no undefined read or overflow); and after a returning
`loadModel`, `indices` has one entry per mesh index, every entry is smaller than
`vertices.size()`, and the previous contents of the builder play no part. If moreover
`operator==` holds only between equal vertices and every vertex built compares equal to
itself (no NaN member), then `vertices` holds exactly the vertices built from the mesh
indices, each once, in order of first occurrence, the entry of `indices` for the `j`-th mesh
index is the position of its vertex reduced modulo `2 ^ 32`, and, provided there are at most
`2 ^ 32` distinct vertices, `vertices[indices[j]]` is the vertex built from the `j`-th mesh
index. -/
theorem loadModel_indexes_unique_vertices [Zero α] [One α] [Sub α] [DecidableEq α]
    (keyEq : Vertex α → Vertex α → Bool)
    (attrib : tinyobj.attrib_t α) (shapes : List tinyobj.shape_t) (b : Builder α) :
    ((∀ index ∈ meshIndices shapes, (buildVertex attrib index).isSome = true) →
      ∃ b1, Builder.loadModel keyEq (.ok (attrib, shapes)) b = .returned b1) ∧
    (∀ b1, Builder.loadModel keyEq (.ok (attrib, shapes)) b = .returned b1 →
      b1.indices.length = (meshIndices shapes).length ∧
      (∀ i ∈ b1.indices, i < b1.vertices.length) ∧
      (∀ b2, Builder.loadModel keyEq (.ok (attrib, shapes)) b2 = .returned b1) ∧
      ((∀ v w, keyEq v w = true → v = w) →
        (∀ index ∈ meshIndices shapes, ∀ v, buildVertex attrib index = some v →
          keyEq v v = true) →
        b1.vertices.Nodup ∧
        (∃ built, buildAll attrib (meshIndices shapes) = some built ∧
          b1.vertices = firstOccurrences built) ∧
        (∀ v, v ∈ b1.vertices ↔
          ∃ index ∈ meshIndices shapes, buildVertex attrib index = some v) ∧
        (∀ (j : Nat) (index : tinyobj.index_t), (meshIndices shapes)[j]? = some index →
          ∃ v, buildVertex attrib index = some v ∧ v ∈ b1.vertices ∧
            b1.indices[j]? = some (toUint32 (List.indexOf v b1.vertices)) ∧
            (b1.vertices.length ≤ 2 ^ 32 →
              b1.vertices[toUint32 (List.indexOf v b1.vertices)]? = some v)))) := by
  constructor
  · intro hall
    obtain ⟨built, hbuilt⟩ := Option.isSome_iff_exists.mp (buildAll_isSome attrib _ hall)
    exact ⟨_, loadModel_of_built keyEq attrib shapes b built hbuilt⟩
  intro b1 h
  obtain ⟨built, hbuilt, hv0, hi0⟩ := loadModel_fold keyEq attrib shapes b b1 h
  obtain ⟨hlen, hget⟩ := buildAll_getElem attrib _ built hbuilt
  refine ⟨?_, ?_, ?_, ?_⟩
  · rw [hi0, foldl_indices_length, hlen]
    exact Nat.zero_add _
  · rw [hi0, hv0]
    exact foldl_bound keyEq built ⟨[], [], []⟩
      ⟨fun e he => absurd he (List.not_mem_nil e), fun i hi => absurd hi (List.not_mem_nil i)⟩
  · intro b2
    rw [loadModel_of_built keyEq attrib shapes b2 built hbuilt]
    have h2 := loadModel_of_built keyEq attrib shapes b built hbuilt
    rw [h] at h2
    exact h2.symm
  intro hs hrefl
  have hr : ∀ v ∈ built, keyEq v v = true := by
    intro v hv
    obtain ⟨index, hi, hb⟩ := (buildAll_mem attrib _ built hbuilt v).mp hv
    exact hrefl index hi v hb
  obtain ⟨hverts, hidx⟩ := loadModel_returned keyEq hs attrib shapes b b1 built hbuilt hr h
  have hmem : ∀ v, v ∈ b1.vertices ↔ v ∈ built := by
    intro v
    rw [hverts]
    exact mem_firstOccurrences built v
  refine ⟨?_, ⟨built, hbuilt, hverts⟩, ?_, ?_⟩
  · rw [hverts]
    exact nodup_firstOccurrences built
  · intro v
    rw [hmem v]
    exact buildAll_mem attrib _ built hbuilt v
  · intro j index hj
    obtain ⟨v, hv, hb⟩ := hget j index hj
    have hvm : v ∈ b1.vertices := (hmem v).mpr (List.getElem?_mem hv)
    have hlt : List.indexOf v b1.vertices < b1.vertices.length := List.indexOf_lt_length.mpr hvm
    refine ⟨v, hb, hvm, ?_, ?_⟩
    · rw [hidx, List.getElem?_map, hv]
      rfl
    · intro hsmall
      have : toUint32 (List.indexOf v b1.vertices) = List.indexOf v b1.vertices :=
        Nat.mod_eq_of_lt (lt_of_lt_of_le hlt hsmall)
      rw [this, ← List.get?_eq_getElem?]
      exact List.indexOf_get? hvm

/-- The unit square loaded as two triangles, into a builder with stale contents: the six
mesh indices become the indices `[0, 1, 2, 0, 2, 3]` into four distinct vertices. -/
theorem loadModel_indexes_unique_vertices_witness :
    Builder.loadModel exactEq (.ok (quadAttrib, quadShapes))
        ⟨[⟨⟨5, 5, 5⟩, ⟨0, 0, 0⟩, ⟨0, 0, 0⟩, ⟨0, 0⟩⟩], [7]⟩ = .returned quadBuilder ∧
    quadBuilder.indices.length = (meshIndices quadShapes).length ∧
    (∀ i ∈ quadBuilder.indices, i < quadBuilder.vertices.length) ∧
    (∀ b2, Builder.loadModel exactEq (.ok (quadAttrib, quadShapes)) b2
      = .returned quadBuilder) ∧
    quadBuilder.vertices.Nodup ∧
    (∃ built, buildAll quadAttrib (meshIndices quadShapes) = some built ∧
      quadBuilder.vertices = firstOccurrences built) ∧
    (∀ v, v ∈ quadBuilder.vertices ↔
      ∃ index ∈ meshIndices quadShapes, buildVertex quadAttrib index = some v) ∧
    (∀ (j : Nat) (index : tinyobj.index_t), (meshIndices quadShapes)[j]? = some index →
      ∃ v, buildVertex quadAttrib index = some v ∧ v ∈ quadBuilder.vertices ∧
        quadBuilder.indices[j]? = some (toUint32 (List.indexOf v quadBuilder.vertices)) ∧
        (quadBuilder.vertices.length ≤ 2 ^ 32 →
          quadBuilder.vertices[toUint32 (List.indexOf v quadBuilder.vertices)]? = some v)) :=
  have h := (loadModel_indexes_unique_vertices exactEq quadAttrib quadShapes
    ⟨[⟨⟨5, 5, 5⟩, ⟨0, 0, 0⟩, ⟨0, 0, 0⟩, ⟨0, 0⟩⟩], [7]⟩).2 quadBuilder loadModel_quad
  ⟨loadModel_quad, h.1, h.2.1, h.2.2.1,
    h.2.2.2 (fun v w hvw => (exactEq_iff v w).mp hvw) (fun _ _ v _ => exactEq_self v)⟩

/-! ### Vertex colours in `loadModel` -/

theorem toSizeT_nat (n : Nat) (h : n < 2 ^ 64) : toSizeT ((n : Nat) : Int) = n := by
  unfold toSizeT
  omega

theorem readAt_nat {β : Type} (xs : List β) (n : Nat) (h : n < 2 ^ 31) :
    readAt xs ((n : Nat) : Int) = xs[n]? := by
  unfold readAt
  rw [toSizeT_nat n (by omega)]

theorem scaledIndex_overflow (v k : Nat) (h : 2 ^ 31 ≤ 3 * v + k) :
    scaledIndex 3 (v : Int) (k : Int) = none := by
  unfold scaledIndex int32
  by_cases h3 : 3 * v < 2 ^ 31
  · rw [if_pos (by omega), Option.some_bind, if_neg (by omega)]
  · rw [if_neg (by omega)]
    rfl

/-- The block `if (index.vertex_index >= 0)` on a non-negative index without `int`
overflow, in terms of plain list lookups. -/
theorem setPositionColor_nat [One α] (attrib : tinyobj.attrib_t α) (index : tinyobj.index_t)
    (v : Nat) (hv : index.vertex_index = (v : Int)) (h31 : 3 * v + 2 < 2 ^ 31)
    (vertex : Vertex α) :
    setPositionColor attrib index vertex =
      (attrib.vertices[3 * v]?).bind fun p0 =>
      (attrib.vertices[3 * v + 1]?).bind fun p1 =>
      (attrib.vertices[3 * v + 2]?).bind fun p2 =>
        if 3 * v + 2 < attrib.colors.length then
          (attrib.colors[3 * v]?).bind fun c0 =>
          (attrib.colors[3 * v + 1]?).bind fun c1 =>
          (attrib.colors[3 * v + 2]?).bind fun c2 =>
            some { vertex with position := ⟨p0, p1, p2⟩, color := ⟨c0, c1, c2⟩ }
        else
          some { vertex with position := ⟨p0, p1, p2⟩, color := ⟨1, 1, 1⟩ } := by
  have s0 := scaledIndex_nat 3 v 0 (by omega)
  have s1 := scaledIndex_nat 3 v 1 (by omega)
  have s2 := scaledIndex_nat 3 v 2 (by omega)
  simp only [Nat.cast_ofNat, Nat.cast_zero, Nat.cast_one, Nat.add_zero] at s0 s1 s2
  have e0 : ((3 * v + 2 : Nat) : Int) - 2 = ((3 * v : Nat) : Int) := by omega
  have e1 : ((3 * v + 2 : Nat) : Int) - 1 = ((3 * v + 1 : Nat) : Int) := by omega
  have e2 : ((3 * v + 2 : Nat) : Int) - 0 = ((3 * v + 2 : Nat) : Int) := by omega
  have i0 := int32_nat (3 * v) (by omega)
  have i1 := int32_nat (3 * v + 1) (by omega)
  have i2 := int32_nat (3 * v + 2) (by omega)
  unfold setPositionColor
  rw [hv, if_pos (Int.natCast_nonneg v)]
  simp only [s0, s1, s2, e0, e1, e2, i0, i1, i2, Option.some_bind, Option.bind_eq_bind, Option.pure_def,
    readAt_nat _ _ (show 3 * v < 2 ^ 31 by omega),
    readAt_nat _ _ (show 3 * v + 1 < 2 ^ 31 by omega),
    readAt_nat _ _ h31, toSizeT_nat _ (show 3 * v + 2 < 2 ^ 64 by omega)]

theorem setPositionColor_overflow [One α] (attrib : tinyobj.attrib_t α)
    (index : tinyobj.index_t) (v : Nat) (hv : index.vertex_index = (v : Int))
    (h31 : ¬3 * v + 2 < 2 ^ 31) (vertex : Vertex α) :
    setPositionColor attrib index vertex = none := by
  have s2 := scaledIndex_overflow v 2 (by omega)
  simp only [Nat.cast_ofNat] at s2
  unfold setPositionColor
  rw [hv, if_pos (Int.natCast_nonneg v)]
  simp only [s2, Option.bind_eq_bind, Option.none_bind, Option.bind_none]

/-- The block `if (index.vertex_index >= 0)` is defined exactly when its three position
reads are: the colour reads never leave the colour array. -/
theorem setPositionColor_isSome [One α] (attrib : tinyobj.attrib_t α)
    (index : tinyobj.index_t) (v : Nat) (hv : index.vertex_index = (v : Int))
    (vertex : Vertex α) :
    (setPositionColor attrib index vertex).isSome = true
      ↔ 3 * v + 2 < 2 ^ 31 ∧ 3 * v + 2 < attrib.vertices.length := by
  by_cases h31 : 3 * v + 2 < 2 ^ 31
  · rw [setPositionColor_nat attrib index v hv h31 vertex]
    by_cases hlen : 3 * v + 2 < attrib.vertices.length
    · rw [List.getElem?_eq_getElem (show 3 * v < attrib.vertices.length by omega),
        List.getElem?_eq_getElem (show 3 * v + 1 < attrib.vertices.length by omega),
        List.getElem?_eq_getElem hlen]
      simp only [Option.some_bind]
      by_cases hcol : 3 * v + 2 < attrib.colors.length
      · rw [if_pos hcol,
          List.getElem?_eq_getElem (show 3 * v < attrib.colors.length by omega),
          List.getElem?_eq_getElem (show 3 * v + 1 < attrib.colors.length by omega),
          List.getElem?_eq_getElem hcol]
        exact ⟨fun _ => ⟨h31, hlen⟩, fun _ => rfl⟩
      · rw [if_neg hcol]
        exact ⟨fun _ => ⟨h31, hlen⟩, fun _ => rfl⟩
    · rw [List.getElem?_eq_none (show attrib.vertices.length ≤ 3 * v + 2 by omega)]
      simp only [Option.none_bind, Option.bind_none]
      exact ⟨fun h => (by cases h), fun h => absurd h.2 hlen⟩
  · rw [setPositionColor_overflow attrib index v hv h31 vertex]
    exact ⟨fun h => (by cases h), fun h => absurd h.1 h31⟩

theorem setPositionColor_color [One α] (attrib : tinyobj.attrib_t α)
    (index : tinyobj.index_t) (v : Nat) (hv : index.vertex_index = (v : Int))
    (vertex w : Vertex α) (h : setPositionColor attrib index vertex = some w) :
    SpecifiedColor attrib.colors v w.color := by
  by_cases h31 : 3 * v + 2 < 2 ^ 31
  · rw [setPositionColor_nat attrib index v hv h31 vertex] at h
    cases h0 : attrib.vertices[3 * v]? with
    | none => simp [h0] at h
    | some p0 =>
      cases h1 : attrib.vertices[3 * v + 1]? with
      | none => simp [h0, h1] at h
      | some p1 =>
        cases h2 : attrib.vertices[3 * v + 2]? with
        | none => simp [h0, h1, h2] at h
        | some p2 =>
          simp only [h0, h1, h2, Option.some_bind] at h
          by_cases hcol : 3 * v + 2 < attrib.colors.length
          · rw [if_pos hcol] at h
            cases c0 : attrib.colors[3 * v]? with
            | none => simp [c0] at h
            | some a0 =>
              cases c1 : attrib.colors[3 * v + 1]? with
              | none => simp [c0, c1] at h
              | some a1 =>
                cases c2 : attrib.colors[3 * v + 2]? with
                | none => simp [c0, c1, c2] at h
                | some a2 =>
                  simp only [c0, c1, c2, Option.some_bind, Option.some.injEq] at h
                  subst h
                  exact ⟨fun _ => ⟨c0, c1, c2⟩, fun hn => absurd hcol hn⟩
          · rw [if_neg hcol, Option.some.injEq] at h
            subst h
            exact ⟨fun hp => absurd hp hcol, fun _ => rfl⟩
  · rw [setPositionColor_overflow attrib index v hv h31 vertex] at h
    cases h

theorem setNormal_color (attrib : tinyobj.attrib_t α) (index : tinyobj.index_t)
    (vertex w : Vertex α) (h : setNormal attrib index vertex = some w) :
    w.color = vertex.color := by
  unfold setNormal at h
  split at h
  · simp only [Option.bind_eq_bind, Option.pure_def, Option.bind_eq_some] at h
    obtain ⟨_, _, _, _, _, _, h⟩ := h
    rw [Option.some.injEq] at h
    subst h
    rfl
  · simp only [Option.pure_def, Option.some.injEq] at h
    subst h
    rfl

theorem setUv_color [One α] [Sub α] (attrib : tinyobj.attrib_t α) (index : tinyobj.index_t)
    (vertex w : Vertex α) (h : setUv attrib index vertex = some w) :
    w.color = vertex.color := by
  unfold setUv at h
  split at h
  · simp only [Option.bind_eq_bind, Option.pure_def, Option.bind_eq_some] at h
    obtain ⟨_, _, _, _, h⟩ := h
    rw [Option.some.injEq] at h
    subst h
    rfl
  · simp only [Option.pure_def, Option.some.injEq] at h
    subst h
    rfl

/-- The colour chosen in the block `if (index.vertex_index >= 0)` is the colour of the vertex
the loop body builds. -/
theorem buildVertex_color [Zero α] [One α] [Sub α] (attrib : tinyobj.attrib_t α)
    (index : tinyobj.index_t) (w : Vertex α) (h : buildVertex attrib index = some w) :
    ∃ w0, setPositionColor attrib index ⟨⟨0, 0, 0⟩, ⟨0, 0, 0⟩, ⟨0, 0, 0⟩, ⟨0, 0⟩⟩ = some w0 ∧
      w.color = w0.color := by
  unfold buildVertex at h
  simp only [Option.bind_eq_some] at h
  obtain ⟨w1, ⟨w0, h0, h1⟩, h2⟩ := h
  exact ⟨w0, h0, (setUv_color attrib index w1 w h2).trans (setNormal_color attrib index w0 w1 h1)⟩

/-- After a returning `loadModel` the vertex built from every mesh index is in `vertices`,
as long as `operator==` only holds between equal vertices; a NaN member does not matter. -/
theorem loadModel_mem [Zero α] [One α] [Sub α]
    (keyEq : Vertex α → Vertex α → Bool) (hs : ∀ v w, keyEq v w = true → v = w)
    (attrib : tinyobj.attrib_t α) (shapes : List tinyobj.shape_t) (b b1 : Builder α)
    (h : Builder.loadModel keyEq (.ok (attrib, shapes)) b = .returned b1)
    (index : tinyobj.index_t) (hi : index ∈ meshIndices shapes) :
    ∃ w ∈ b1.vertices, buildVertex attrib index = some w := by
  obtain ⟨built, hbuilt, hverts, _⟩ := loadModel_fold keyEq attrib shapes b b1 h
  obtain ⟨j, hj, hij⟩ := List.getElem_of_mem hi
  obtain ⟨w, hw, hb⟩ := (buildAll_getElem attrib _ built hbuilt).2 j index
    (by rw [List.getElem?_eq_getElem hj, hij])
  refine ⟨w, ?_, hb⟩
  rw [hverts]
  exact (foldl_mem keyEq hs built ⟨[], [], []⟩
    (fun e he => absurd he (List.not_mem_nil e))).2 w (List.getElem?_mem hw)

/-- The colour branch of `loadModel` on a non-negative index: the `int` value `colorIndex`
is `3v+2`, the test against `colors.size()` is the test `3v+2 < colors.size()`, and the
three reads are the lookups at `3v`, `3v+1`, `3v+2`. -/
theorem colorIndex_reads (colors : List α) (v : Nat) (colorIndex : Int)
    (h : scaledIndex 3 (v : Int) 2 = some colorIndex) :
    colorIndex = ((3 * v + 2 : Nat) : Int) ∧
    (toSizeT colorIndex < colors.length ↔ 3 * v + 2 < colors.length) ∧
    (int32 (colorIndex - 2)).bind (readAt colors) = colors[3 * v]? ∧
    (int32 (colorIndex - 1)).bind (readAt colors) = colors[3 * v + 1]? ∧
    (int32 (colorIndex - 0)).bind (readAt colors) = colors[3 * v + 2]? := by
  by_cases h31 : 3 * v + 2 < 2 ^ 31
  · have s2 := scaledIndex_nat 3 v 2 h31
    simp only [Nat.cast_ofNat] at s2
    rw [s2, Option.some.injEq] at h
    subst h
    have e0 : ((3 * v + 2 : Nat) : Int) - 2 = ((3 * v : Nat) : Int) := by omega
    have e1 : ((3 * v + 2 : Nat) : Int) - 1 = ((3 * v + 1 : Nat) : Int) := by omega
    have e2 : ((3 * v + 2 : Nat) : Int) - 0 = ((3 * v + 2 : Nat) : Int) := by omega
    refine ⟨rfl, ?_, ?_, ?_, ?_⟩
    · rw [toSizeT_nat _ (show 3 * v + 2 < 2 ^ 64 by omega)]
    · rw [e0, int32_nat _ (by omega), Option.some_bind, readAt_nat _ _ (by omega)]
    · rw [e1, int32_nat _ (by omega), Option.some_bind, readAt_nat _ _ (by omega)]
    · rw [e2, int32_nat _ h31, Option.some_bind, readAt_nat _ _ h31]
  · have s2 := scaledIndex_overflow v 2 (by omega)
    simp only [Nat.cast_ofNat] at s2
    rw [s2] at h
    cases h

theorem loadModel_tint :
    Builder.loadModel exactEq (.ok (tintAttrib, tintShapes)) ⟨[], []⟩ = .returned tintBuilder := by
  rfl

/-- Claim C11: for a mesh index with `vertex_index = v ≥ 0`, (1) whenever the `int`
computation of `colorIndex = 3 * vertex_index + 2` is defined, it is `3v+2`, the test
`colorIndex < colors.size()` is the test `3v+2 < colors.size()`, and the reads at
`colorIndex-2`, `colorIndex-1`, `colorIndex` are the lookups at `3v`, `3v+1`, `3v+2`, which
lie inside the colour array when the test holds; (2) the block of `loadModel` that sets
position and colour is defined exactly when its three position reads are, so the colour reads
never leave the colour array; (3) whenever that block yields a vertex, and (4) whenever the
loop body builds a vertex, its colour is `(colors[3v], colors[3v+1], colors[3v+2])` when
`3v+2 < colors.size()` and white `(1, 1, 1)` otherwise; (5) after a returning `loadModel`
the vertex built from every such mesh index is in `vertices` with that colour, whatever
`operator==` of `Vertex` is, as long as it holds only between equal vertices (a NaN member
does not matter). -/
theorem loadModel_vertex_color [Zero α] [One α] [Sub α]
    (attrib : tinyobj.attrib_t α) (index : tinyobj.index_t) (v : Nat)
    (hv : index.vertex_index = (v : Int)) :
    (∀ colorIndex, scaledIndex 3 index.vertex_index 2 = some colorIndex →
      colorIndex = ((3 * v + 2 : Nat) : Int) ∧
      (toSizeT colorIndex < attrib.colors.length ↔ 3 * v + 2 < attrib.colors.length) ∧
      (int32 (colorIndex - 2)).bind (readAt attrib.colors) = attrib.colors[3 * v]? ∧
      (int32 (colorIndex - 1)).bind (readAt attrib.colors) = attrib.colors[3 * v + 1]? ∧
      (int32 (colorIndex - 0)).bind (readAt attrib.colors) = attrib.colors[3 * v + 2]? ∧
      (3 * v + 2 < attrib.colors.length →
        (attrib.colors[3 * v]?).isSome = true ∧ (attrib.colors[3 * v + 1]?).isSome = true ∧
          (attrib.colors[3 * v + 2]?).isSome = true)) ∧
    (∀ vertex, (setPositionColor attrib index vertex).isSome = true
      ↔ 3 * v + 2 < 2 ^ 31 ∧ 3 * v + 2 < attrib.vertices.length) ∧
    (∀ vertex w, setPositionColor attrib index vertex = some w →
      SpecifiedColor attrib.colors v w.color) ∧
    (∀ w, buildVertex attrib index = some w → SpecifiedColor attrib.colors v w.color) ∧
    (∀ (keyEq : Vertex α → Vertex α → Bool) shapes b b1,
      (∀ x y, keyEq x y = true → x = y) → index ∈ meshIndices shapes →
      Builder.loadModel keyEq (.ok (attrib, shapes)) b = .returned b1 →
      ∃ w ∈ b1.vertices, buildVertex attrib index = some w ∧
        SpecifiedColor attrib.colors v w.color) := by
  have hbuild : ∀ w, buildVertex attrib index = some w →
      SpecifiedColor attrib.colors v w.color := by
    intro w hw
    obtain ⟨w0, h0, hc⟩ := buildVertex_color attrib index w hw
    rw [hc]
    exact setPositionColor_color attrib index v hv _ w0 h0
  refine ⟨?_, fun vertex => setPositionColor_isSome attrib index v hv vertex,
    fun vertex w h => setPositionColor_color attrib index v hv vertex w h, hbuild, ?_⟩
  · intro colorIndex hc
    rw [hv] at hc
    obtain ⟨h1, h2, h3, h4, h5⟩ := colorIndex_reads attrib.colors v colorIndex hc
    refine ⟨h1, h2, h3, h4, h5, fun hlt => ⟨?_, ?_, ?_⟩⟩
    · rw [List.getElem?_eq_getElem (show 3 * v < attrib.colors.length by omega)]
      rfl
    · rw [List.getElem?_eq_getElem (show 3 * v + 1 < attrib.colors.length by omega)]
      rfl
    · rw [List.getElem?_eq_getElem hlt]
      rfl
  · intro keyEq shapes b b1 hs hi h
    obtain ⟨w, hw, hb⟩ := loadModel_mem keyEq hs attrib shapes b b1 h index hi
    exact ⟨w, hw, hb, hbuild w hb⟩

/-- The tinted triangle: corner 1 takes its colour from entries 3, 4, 5 of the colour array
and corner 2, whose colour index 8 is past the six entries, is white. -/
theorem loadModel_vertex_color_witness :
    (tinyobj.index_t.mk 1 (-1) (-1)).vertex_index = ((1 : Nat) : Int) ∧
    Builder.loadModel exactEq (.ok (tintAttrib, tintShapes)) ⟨[], []⟩ = .returned tintBuilder ∧
    buildVertex tintAttrib ⟨1, -1, -1⟩ = some ⟨⟨1, 0, 0⟩, ⟨4, 5, 6⟩, ⟨0, 0, 0⟩, ⟨0, 0⟩⟩ ∧
    SpecifiedColor tintAttrib.colors 1 (⟨4, 5, 6⟩ : Vec3 ℚ) ∧
    buildVertex tintAttrib ⟨2, -1, -1⟩ = some ⟨⟨0, 1, 0⟩, ⟨1, 1, 1⟩, ⟨0, 0, 0⟩, ⟨0, 0⟩⟩ ∧
    ∃ w ∈ tintBuilder.vertices, buildVertex tintAttrib ⟨1, -1, -1⟩ = some w ∧
      SpecifiedColor tintAttrib.colors 1 w.color :=
  ⟨rfl, loadModel_tint, rfl,
    (loadModel_vertex_color tintAttrib ⟨1, -1, -1⟩ 1 rfl).2.2.2.1
      ⟨⟨1, 0, 0⟩, ⟨4, 5, 6⟩, ⟨0, 0, 0⟩, ⟨0, 0⟩⟩ (by rfl), rfl,
    (loadModel_vertex_color tintAttrib ⟨1, -1, -1⟩ 1 rfl).2.2.2.2 exactEq tintShapes ⟨[], []⟩
      tintBuilder (fun x y hxy => (exactEq_iff x y).mp hxy) (by simp [meshIndices, tintShapes])
      loadModel_tint⟩

end LgeModel

end lge
